import Mathlib

/-!
# wemon: telemetry publisher and auto-focus controller

A shallow embedding of the parts of the weather-monitoring daemon that the
specification talks about: `EnvMonitor::upload_pdxp` (EnvMonitor.cpp) with the
wire structures of ProtocolPDXP.h, `FocusAutoAlgo` (FocusAutoAlgo.h) and the
focus branch of `CloudCamera::thread_reduce` (CloudCamera.cpp) with the
messages of ProtoFocus.h.

Conventions of the embedding.
* Machine integers are `Int`; a store into a fixed-width field is an explicit
  wrap (`toUInt16`, `toInt32`, ...).
* `float`/`double` values are rationals: the arithmetic of the source is
  carried out exactly, a C++ conversion `int(x)` is truncation toward zero.
* A step whose C++ behaviour is undefined (integer division by zero, a
  floating value that does not fit the target integer) yields `none`.
* A shared pointer is an `Option`: `none` where `unique()` answers false.
* Memory that the source never writes before reading or sending it is an
  explicit input of the model.
-/

namespace Wemon

/-! ## Machine integers -/

/-- Store into a `uint8_t`. -/
def toUInt8 (x : Int) : Int := x % 256

/-- Store into a `uint16_t`. -/
def toUInt16 (x : Int) : Int := x % 65536

/-- Store into a `uint32_t`. -/
def toUInt32 (x : Int) : Int := x % 4294967296

/-- Store into an `int16_t` (two's complement). -/
def toInt16 (x : Int) : Int := (x + 32768) % 65536 - 32768

/-- Store into an `int32_t` / `int` (two's complement). -/
def toInt32 (x : Int) : Int := (x + 2147483648) % 4294967296 - 2147483648

/-- Conversion of a floating value to an integer: the fraction is discarded
(rounding toward zero). -/
def truncQ (q : ℚ) : Int := Int.tdiv q.num (q.den : Int)

def UINT8_MAX : Int := 255
def INT16_MAX : Int := 32767
def UINT16_MAX : Int := 65535
def INT32_MAX : Int := 2147483647
def UINT32_MAX : Int := 4294967295

/-! ## ProtocolPDXP.h -/

def SID : Int := 0x50001001
def BID_QXZSY : Int := 0x50000001

/-- The frame head of every PDXP datagram (`struct FrameHead`). -/
structure FrameHead where
  ver : Int
  sid : Int
  bid : Int
  pno : Int
  len : Int
  deriving DecidableEq

/-- One zone record on the wire (`struct PDXP_Cloudage`). -/
structure PDXP_Cloudage where
  azi : Int
  alt : Int
  level : Int
  deriving DecidableEq

/-- The fixed part of the telemetry datagram (`struct PDXP_QXZSY`), without
its trailing zone array. -/
structure PDXP_QXZSY extends FrameHead where
  date : Int
  time : Int
  wea_state : Int
  wea_date : Int
  wea_time : Int
  temp : Int
  humidity : Int
  airpres : Int
  windspd : Int
  winddir : Int
  rainfall : Int
  cloud_percent : Int
  sqm_state : Int
  sqm_date : Int
  sqm_time : Int
  sqm_bkmag : Int
  cloud_state : Int
  cloud_date : Int
  cloud_time : Int
  zone_count : Int
  azi_step : Int
  alt_step : Int
  pack_count : Int
  pack_no : Int

/-- What the publisher takes from outside the modelled code: the clock read by
`Now2DateTimeBJ`, the calendar conversion `UTC2DateTimeBJ`, and the content of
the two fields of a fresh `PDXP_QXZSY` that no constructor writes
(`FrameHead::len` and `cloud_percent`). -/
structure Env where
  nowDate : Int
  nowTime : Int
  UTC2DateTimeBJ : String → Int × Int
  uninitLen : Int
  uninitCloudPercent : Int

/-- The constructors `FrameHead()` and `PDXP_QXZSY()`. -/
def PDXP_QXZSY.new (env : Env) : PDXP_QXZSY :=
  { ver := 0x8080
    sid := SID
    bid := BID_QXZSY
    pno := 1
    len := env.uninitLen
    date := env.nowDate
    time := env.nowTime
    wea_state := toUInt8 UINT8_MAX
    wea_date := toInt32 INT32_MAX
    wea_time := toInt32 INT32_MAX
    temp := toInt16 INT16_MAX
    humidity := toUInt16 INT16_MAX
    airpres := toUInt16 INT16_MAX
    windspd := toUInt16 INT16_MAX
    winddir := toUInt16 INT16_MAX
    rainfall := toUInt16 INT16_MAX
    cloud_percent := env.uninitCloudPercent
    sqm_state := toUInt8 0xFF
    sqm_date := toInt32 INT32_MAX
    sqm_time := toInt32 INT32_MAX
    sqm_bkmag := toInt16 INT16_MAX
    cloud_state := toUInt8 UINT8_MAX
    cloud_date := toInt32 INT32_MAX
    cloud_time := toInt32 INT32_MAX
    zone_count := toUInt16 0
    azi_step := toUInt32 INT32_MAX
    alt_step := toUInt32 INT32_MAX
    pack_count := toUInt16 0
    pack_no := toUInt16 1 }

/-- The value of `sizeof(FrameHead)` under `#pragma pack(1)`. -/
def sizeofFrameHead : Int := 2 + 4 + 4 + 4 + 2

/-- The value of `sizeof(PDXP_Cloudage)` under `#pragma pack(1)`. -/
def sizeofPDXP_Cloudage : Int := 4 + 4 + 2

/-- The value of `sizeof(PDXP_QXZSY)` under `#pragma pack(1)`: head, fixed
fields and the one-element zone array. -/
def sizeofPDXP_QXZSY : Int :=
  sizeofFrameHead + (4 + 4) + (1 + 4 + 4) + (2 + 2 + 2 + 2 + 2 + 2) + 2
    + (1 + 4 + 4 + 2) + (1 + 4 + 4) + 2 + 4 + 4 + 2 + 2 + sizeofPDXP_Cloudage

/-! ## Producer snapshots (WeatherStation.h, SQM.h, CloudCamera.h, ReadCloudage.h) -/

def WEA_SUCCESS : Int := 0
def WEA_FAIL_CONNECT : Int := 1
def WEA_NO_DATA : Int := 2
def SQM_SUCCESS : Int := 0
def SQM_FAIL_CONNECT : Int := 1
def SQM_CLOSED : Int := 2
def SQM_NO_DATA : Int := 3
def WMC_SUCCESS : Int := 0
def WMC_FAIL_CONNECT : Int := 1
def WMC_FAIL_READOUT : Int := 2
def WMCA_SUCCESS : Int := 0
def WMCA_NO_DATA : Int := 1
def WMCA_TOO_OLD : Int := 2

structure InfoWeather where
  state : Int
  utc : String
  temperature : ℚ
  humidity : ℚ
  pressure : ℚ
  windSpeed : ℚ
  windOrient : Int
  rainFall : Int

/-- The weather station as the publisher sees it: `IsRun()` and `GetInfo()`. -/
structure WeatherStation where
  IsRun : Bool
  info : InfoWeather

structure InfoSQM where
  state : Int
  utc : String
  mpsas : ℚ

/-- The SQM poller as the publisher sees it: `IsConnected()` and `GetInfo()`. -/
structure SQM where
  IsConnected : Bool
  info : InfoSQM

structure InfoCloudCamera where
  state : Int

/-- One zone of the cloud map: `std::tuple<float, float, int>` (azimuth,
elevation, level). -/
structure CloudAge where
  az : ℚ
  el : ℚ
  level : Int

/-- The fields of `InfoCloudage` that the publisher reads. -/
structure InfoCloudage where
  state : Int
  utc : String
  azStep : ℚ
  elStep : ℚ
  zones : List CloudAge

/-- The members of `EnvMonitor` that `upload_pdxp` reads. -/
structure EnvMonitor where
  camCloudPtr_ : Option InfoCloudCamera
  weaStatPtr_ : Option WeatherStation
  sqmPtr_ : Option SQM
  readCloudagePtr_ : InfoCloudage

/-- One call of `UdpSession::WriteTo`: the fixed part, the zone records that
follow it in the buffer, and the byte count handed to the socket. -/
structure Datagram where
  msg : PDXP_QXZSY
  cloud : List PDXP_Cloudage
  bytes : Int

/-! ## EnvMonitor::upload_pdxp -/

/-- The local `zone_max`: zones per datagram. -/
def zone_max : Int := 72

/-- Lines 367-374: the cloud state byte. The guard
`camCloudPtr_.unique() && camCloudPtr_->GetInfo()->state != WMC_SUCCESS` is
short-circuit: the camera state is read only when the pointer is set. -/
def fillCloudState (self : EnvMonitor) (qxzsy : PDXP_QXZSY) : PDXP_QXZSY :=
  let camBad : Bool :=
    match self.camCloudPtr_ with
    | some cam => decide (cam.state ≠ WMC_SUCCESS)
    | none => false
  if camBad then { qxzsy with cloud_state := toUInt8 1 }
  else
    let state := self.readCloudagePtr_.state
    let code : Int := if state = WMCA_NO_DATA then 1 else (if state = WMCA_TOO_OLD then 2 else 0)
    { qxzsy with cloud_state := toUInt8 code }

/-- Lines 379-384: the cloud map's basic fields, written when the state byte
is 0. -/
def fillCloudBasic (env : Env) (nfCloudage : InfoCloudage) (pack_count : Int)
    (qxzsy : PDXP_QXZSY) : PDXP_QXZSY :=
  if qxzsy.cloud_state = 0 then
    { qxzsy with
      cloud_date := toInt32 (env.UTC2DateTimeBJ nfCloudage.utc).1
      cloud_time := toInt32 (env.UTC2DateTimeBJ nfCloudage.utc).2
      azi_step := toUInt32 (toInt32 (truncQ (nfCloudage.azStep * 10)))
      alt_step := toUInt32 (toInt32 (truncQ (nfCloudage.elStep * 10)))
      pack_count := toUInt16 pack_count }
  else qxzsy

/-- Lines 386-405: the weather channel. -/
def fillWeather (env : Env) (self : EnvMonitor) (qxzsy : PDXP_QXZSY) : PDXP_QXZSY :=
  match self.weaStatPtr_ with
  | some wea =>
    if wea.IsRun then
      let nfWea := wea.info
      if nfWea.state = WEA_NO_DATA then { qxzsy with wea_state := toUInt8 2 }
      else
        { qxzsy with
          wea_state := toUInt8 0
          wea_date := toInt32 (env.UTC2DateTimeBJ nfWea.utc).1
          wea_time := toInt32 (env.UTC2DateTimeBJ nfWea.utc).2
          temp := toInt16 (truncQ (nfWea.temperature * 10))
          humidity := toUInt16 (toInt16 (truncQ (nfWea.humidity * 10)))
          airpres := toUInt16 (toInt16 (truncQ (nfWea.pressure * 10)))
          windspd := toUInt16 (toInt16 (truncQ (nfWea.windSpeed * 10)))
          winddir := toUInt16 (toInt16 (toInt32 (nfWea.windOrient * 10)))
          rainfall := toUInt16 (toInt16 nfWea.rainFall) }
    else { qxzsy with wea_state := toUInt8 0x01 }
  | none => { qxzsy with wea_state := toUInt8 0x01 }

/-- Lines 407-424: the night-sky brightness channel. -/
def fillSQM (env : Env) (self : EnvMonitor) (qxzsy : PDXP_QXZSY) : PDXP_QXZSY :=
  match self.sqmPtr_ with
  | none => { qxzsy with sqm_state := toUInt8 0x02 }
  | some sqm =>
    if !sqm.IsConnected then { qxzsy with sqm_state := toUInt8 0x01 }
    else
      let nfSQM := sqm.info
      if nfSQM.state = SQM_NO_DATA then { qxzsy with sqm_state := toUInt8 0x03 }
      else
        { qxzsy with
          sqm_state := toUInt8 0
          sqm_date := toInt32 (env.UTC2DateTimeBJ nfSQM.utc).1
          sqm_time := toInt32 (env.UTC2DateTimeBJ nfSQM.utc).2
          sqm_bkmag := toInt16 (truncQ (nfSQM.mpsas * 100)) }

/-- Lines 452-456: one zone converted for the wire. -/
def toPDXP_Cloudage (z : CloudAge) : PDXP_Cloudage :=
  { azi := toInt32 (truncQ (z.az * 10))
    alt := toInt32 (truncQ (z.el * 10))
    level := toInt16 z.level }

/-- Lines 448-465: the loop `for (pack_no = 1; pack_no <= pack_count; ++pack_no)`.
The first argument bounds the number of iterations still allowed; the loop
variables are `pack_no` and `zoneWritten`, and `qxzsy` is carried from one
iteration to the next as in the source. -/
def sendPacks (caSet : List CloudAge) (zone_count pack_count byteData0 : Int) :
    Nat → Int → Int → PDXP_QXZSY → List Datagram
  | 0, _, _, _ => []
  | fuel + 1, pack_no, zoneWritten, qxzsy =>
    if pack_no ≤ pack_count then
      let zoneWrite :=
        if zone_count - zoneWritten > zone_max then zone_max else zone_count - zoneWritten
      let caArray := ((caSet.drop zoneWritten.toNat).take zoneWrite.toNat).map toPDXP_Cloudage
      let qxzsy :=
        { qxzsy with
          len := toUInt16 (byteData0 - sizeofFrameHead + zoneWrite * sizeofPDXP_Cloudage)
          zone_count := toUInt16 zoneWrite
          pack_no := toUInt16 pack_no }
      { msg := qxzsy, cloud := caArray, bytes := qxzsy.len + sizeofFrameHead }
        :: sendPacks caSet zone_count pack_count byteData0 fuel (pack_no + 1)
            (zoneWritten + zoneWrite) qxzsy
    else []

/-- Line 377: `int zone_count = nfCloudage->zones.size()`. -/
def zoneCount (self : EnvMonitor) : Int := toInt32 self.readCloudagePtr_.zones.length

/-- Line 378: `int pack_count = (zone_count + zone_max - 1) / zone_max`. -/
def packCount (self : EnvMonitor) : Int :=
  Int.tdiv (toInt32 (zoneCount self + zone_max - 1)) zone_max

/-- Lines 361-424: the fixed part as it stands before the cloud map is
sharded: constructor, packet number, then the cloud, weather and SQM blocks in
the order of the source. -/
def fillFixed (env : Env) (self : EnvMonitor) (pno : Int) : PDXP_QXZSY :=
  let qxzsy := PDXP_QXZSY.new env
  let qxzsy := { qxzsy with pno := toUInt32 (pno + 1) }
  let qxzsy := fillCloudState self qxzsy
  let qxzsy := fillCloudBasic env self.readCloudagePtr_ (packCount self) qxzsy
  let qxzsy := fillWeather env self qxzsy
  fillSQM env self qxzsy

/-- Lines 441-444: the number of zones of level 7 or more. -/
def zoneGreater7 (caSet : List CloudAge) : Int :=
  caSet.countP (fun z => decide (z.level ≥ 7))

/-- The publisher `EnvMonitor::upload_pdxp`: the datagrams of one cycle in the
order they are handed to `WriteTo`, or `none` when the cycle divides by zero
(line 445 with an empty zone list). -/
def upload_pdxp (env : Env) (self : EnvMonitor) (pno : Int) : Option (List Datagram) :=
  let byteQXZSY := sizeofPDXP_QXZSY
  let bytePerCloudage := sizeofPDXP_Cloudage
  let qxzsy := fillFixed env self pno
  let pack_count := packCount self
  let byteData0 := byteQXZSY - bytePerCloudage
  if qxzsy.cloud_state ≠ 0 then
    let qxzsy := { qxzsy with cloud_percent := toUInt16 UINT16_MAX }
    let qxzsy := { qxzsy with len := toUInt16 (byteData0 - sizeofFrameHead) }
    some [{ msg := qxzsy, cloud := [], bytes := byteData0 }]
  else
    let caSet := self.readCloudagePtr_.zones
    let zone_count := toInt32 caSet.length
    let zone_greater_7 := zoneGreater7 caSet
    if zone_count = 0 then none
    else
      let qxzsy :=
        { qxzsy with
          cloud_percent := toUInt16 (Int.tdiv (toInt32 (zone_greater_7 * 1000)) zone_count) }
      some (sendPacks caSet zone_count pack_count byteData0 pack_count.toNat 1 0 qxzsy)

/-! ## FocusAutoAlgo.h -/

/-- The constant `__DBL_MAX__`, the largest finite double. -/
def DBL_MAX : ℚ := 2 ^ 1024 - 2 ^ 971

structure FocusAutoAlgo where
  expFwhm : ℚ
  expFwhmErr : ℚ
  fwhmLast : ℚ
  stepLast : Int

/-- `FocusAutoAlgo::Init`: `stepLast` is left as it was. -/
def FocusAutoAlgo.Init (self : FocusAutoAlgo) (fwhm err : ℚ) : FocusAutoAlgo :=
  { self with expFwhm := fwhm, expFwhmErr := err, fwhmLast := DBL_MAX }

/-- The conversion `int(x)` of a double: defined only when the truncated value
is representable in 32 bits. -/
def castInt (x : ℚ) : Option Int :=
  if -2147483648 ≤ truncQ x ∧ truncQ x ≤ 2147483647 then some (truncQ x) else none

/-- Lines 54-57 of `Push`: the cascade that clamps the step by magnitude. -/
def clampStep (step : Int) : Int :=
  if |step| > 5000 then (if step > 5000 then 5000 else -5000)
  else if |step| > 2000 then (if step > 2000 then 2000 else -2000)
  else if |step| > 500 then (if step > 500 then 500 else -500)
  else if |step| > 100 then (if step > 0 then 100 else -100)
  else step

/-- `FocusAutoAlgo::Push(fwhm, step)`: the return value, the content of the
reference parameter `step` afterwards, and the new algorithm state. The result
is `none` where line 53 divides by zero or converts a value that an `int`
cannot hold. -/
def FocusAutoAlgo.Push (self : FocusAutoAlgo) (fwhm : ℚ) (step : Int) :
    Option (Bool × Int × FocusAutoAlgo) :=
  if fwhm ≤ self.expFwhm + self.expFwhmErr then some (true, step, self)
  else
    let computed : Option Int :=
      if self.fwhmLast = DBL_MAX then some 500
      else if fwhm - self.fwhmLast = 0 then none
      else
        (castInt ((self.expFwhm - fwhm) * self.stepLast * 80 / (fwhm - self.fwhmLast))).map
          fun t => clampStep (Int.tdiv t 100)
    computed.map fun step =>
      (decide (|step| < 100), step, { self with stepLast := step, fwhmLast := fwhm })

/-! ## ProtoFocus.h -/

def FOCUS_CHECK_CODE : Int := 0xFEDCBA98
def TYPE_FOCUS_BEGIN : Int := 0x1
def TYPE_FOCUS_END : Int := 0x2
def TYPE_FOCUS_MOVE : Int := 0x3
def TYPE_FOCUS_LIMIT : Int := 0x4

structure ProtoFocusBase where
  type : Int
  check : Int
  deriving DecidableEq

structure ProtoFocusEnd extends ProtoFocusBase where
  success : Int
  fwhm : Int
  deriving DecidableEq

structure ProtoFocusMove extends ProtoFocusBase where
  step : Int
  deriving DecidableEq

/-- The constructor `ProtoFocusEnd()`: it writes `type` and (through the base)
`check`; `success` and `fwhm` keep whatever the memory held, given here as
arguments. -/
def ProtoFocusEnd.new (uninitSuccess uninitFwhm : Int) : ProtoFocusEnd :=
  { type := TYPE_FOCUS_END
    check := FOCUS_CHECK_CODE
    success := uninitSuccess
    fwhm := uninitFwhm }

/-- The constructor `ProtoFocusMove()`: `step` keeps whatever the memory held. -/
def ProtoFocusMove.new (uninitStep : Int) : ProtoFocusMove :=
  { type := TYPE_FOCUS_MOVE
    check := FOCUS_CHECK_CODE
    step := uninitStep }

/-- What the reducer writes to the focuser endpoint. -/
inductive FocusDatagram where
  | move (proto : ProtoFocusMove)
  | fin (proto : ProtoFocusEnd)
  deriving DecidableEq

/-! ## CloudCamera.cpp: the focus reducer -/

def FOCUS_FRAME_MAX : Nat := 3
def FOCUS_CONFIDENCE : ℚ := 1 / 10
def FWHM_EXPECT : ℚ := 3
def FWHM_EXPECT_ERROR : ℚ := 2 / 10
def FOCUS_OVER : Int := 0
def FOCUS_MANUAL : Int := 1
def FOCUS_AUTO : Int := 2

/-- The members of `CloudCamera` that focusing reads and writes, with the
configured `param_->fwhmPerfect`. -/
structure CloudCamera where
  fwhmPerfect : ℚ
  focusMode_ : Int
  queFwhm_ : List ℚ
  focusAlgo_ : FocusAutoAlgo

/-- `CloudCamera::DoFocus(udp, enable, manual)`. -/
def CloudCamera.DoFocus (self : CloudCamera) (enable manual : Bool) : CloudCamera :=
  if !enable then { self with focusMode_ := FOCUS_OVER }
  else if self.focusMode_ = 0 then
    let self :=
      if !manual then
        { self with focusAlgo_ := self.focusAlgo_.Init self.fwhmPerfect FWHM_EXPECT_ERROR }
      else self
    { self with focusMode_ := (if manual then FOCUS_MANUAL else FOCUS_AUTO), queFwhm_ := [] }
  else self

/-- What the reducer sees of one frame popped from the queue: its age in
seconds at that moment, the return value of `InvokeSExtractor::DoIt` and the
value of `frame->fwhm` after that call. -/
structure FrameIn where
  age : Int
  doIt : Int
  fwhm : ℚ

/-- The test `sigma <= c` of line 355 for `sigma = v > 0 ? sqrt(v) : 0`,
written without the square root: for `v > 0`, `sqrt v ≤ c` holds exactly when
`0 ≤ c` and `v ≤ c * c`. -/
def sigmaLe (v c : ℚ) : Bool :=
  if v > 0 then decide (0 ≤ c ∧ v ≤ c * c) else decide (0 ≤ c)

/-- Lines 344-350: the mean of the window. -/
def windowMean (que : List ℚ) : ℚ :=
  (que.take FOCUS_FRAME_MAX).sum / FOCUS_FRAME_MAX

/-- Lines 344-350: the variance `(sq - mean * sum) / (FOCUS_FRAME_MAX - 1)` of
the window. -/
def windowVar (que : List ℚ) : ℚ :=
  let sum := (que.take FOCUS_FRAME_MAX).sum
  let sq := ((que.take FOCUS_FRAME_MAX).map fun x => x * x).sum
  let mean := sum / FOCUS_FRAME_MAX
  (sq - mean * sum) / (FOCUS_FRAME_MAX - 1 : ℚ)

/-- Lines 339 and 341: the window after `push_back(frame->fwhm)` and, when that
made more than `FOCUS_FRAME_MAX` values, `pop_front()`. -/
def nextWindow (que : List ℚ) (fwhm : ℚ) : List ℚ :=
  if (que ++ [fwhm]).length > FOCUS_FRAME_MAX then (que ++ [fwhm]).tail else que ++ [fwhm]

/-- One iteration of the loop of `CloudCamera::thread_reduce` (lines 332-376)
on one frame: the new state, the local `step`, and the datagrams written.
`uninitEnd` is the memory under the `success` and `fwhm` fields of the local
`ProtoFocusEnd`. The result is `none` where the iteration pops an empty deque
or `Push` is undefined. -/
def reduceFrame (self : CloudCamera) (step : Int) (uninitEnd : Int × Int) (frame : FrameIn) :
    Option (CloudCamera × Int × List FocusDatagram) :=
  if frame.age > 60 then some (self, step, [])
  else if frame.doIt = 0 ∧ frame.fwhm > 1 then
    let que := self.queFwhm_ ++ [frame.fwhm]
    if que.length < FOCUS_FRAME_MAX then some ({ self with queFwhm_ := que }, step, [])
    else
      let que := nextWindow self.queFwhm_ frame.fwhm
      let self := { self with queFwhm_ := que }
      let mean := windowMean que
      let sigma2 := windowVar que
      if sigmaLe sigma2 FOCUS_CONFIDENCE ∧ mean - FWHM_EXPECT > FWHM_EXPECT_ERROR
          ∧ self.focusMode_ = FOCUS_AUTO then
        if self.focusMode_ = FOCUS_AUTO then
          match self.focusAlgo_.Push mean step with
          | none => none
          | some (false, step, algo) =>
            let proto := { ProtoFocusMove.new step with step := step }
            some ({ self with focusAlgo_ := algo }, step, [FocusDatagram.move proto])
          | some (true, step, algo) =>
            let proto := ProtoFocusEnd.new uninitEnd.1 uninitEnd.2
            some ({ self with focusAlgo_ := algo, focusMode_ := 0 }, step,
              [FocusDatagram.fin proto])
        else some (self, step, [])
      else some (self, step, [])
  else
    match self.queFwhm_ with
    | [] => none
    | _ :: rest => some ({ self with queFwhm_ := rest }, step, [])

/-- The loop `while (focusMode_)` of `CloudCamera::thread_reduce` over the
frames that arrive, in order. -/
def thread_reduce (uninitEnd : Int × Int) :
    CloudCamera → Int → List FrameIn → Option (CloudCamera × Int × List FocusDatagram)
  | self, step, [] => some (self, step, [])
  | self, step, frame :: frames =>
    if self.focusMode_ = 0 then some (self, step, [])
    else
      match reduceFrame self step uninitEnd frame with
      | none => none
      | some (self1, step1, out1) =>
        (thread_reduce uninitEnd self1 step1 frames).map fun r => (r.1, r.2.1, out1 ++ r.2.2)

/-! ## AsioUDP.cpp and EnvMonitor::udp_receive_command -/

/-- The size of the receive buffer `buffPack_` of a `UdpSession`. -/
def UDP_PACK_SIZE : Nat := 1500

/-- `UdpSession::handle_read` without error: the socket has stored the
datagram at the start of `buffPack_` (at most `UDP_PACK_SIZE` bytes of it),
the bytes behind it keep what earlier datagrams left, and
`buffPack_[bytes] = 0` is written. The result is the buffer and `bytes` as
the callback gets them; `none` where that write lies outside the buffer. -/
def UdpSession.handle_read (buffPack_ : List Nat) (datagram : List Nat) :
    Option (List Nat × Int) :=
  let received := datagram.take UDP_PACK_SIZE
  let bytes := received.length
  let buffPack_ := received ++ buffPack_.drop bytes
  if bytes < buffPack_.length then some (buffPack_.set bytes 0, bytes) else none

/-- The byte at an offset of the buffer `rcvd`. -/
def byteAt (rcvd : List Nat) (off : Nat) : Nat := rcvd.getD off 0

/-- A little-endian `uint32_t` read at an offset of the buffer. -/
def u32At (rcvd : List Nat) (off : Nat) : Int :=
  (byteAt rcvd off : Int) + 256 * byteAt rcvd (off + 1) + 65536 * byteAt rcvd (off + 2)
    + 16777216 * byteAt rcvd (off + 3)

/-- The offset of `ProtoFocusBase::type`. -/
def offType : Nat := 0

/-- The offset of `ProtoFocusBase::check`: the structs of ProtoFocus.h are not
packed, so the `uint32_t` is aligned to 4. -/
def offCheck : Nat := 4

/-- The offset of the first member of a derived message
(`ProtoFocusBegin::manual`, `ProtoFocusMove::step`), behind the 8-byte base. -/
def offBody : Nat := 8

/-- The calls that the command handler makes on the camera. -/
inductive FocusCall where
  | DoFocusBegin (manual : Bool)
  | DoFocusEnd
  | FocusMove (step : Int)
  | FocusTargetOverLimit
  deriving DecidableEq

/-- `EnvMonitor::udp_receive_command(rcvd, bytes)`: the camera afterwards and
the call made on it, if any. `bytes` is not read. `FocusMove` and
`FocusTargetOverLimit` have empty bodies in CloudCamera.cpp. -/
def udp_receive_command (camCloudPtr_ : Option CloudCamera) (rcvd : List Nat) (_bytes : Int) :
    Option CloudCamera × Option FocusCall :=
  match camCloudPtr_ with
  | none => (none, none)
  | some cam =>
    if u32At rcvd offCheck ≠ FOCUS_CHECK_CODE then (some cam, none)
    else if (byteAt rcvd offType : Int) = TYPE_FOCUS_BEGIN then
      let manual : Bool := decide (byteAt rcvd offBody ≠ 0)
      (some (cam.DoFocus true manual), some (FocusCall.DoFocusBegin manual))
    else if (byteAt rcvd offType : Int) = TYPE_FOCUS_END then
      (some (cam.DoFocus false true), some FocusCall.DoFocusEnd)
    else if (byteAt rcvd offType : Int) = TYPE_FOCUS_MOVE then
      (some cam, some (FocusCall.FocusMove (toInt32 (u32At rcvd offBody))))
    else if (byteAt rcvd offType : Int) = TYPE_FOCUS_LIMIT then
      (some cam, some FocusCall.FocusTargetOverLimit)
    else (some cam, none)

/-- One datagram arriving on the command endpoint: `handle_read`, then the
registered callback `udp_receive_command` on the buffer. -/
def receiveCommand (camCloudPtr_ : Option CloudCamera) (buffPack_ : List Nat)
    (datagram : List Nat) : Option (Option CloudCamera × List Nat × Option FocusCall) :=
  match UdpSession.handle_read buffPack_ datagram with
  | none => none
  | some (buffPack_, bytes) =>
    let r := udp_receive_command camCloudPtr_ buffPack_ bytes
    some (r.1, buffPack_, r.2)

/-! ## CloudCamera::cloudadj -/

/-- The part of `CameraInfo` that `cloudadj` reads: the sensor size
(`uint32_t`) and the frame as 16-bit pixels. -/
structure CameraInfo where
  wSensor : Int
  hSensor : Int
  data : List Int

/-- The inner loop of `cloudadj`: `for (x = x0 - 256; x < x1; ++x) sum +=
data[pos0 + x]`, with `xs` the wrapped start `x0 - 256`. `x` is stepped by one
below `x1 < 2^32`, so it runs over `xs, xs + 1, .., x1 - 1` (no value when
`x1 <= xs`). The index `pos0 + x` is 32-bit arithmetic; `none` when it lies
outside the frame. -/
def cloudadj_row (data : List Int) (pos0 xs x1 : Int) (sum : ℚ) : Option ℚ :=
  (List.range' xs.toNat (x1 - xs).toNat).foldlM
    (fun (sum : ℚ) (x : Nat) =>
      (data[(toUInt32 (pos0 + (x : Int))).toNat]?).map (fun v => sum + (v : ℚ))) sum

/-- Line 255, `pos0 = (y0 - 256) * w`, in the 32-bit unsigned arithmetic of
its operands: the linear index of the first pixel of the first row read. -/
def cloudadj_pos0 (w h : Int) : Int := toUInt32 (toUInt32 (h / 2 - 256) * w)

/-- The loops of `cloudadj` (lines 244-260): the sum of the pixels visited.
The outer loop runs `y` over `y0 - 256` (wrapped), .., `y1 - 1` and advances
`pos0` by `w` (32-bit) after every row. -/
def cloudadj_sum (nfCam : CameraInfo) : Option ℚ :=
  let w := nfCam.wSensor
  let h := nfCam.hSensor
  let x0 := w / 2
  let y0 := h / 2
  let x1 := toUInt32 (x0 + 256)
  let y1 := toUInt32 (y0 + 256)
  let pos0 := cloudadj_pos0 w h
  let ys := toUInt32 (y0 - 256)
  ((List.range' ys.toNat (y1 - ys).toNat).foldlM
    (fun (st : Int × ℚ) (_ : Nat) =>
      (cloudadj_row nfCam.data st.1 (toUInt32 (x0 - 256)) x1 st.2).map
        (fun sum => (toUInt32 (st.1 + w), sum))) (pos0, (0 : ℚ))).map (fun st => st.2)

/-- `CloudCamera::cloudadj`: the new value of `expdur_`. `expdur_ * 40000` is
an `int` product (`none` when it overflows); with `sum = 0` the quotient is
infinite or not a number, and its conversion to `int` is undefined, as is the
conversion of a value outside the range of `int`. -/
def cloudadj (nfCam : CameraInfo) (expdur_ expdurMin expdurMax : Int) : Option Int :=
  match cloudadj_sum nfCam with
  | none => none
  | some sum =>
    let sum := sum / 262144
    if expdur_ * 40000 < -2147483648 ∨ 2147483647 < expdur_ * 40000 then none
    else if sum = 0 then none
    else
      match castInt (((expdur_ * 40000 : Int) : ℚ) / sum + 1 / 2) with
      | none => none
      | some expdur_ =>
        if expdur_ < expdurMin then some expdurMin
        else if expdur_ > expdurMax then some expdurMax
        else some expdur_

/-! ## InvokeSExtractor.cpp -/

def STAR_COUNT_MIN : Int := 50
def STAR_AREA_MIN : Int := 3

/-- The fields of `xmStar` that `sscanf` fills from one catalogue row, in the
order of the row: x, y, elong, area, fwhm, theta, flux, fluxErr, fluxMax, mag,
magErr. -/
structure xmStar where
  x : ℚ
  y : ℚ
  elong : ℚ
  area : Int
  fwhm : ℚ
  theta : ℚ
  flux : ℚ
  fluxErr : ℚ
  fluxMax : ℚ
  mag : ℚ
  magErr : ℚ

/-- The test `(star->snr = star->flux / star->fluxErr) >= snr0` as the `&&`
chain reaches it, that is with `flux > 1`: a quotient by zero is then
`+infinity`, which passes. -/
def snrAtLeast (star : xmStar) (snr0 : ℚ) : Bool :=
  if star.fluxErr = 0 then true else decide (star.flux / star.fluxErr ≥ snr0)

/-- The condition of the `if` in the loop of `resolve_catalog` (lines 325-328),
with `snr0 = 3`. -/
def xmStar.admitted (star : xmStar) : Bool :=
  decide (star.flux > 1) && decide (star.area ≥ STAR_AREA_MIN) && snrAtLeast star 3
    && decide (star.fwhm > 1)

/-- `InvokeSExtractor::resolve_catalog` on the rows of the catalogue that do
not start with `#`, each as `sscanf` read it: the value of `starCount_`
returned. -/
def resolve_catalog (rows : List xmStar) : Int :=
  rows.foldl (fun starCount_ star => if star.admitted then starCount_ + 1 else starCount_) 0

/-- `InvokeSExtractor::stat_quality`. -/
def stat_quality : Bool := true

/-- `InvokeSExtractor::DoIt` in the calling process: the return value and
`frame->fwhm` after the call. `pid0` is the result of `fork()`, `waited` says
whether the wait loop ended with `pid == pid0`, `rows` is the catalogue the
child wrote, and `stat_fwhm` stands for the statistics of
`stat_fwhm()`, which gives the frame its FWHM from the admitted stars. The
result is `none` in the child (`pid0 = 0`), which never returns. -/
def InvokeSExtractor.DoIt (prepared_ : Bool) (pid0 : Int) (waited : Bool) (rows : List xmStar)
    (stat_fwhm : List xmStar → ℚ → ℚ) (fwhm : ℚ) : Option (Int × ℚ) :=
  if !prepared_ then some (1, fwhm)
  else if pid0 > 0 then
    if waited then
      if resolve_catalog rows < STAR_COUNT_MIN then some (4, fwhm)
      else if !stat_quality then some (5, fwhm)
      else some (0, stat_fwhm (rows.filter xmStar.admitted) fwhm)
    else some (3, fwhm)
  else if pid0 < 0 then some (2, fwhm)
  else none

/-- What `thread_reduce` sees of a frame that `cloud2fits` made (`Reset` sets
its `fwhm` to 0) and that `DoIt` then processed. -/
def reducedFrame (age : Int) (prepared_ : Bool) (pid0 : Int) (waited : Bool)
    (rows : List xmStar) (stat_fwhm : List xmStar → ℚ → ℚ) : Option FrameIn :=
  (InvokeSExtractor.DoIt prepared_ pid0 waited rows stat_fwhm 0).map
    (fun r => { age := age, doIt := r.1, fwhm := r.2 })

/-! ## SerialComm.cpp -/

/-- The largest value of `size_t`. -/
def SIZE_MAX : Nat := 18446744073709551615

/-- The difference `a - b` of two `size_t` values, which wraps when `b > a`. -/
def subSize (a b : Nat) : Nat := if b ≤ a then a - b else a + (SIZE_MAX + 1) - b

/-- The inner loop of `SerialComm::Lookup`, `for (i = 0, j = pos; i < len &&
flag[i] == crcrcv_[j]; ++i, ++j);`, entered with `len - i` still to compare:
the final `i`. The result is `none` when the loop reads outside the ring or
outside the pattern. -/
def SerialComm.matchAt (crcrcv_ flag : List Nat) (len pos : Nat) : Nat → Option Nat
  | 0 => some len
  | r + 1 =>
    match flag[len - (r + 1)]?, crcrcv_[pos + (len - (r + 1))]? with
    | some a, some b =>
      if a = b then SerialComm.matchAt crcrcv_ flag len pos r else some (len - (r + 1))
    | _, _ => none

/-- The outer loop of `SerialComm::Lookup`, `for (..; i != len && pos <= n;
++pos)`: the final `pos` and `i`. Every pass reads `crcrcv_[pos]`, so a pass
that is defined has `pos` below the ring size and `++pos` does not wrap; the
fuel counts the passes. -/
def SerialComm.scan (crcrcv_ flag : List Nat) (len n : Nat) : Nat → Nat → Nat → Option (Nat × Nat)
  | 0, _, _ => none
  | fuel + 1, pos, i =>
    if i ≠ len ∧ pos ≤ n then
      match SerialComm.matchAt crcrcv_ flag len pos len with
      | none => none
      | some i => SerialComm.scan crcrcv_ flag len n fuel (pos + 1) i
    else some (pos, i)

/-- `SerialComm::Lookup(flag, len, from)` on the ring `crcrcv_`. -/
def SerialComm.Lookup (crcrcv_ flag : List Nat) (len frm : Nat) : Option Int :=
  if len = 0 then some (-1)
  else
    let n := subSize crcrcv_.length len
    match SerialComm.scan crcrcv_ flag len n (crcrcv_.length + 2) frm SIZE_MAX with
    | none => none
    | some (pos, i) => some (if i = len then toInt32 ((pos : Int) - 1) else -1)

/-- The local `to_read` of `SerialComm::Read`: `len` when the ring holds more
than `from + len` bytes, else what the ring holds from offset `from` on. -/
def SerialComm.to_read (crcrcv_ : List Nat) (len frm : Nat) : Nat :=
  if crcrcv_.length > frm + len then len else subSize crcrcv_.length frm

/-- `SerialComm::Read(buff, len, from, erase)`: the ring, the caller's buffer
and the returned count after the call. The copy loop moves `to_read` bytes
from offset `from` of the ring to the start of `buff`; the result is `none`
when it reads outside the ring or writes outside `buff`, or when
`erase_begin(end)` is asked to remove more than the ring holds. -/
def SerialComm.Read (crcrcv_ buff : List Nat) (len frm : Nat) (erase : Bool) :
    Option (List Nat × List Nat × Nat) :=
  if len = 0 then some (crcrcv_, buff, 0)
  else
    let endPos := frm + len
    let to_read := SerialComm.to_read crcrcv_ len frm
    if to_read = 0 then some (crcrcv_, buff, 0)
    else if frm + to_read > crcrcv_.length ∨ to_read > buff.length then none
    else
      let buff := (crcrcv_.drop frm).take to_read ++ buff.drop to_read
      if erase then
        if endPos ≤ crcrcv_.length then some (crcrcv_.drop endPos, buff, to_read) else none
      else some (crcrcv_, buff, to_read)

/-! ## WeatherStation.cpp -/

def WEA_FUNC : Nat := 0x03
def WEA_THP : Nat := 0x66
def WEA_WIND : Nat := 0xC8

/-- The state that `handle_receive_weather` works on: the inbound ring of
`weaPtr_`, the handler's static `buff[20]`, the sample `info_`, the member
`qryType_` that `run` sets before each query, and the number of
`cvGet_.notify_one()` calls made so far. -/
structure WeatherRx where
  crcrcv_ : List Nat
  buff : List Nat
  info_ : InfoWeather
  qryType_ : Nat
  cvGet_ : Nat

/-- The expression `(buff[i] << 8) + buff[i + 1]`. -/
def word16 (buff : List Nat) (i : Nat) : Int :=
  ((buff.getD i 0 : Nat) : Int) * 256 + ((buff.getD (i + 1) 0 : Nat) : Int)

/-- `WeatherStation::handle_receive_weather(comm, ec, bytes)`. -/
def handle_receive_weather (self : WeatherRx) (ec : Int) (bytes : Nat) : Option WeatherRx :=
  if ec ≠ 0 then some { self with info_ := { self.info_ with state := ec } }
  else
    match SerialComm.Lookup self.crcrcv_ [0x03] 1 0 with
    | none => none
    | some pos =>
      if pos ≥ 1 then
        match SerialComm.Read self.crcrcv_ self.buff 3 (pos - 1).toNat false with
        | none => none
        | some (crcrcv_, buff, _) =>
          let datalen : Nat := if buff.getD 0 0 = WEA_THP then 6 else 4
          if buff.getD 2 0 ≠ datalen then
            match SerialComm.Read crcrcv_ buff 2 (pos - 1).toNat true with
            | none => none
            | some (crcrcv_, buff, _) => some { self with crcrcv_ := crcrcv_, buff := buff }
          else if bytes ≥ 5 + datalen then
            let Npck := 5 + datalen
            match SerialComm.Read crcrcv_ buff Npck (pos - 1).toNat true with
            | none => none
            | some (crcrcv_, buff, _) =>
              let info_ :=
                if buff.getD 0 0 = WEA_THP then
                  { self.info_ with
                    temperature := (word16 buff 3 : ℚ) * (1 / 100),
                    humidity := (word16 buff 5 : ℚ) * (1 / 100),
                    pressure := (word16 buff 7 : ℚ) * (1 / 10) }
                else if buff.getD 0 0 = WEA_WIND then
                  { self.info_ with
                    windSpeed := (word16 buff 3 : ℚ) * (1 / 100),
                    windOrient := word16 buff 5 }
                else self.info_
              some { self with crcrcv_ := crcrcv_, buff := buff, info_ := info_,
                               cvGet_ := self.cvGet_ + 1 }
          else some { self with crcrcv_ := crcrcv_, buff := buff }
      else if pos = 0 then
        match SerialComm.Read self.crcrcv_ self.buff 1 0 true with
        | none => none
        | some (crcrcv_, buff, _) => some { self with crcrcv_ := crcrcv_, buff := buff }
      else some self

/-- The locals and members that the weather part of `WeatherStation::run`
carries from one pass of its loop to the next: whether `weaPtr_` holds an open
port, `info_.state`, and the counter `noReadWea`. -/
structure WeatherRun where
  weaPtr_ : Bool
  state : Int
  noReadWea : Int

/-- What one pass of the loop meets: whether `Open` succeeds (read only when
the port is not open), and whether the THP and the wind query are each
signalled within the 5 s of `wait_response`. -/
structure CycleIn where
  openOk : Bool
  thp : Bool
  wind : Bool

/-- `WeatherStation::wait_response(cntErr)`: the counter afterwards. -/
def wait_response (cntErr : Int) (signalled : Bool) : Int :=
  if signalled then cntErr else cntErr + 1

/-- One pass of the loop of `WeatherStation::run` (lines 74-93 and 113-142):
the connection block, then the two queries and the bookkeeping. -/
def WeatherStation.runCycle (self : WeatherRun) (c : CycleIn) : WeatherRun :=
  let self : WeatherRun :=
    if !self.weaPtr_ then
      if !c.openOk then { self with weaPtr_ := false, state := WEA_FAIL_CONNECT }
      else { self with weaPtr_ := true, state := WEA_SUCCESS, noReadWea := 0 }
    else self
  if self.weaPtr_ then
    let cntErrWea : Int := 0
    let cntErrWea := wait_response cntErrWea c.thp
    let cntErrWea := wait_response cntErrWea c.wind
    let self := { self with state := if cntErrWea ≠ 0 then WEA_NO_DATA else WEA_SUCCESS }
    if cntErrWea = 0 then { self with noReadWea := 0 }
    else
      let noReadWea := self.noReadWea + 1
      if noReadWea ≥ 3 then { self with noReadWea := noReadWea, weaPtr_ := false }
      else { self with noReadWea := noReadWea }
  else self

/-- The loop of `WeatherStation::run` over the passes that occur, in order. -/
def WeatherStation.run (self : WeatherRun) (cycles : List CycleIn) : WeatherRun :=
  cycles.foldl WeatherStation.runCycle self

/-! ## ReadCloudage.cpp -/

/-- The value of `__FLT_MAX__`. -/
def FLT_MAX : ℚ := 340282346638528859811704183484516925440

/-- One line of the exchange file as the loop of `resolve_file` treats it: a
`# STEP` comment with its two numbers, any other comment, or a line that does
not start with `#`, given with its text, its value under `std::stoi` and its
first three tokens under `stof`, `stof`, `stoi`. -/
inductive FileLine where
  | step (azStep elStep : ℚ)
  | comment
  | text (line : String) (stoi : Int) (zone : CloudAge)

/-- The comparison passed to `std::stable_sort` in `resolve_file`. -/
def zoneBefore (x1 x2 : CloudAge) : Bool :=
  decide (x1.el > x2.el) || (decide (x1.el = x2.el) && decide (x1.az ≤ x2.az))

/-- The backward scan by which the library's insertion places `val` in the
sorted range before it, `while (comp(val, *next)) { *last = *next; --next; }`,
on that range listed from its last element to its first. -/
def unguarded_linear_insert (comp : CloudAge → CloudAge → Bool) (val : CloudAge) :
    List CloudAge → List CloudAge
  | [] => [val]
  | x :: rest =>
    if comp val x then x :: unguarded_linear_insert comp val rest else val :: x :: rest

/-- One step of the library's insertion sort on the sorted range listed from
its last element to its first: `val` goes to the front of the range when
`comp(val, *first)`, and is placed by the backward scan otherwise. -/
def insertion_step (comp : CloudAge → CloudAge → Bool) (rev : List CloudAge) (val : CloudAge) :
    List CloudAge :=
  match rev.getLast? with
  | none => [val]
  | some first => if comp val first then rev ++ [val] else unguarded_linear_insert comp val rev

/-- `std::stable_sort(first, last, comp)` as the library carries it out by
insertion from the left. -/
def stable_sort (comp : CloudAge → CloudAge → Bool) (zones : List CloudAge) : List CloudAge :=
  (zones.foldl (insertion_step comp) []).reverse

/-- The body of the loop of `resolve_file` for one line (lines 72-98): `st`
holds `info_` and the counter `lno`. The first line that is no comment gives
the state, the second the time, every later one a zone. -/
def resolve_line (st : InfoCloudage × Int) (ln : FileLine) : InfoCloudage × Int :=
  match ln with
  | FileLine.step azStep elStep => ({ st.1 with azStep := azStep, elStep := elStep }, st.2)
  | FileLine.comment => st
  | FileLine.text line stoi zone =>
    let lno := st.2 + 1
    if lno = 1 then ({ st.1 with state := stoi }, lno)
    else if lno = 2 then ({ st.1 with utc := line }, lno)
    else ({ st.1 with zones := st.1.zones ++ [zone] }, lno)

/-- `ReadCloudage::resolve_file` on the lines of the file: `info_` afterwards
and the value returned. `Reset()` puts `FLT_MAX` in both steps and clears the
zones; the loop reads the lines; the zones are then sorted. -/
def resolve_file (info_ : InfoCloudage) (lines : List FileLine) : InfoCloudage × Bool :=
  let info_ : InfoCloudage := { info_ with azStep := FLT_MAX, elStep := FLT_MAX, zones := [] }
  let r := lines.foldl resolve_line (info_, (0 : Int))
  let info_ : InfoCloudage := { r.1 with zones := stable_sort zoneBefore r.1.zones }
  (info_, decide (info_.state = 0 ∧ info_.azStep < FLT_MAX ∧ info_.elStep < FLT_MAX))

/-- The locals of `ReadCloudage::run` and the published `info_`. -/
structure ReadCloudage where
  lastTime : Int
  oldTime : Int
  ellapsed : Int
  update : Bool
  info_ : InfoCloudage

/-- What one poll finds: the clock (which `run` does not read), whether the
file exists, its modification time and its lines. -/
structure PollIn where
  now : Int
  fileExists : Bool
  mtime : Int
  lines : List FileLine

/-- One pass of the loop of `ReadCloudage::run` (lines 41-58), after the 1 s
sleep. -/
def ReadCloudage.poll (self : ReadCloudage) (p : PollIn) : ReadCloudage :=
  if !p.fileExists then { self with info_ := { self.info_ with state := WMCA_NO_DATA } }
  else
    let self := { self with lastTime := p.mtime }
    if self.lastTime ≠ self.oldTime then { self with oldTime := self.lastTime, update := true }
    else if self.update then
      let info_ := { self.info_ with state := WMCA_SUCCESS }
      { self with update := false, ellapsed := 0, info_ := (resolve_file info_ p.lines).1 }
    else
      let ellapsed := self.ellapsed + 1
      if ellapsed > 300 ∧ self.info_.state ≠ WMCA_TOO_OLD then
        { self with ellapsed := ellapsed, info_ := { self.info_ with state := WMCA_TOO_OLD } }
      else { self with ellapsed := ellapsed }

/-- The loop of `ReadCloudage::run` over the polls that occur, from the
initial locals `lastTime = oldTime = 0`, `ellapsed = 0`, `update = false`. -/
def ReadCloudage.run (info_ : InfoCloudage) (polls : List PollIn) : ReadCloudage :=
  polls.foldl ReadCloudage.poll
    { lastTime := 0, oldTime := 0, ellapsed := 0, update := false, info_ := info_ }

/-! ## EnvMonitor::Start: the command endpoint -/

/-- The command endpoint `udpCmd_`: whether `Open` started the asynchronous
read (`start_read()` is its last step, reached only without exception), and
whether a slot is connected to the receive signal `cbfRcv_`. -/
structure UdpSession where
  reading : Bool
  cbfRcv_ : Bool

/-- `UdpSession::Create()` followed by `Open(port)`, with the outcome of the
socket calls given: the session and the value returned. -/
def UdpSession.Open (openOk : Bool) : UdpSession × Bool :=
  ({ reading := openOk, cbfRcv_ := false }, openOk)

/-- `UdpSession::RegisterReceive(slot)`. -/
def UdpSession.RegisterReceive (self : UdpSession) : UdpSession :=
  { self with cbfRcv_ := true }

/-- Lines 76-83 of `EnvMonitor::Start`: the command endpoint it leaves. -/
def EnvMonitor.Start (openOk : Bool) : UdpSession :=
  let r := UdpSession.Open openOk
  if !r.2 then UdpSession.RegisterReceive r.1 else r.1

/-- A datagram that arrives on the endpoint: `handle_read` runs only when a
read was started, and the signal `cbfRcv_` reaches `udp_receive_command` only
when that slot was connected. -/
def UdpSession.receive (udpCmd_ : UdpSession) (camCloudPtr_ : Option CloudCamera)
    (buffPack_ datagram : List Nat) : Option (Option CloudCamera × List Nat × Option FocusCall) :=
  if udpCmd_.reading then
    match UdpSession.handle_read buffPack_ datagram with
    | none => none
    | some (buffPack_, bytes) =>
      if udpCmd_.cbfRcv_ then
        let r := udp_receive_command camCloudPtr_ buffPack_ bytes
        some (r.1, buffPack_, r.2)
      else some (camCloudPtr_, buffPack_, none)
  else some (camCloudPtr_, buffPack_, none)

/-! ## EnvMonitor::monitor_twilight -/

/-- The loop of `TcpClient::Lookup(chBegin, chEnd, posBegin, posEnd)` (lines
146-153) on the ring from offset `pos` on (`pos < end` holds exactly while
that list is not empty): the final `posBegin` and `posEnd`. -/
def TcpClient.lookupLoop (chBegin chEnd : Nat) :
    List Nat → Int → Int → Int → Int → Int → Int × Int
  | [], _, _, _, posBegin, posEnd => (posBegin, posEnd)
  | ch :: rest, pos, n1, n2, posBegin, posEnd =>
    if n2 = 0 ∨ n2 ≠ n1 then
      if ch = chBegin then
        TcpClient.lookupLoop chBegin chEnd rest (pos + 1) (n1 + 1) n2
          (if n1 + 1 = 1 then pos else posBegin) posEnd
      else if ch = chEnd then
        TcpClient.lookupLoop chBegin chEnd rest (pos + 1) n1 (n2 + 1) posBegin
          (if n2 + 1 = n1 then pos else posEnd)
      else TcpClient.lookupLoop chBegin chEnd rest (pos + 1) n1 n2 posBegin posEnd
    else (posBegin, posEnd)

/-- `TcpClient::Lookup(chBegin, chEnd, posBegin, posEnd)` on the ring
`crcBufRead_`: the value returned, `posBegin` and `posEnd`. -/
def TcpClient.Lookup (crcBufRead_ : List Nat) (chBegin chEnd : Nat) : Int × Int × Int :=
  let r := TcpClient.lookupLoop chBegin chEnd crcBufRead_ 0 0 0 1 0
  (if r.2 > r.1 then r.2 - r.1 + 1 else 0, r.1, r.2)

/-! ## Vocabulary of the statements -/

/-- The fields that the sharding loop never writes: a fixed part with `len`,
`zone_count` and `pack_no` blanked. Two fixed parts with the same `shared`
agree on every other field. -/
def PDXP_QXZSY.shared (q : PDXP_QXZSY) : PDXP_QXZSY :=
  { q with len := 0, zone_count := 0, pack_no := 0 }

/-- The cloud map is published as valid: the camera is absent or reports
`WMC_SUCCESS`, and the reader's state is neither `WMCA_NO_DATA` nor
`WMCA_TOO_OLD`. -/
def CloudOK (self : EnvMonitor) : Prop :=
  (∀ cam, self.camCloudPtr_ = some cam → cam.state = WMC_SUCCESS) ∧
    self.readCloudagePtr_.state ≠ WMCA_NO_DATA ∧ self.readCloudagePtr_.state ≠ WMCA_TOO_OLD

/-- The weather channel of a fixed part: state byte, then the data fields. -/
def PDXP_QXZSY.weather (q : PDXP_QXZSY) : List Int :=
  [q.wea_state, q.wea_date, q.wea_time, q.temp, q.humidity, q.airpres, q.windspd, q.winddir,
    q.rainfall]

/-- The SQM channel of a fixed part: state byte, then the data fields. -/
def PDXP_QXZSY.sqm (q : PDXP_QXZSY) : List Int :=
  [q.sqm_state, q.sqm_date, q.sqm_time, q.sqm_bkmag]

/-- The cloud channel of a fixed part, without the fields of the sharding loop
and without `cloud_percent`. -/
def PDXP_QXZSY.cloud (q : PDXP_QXZSY) : List Int :=
  [q.cloud_state, q.cloud_date, q.cloud_time, q.azi_step, q.alt_step, q.pack_count]

/-- The clamp of the step in the words of the specification: the sign of the
raw value is kept, and a magnitude above 5000 becomes 5000, otherwise one
above 2000 becomes 2000, otherwise one above 500 becomes 500, otherwise one
above 100 becomes 100; a magnitude of at most 100 is left as it is. -/
def clampByMagnitude (r : Int) : Int :=
  r.sign *
    (if |r| > 5000 then 5000 else if |r| > 2000 then 2000 else if |r| > 500 then 500
      else if |r| > 100 then 100 else |r|)

/-- The raw step of the specification,
`(expected - fwhm) * last_step * 0.80 / (fwhm - last_fwhm)`. -/
def rawStep (self : FocusAutoAlgo) (fwhm : ℚ) : ℚ :=
  (self.expFwhm - fwhm) * self.stepLast * (80 / 100) / (fwhm - self.fwhmLast)

/-- The frame passes the gate of lines 334-357: it is fresh and accepted, the
window is full, the mode is AUTO, and the statistics of the window satisfy
`sigma <= FOCUS_CONFIDENCE` and `mean - FWHM_EXPECT > FWHM_EXPECT_ERROR`. -/
def gateOpen (self : CloudCamera) (frame : FrameIn) : Prop :=
  frame.age ≤ 60 ∧ frame.doIt = 0 ∧ 1 < frame.fwhm ∧
    FOCUS_FRAME_MAX ≤ (self.queFwhm_ ++ [frame.fwhm]).length ∧
    sigmaLe (windowVar (nextWindow self.queFwhm_ frame.fwhm)) FOCUS_CONFIDENCE = true ∧
    windowMean (nextWindow self.queFwhm_ frame.fwhm) - FWHM_EXPECT > FWHM_EXPECT_ERROR ∧
    self.focusMode_ = FOCUS_AUTO

/-- The order of the claim: `a` may stand before `b` when its elevation is
higher, or equal with an azimuth not larger. -/
def zoneOrder (a b : CloudAge) : Prop := a.el > b.el ∨ (a.el = b.el ∧ a.az ≤ b.az)

/-- The linear indices of the central patch in the words of the claim: row by
row, the pixels with `h/2 - 256 <= y < h/2 + 256` and
`w/2 - 256 <= x < w/2 + 256`, each at `y * w + x`. -/
def patchIndices (w h : Nat) : List Nat :=
  (List.range' (h / 2 - 256) 512).flatMap
    (fun y => (List.range' (w / 2 - 256) 512).map (fun x => y * w + x))

/-- The sum of the pixels of the central patch. -/
def patchSum (data : List Int) (w h : Nat) : ℚ :=
  ((patchIndices w h).map (fun i => ((data.getD i 0 : Int) : ℚ))).sum

/-- The first delimiter of the ring is an open, at offset `b`: the byte at
`b` is the open and no byte before it is an open or a close. -/
def firstOpenAt (ring : List Nat) (chBegin chEnd : Nat) (b : Nat) : Prop :=
  ring[b]? = some chBegin ∧ ∀ i, i < b → ∀ x, ring[i]? = some x → x ≠ chBegin ∧ x ≠ chEnd

/-- The span of the ring from offset `b` to offset `q`, both included, holds
as many closes as opens. -/
def balancedSpan (ring : List Nat) (chBegin chEnd : Nat) (b q : Nat) : Prop :=
  ((ring.drop b).take (q + 1 - b)).count chBegin = ((ring.drop b).take (q + 1 - b)).count chEnd

/-- The close at offset `q` matches the open at offset `b`: the span from `b`
to `q` is the shortest span from `b` that holds as many closes as opens. -/
def matchingClose (ring : List Nat) (chBegin chEnd : Nat) (b q : Nat) : Prop :=
  b ≤ q ∧ q < ring.length ∧ balancedSpan ring chBegin chEnd b q ∧
    ∀ q', b ≤ q' → q' < q → ¬ balancedSpan ring chBegin chEnd b q'

/-! ## Concrete inputs -/

/-- A clock and calendar for the examples; the uninitialised fields hold 0. -/
def exEnv : Env :=
  { nowDate := 8709, nowTime := 432000000, UTC2DateTimeBJ := fun _ => (8709, 0),
    uninitLen := 0, uninitCloudPercent := 0 }

/-- A zone list of `n` zones of one level. -/
def exZones (n : Nat) (level : Int) : List CloudAge :=
  List.replicate n { az := 0, el := 30, level := level }

/-- A monitor at daytime (no camera, no SQM) whose weather station was never
created, with the given reader state and zone list. -/
def exMonitor (state : Int) (zones : List CloudAge) : EnvMonitor :=
  { camCloudPtr_ := none, weaStatPtr_ := none, sqmPtr_ := none,
    readCloudagePtr_ := { state := state, utc := "2023-11-04T12:00:00", azStep := 15,
                          elStep := 10, zones := zones } }

/-- A weather station with an open port and a sample in the given state. -/
def exWeather (state : Int) : WeatherStation :=
  { IsRun := true,
    info := { state := state, utc := "2023-11-04T12:00:00", temperature := 251 / 10,
              humidity := 40, pressure := 700, windSpeed := 3, windOrient := 90, rainFall := 0 } }

/-- A connected SQM poller with a sample in the given state. -/
def exSQM (state : Int) : SQM :=
  { IsConnected := true,
    info := { state := state, utc := "2023-11-04T12:00:00", mpsas := 43 / 2 } }

/-- A monitor at night: healthy camera, weather station and SQM, with the
given reader state and zone list. -/
def exNight (state : Int) (zones : List CloudAge) : EnvMonitor :=
  { camCloudPtr_ := some { state := WMC_SUCCESS },
    weaStatPtr_ := some (exWeather WEA_SUCCESS),
    sqmPtr_ := some (exSQM SQM_SUCCESS),
    readCloudagePtr_ := { state := state, utc := "2023-11-04T12:00:00", azStep := 15,
                          elStep := 10, zones := zones } }

/-- The algorithm state of the specification's scenario: expected 3.0 ± 0.2,
last FWHM 6.0, last step 500. -/
def exAlgo : FocusAutoAlgo :=
  { expFwhm := 3, expFwhmErr := 2 / 10, fwhmLast := 6, stepLast := 500 }

/-- A camera whose auto-focus was just started by `DoFocus(udp, true, false)`
with the given configured `fwhmPerfect`, and whose window then received two
accepted frames of FWHM `x`. -/
def exCamera (fwhmPerfect x : ℚ) : CloudCamera :=
  { ({ fwhmPerfect := fwhmPerfect, focusMode_ := FOCUS_OVER, queFwhm_ := [],
       focusAlgo_ := exAlgo } : CloudCamera).DoFocus true false with
    queFwhm_ := [x, x] }

/-- A camera in AUTO mode after a move of +100 made at FWHM 6.0, with two
accepted frames of FWHM 4.5 in its window. -/
def exCameraLate : CloudCamera :=
  { fwhmPerfect := 3, focusMode_ := FOCUS_AUTO, queFwhm_ := [9 / 2, 9 / 2],
    focusAlgo_ := { expFwhm := 3, expFwhmErr := 2 / 10, fwhmLast := 6, stepLast := 100 } }

/-- A fresh frame that the extractor accepted with the given FWHM. -/
def exFrame (x : ℚ) : FrameIn := { age := 0, doIt := 0, fwhm := x }

/-- A focus-protocol datagram as the focuser lays it out: type byte, three
padding bytes, the check word 0xFEDCBA98 little-endian, then the body. -/
def exFocusMsg (type : Nat) (body : List Nat) : List Nat :=
  [type, 0, 0, 0, 0x98, 0xBA, 0xDC, 0xFE] ++ body

/-- A receive buffer that no datagram has reached yet. -/
def exBuffer : List Nat := List.replicate UDP_PACK_SIZE 0

/-- A camera in the given focus mode. -/
def exCam (mode : Int) : CloudCamera :=
  { fwhmPerfect := 3, focusMode_ := mode, queFwhm_ := [], focusAlgo_ := exAlgo }

/-- Two datagrams in a row on one session: FOCUS_BEGIN (automatic) with its
check word, then the single byte 0x02. The result is the focus mode after the
second datagram and what the handler called for it. -/
def exStaleRun : Option (Option Int × Option FocusCall) :=
  match receiveCommand (some (exCam FOCUS_OVER)) exBuffer (exFocusMsg 1 [0]) with
  | none => none
  | some (cam1, buf1, _) =>
    match receiveCommand cam1 buf1 [2] with
    | none => none
    | some (cam2, _, call) => some (cam2.map (fun c => c.focusMode_), call)

/-- A 512 x 512 frame in which every pixel is 0. -/
def exBlackFrame : CameraInfo :=
  { wSensor := 512, hSensor := 512, data := List.replicate 262144 0 }

/-- A catalogue row with flux exactly 1, area 5, flux error 0.1 (signal to
noise 10) and FWHM 2. -/
def exStarFluxOne : xmStar :=
  { x := 100, y := 100, elong := 1, area := 5, fwhm := 2, theta := 0, flux := 1,
    fluxErr := 1 / 10, fluxMax := 1, mag := 0, magErr := 0 }

/-- A stand-in for the statistics of `stat_fwhm`: the FWHM of the first
admitted star. -/
def exStatFwhm (stars : List xmStar) (fwhm : ℚ) : ℚ :=
  match stars with
  | [] => fwhm
  | star :: _ => star.fwhm

/-- The handler's state before a reply: the ring holds `ring`, the static
buffer is still zero, no query has been signalled, and `qryType_` is the
address of the query sent last. -/
def exRx (ring : List Nat) (qryType_ : Nat) : WeatherRx :=
  { crcrcv_ := ring, buff := List.replicate 20 0, info_ := (exWeather WEA_SUCCESS).info,
    qryType_ := qryType_, cvGet_ := 0 }

/-- The THP reply `66 03 06 0B B8 13 88 27 10` followed by two check bytes. -/
def exThpWarm : List Nat := [0x66, 0x03, 0x06, 0x0B, 0xB8, 0x13, 0x88, 0x27, 0x10, 0xAA, 0xBB]

/-- A THP reply whose temperature word is `FF 38`, which is -200 as a signed
16-bit value (-2.00 degC). -/
def exThpCold : List Nat := [0x66, 0x03, 0x06, 0xFF, 0x38, 0x13, 0x88, 0x27, 0x10, 0xAA, 0xBB]

/-- A pass in which both queries are answered, and one in which the THP query
times out. -/
def exCycleOk : CycleIn := { openOk := true, thp := true, wind := true }

def exCycleFail : CycleIn := { openOk := true, thp := false, wind := true }

/-- The weather loop right after the port was opened. -/
def exRunOpen : WeatherRun := { weaPtr_ := true, state := WEA_SUCCESS, noReadWea := 0 }

/-- An exchange file: a comment, the `# STEP` line, the state line `0`, the
time line and four zone lines, two of them with equal azimuth and elevation. -/
def exFile : List FileLine :=
  [FileLine.comment, FileLine.step 5 5,
   FileLine.text "0" 0 { az := 0, el := 0, level := 0 },
   FileLine.text "2023-11-04T12:00:00" 2023 { az := 2023, el := 0, level := 0 },
   FileLine.text "10 30 1" 10 { az := 10, el := 30, level := 1 },
   FileLine.text "5 60 2" 5 { az := 5, el := 60, level := 2 },
   FileLine.text "10 30 3" 10 { az := 10, el := 30, level := 3 },
   FileLine.text "0 30 4" 0 { az := 0, el := 30, level := 4 }]

/-- The published cloud map before the reader has seen any file. -/
def exInfoNone : InfoCloudage :=
  { state := WMCA_NO_DATA, utc := "", azStep := 0, elStep := 0, zones := [] }

/-- An exchange file that was written successfully but lists no zone: the
`# STEP` line, the state line `0` and the time line. -/
def exFileNoZones : List FileLine :=
  [FileLine.step 5 5,
   FileLine.text "0" 0 { az := 0, el := 0, level := 0 },
   FileLine.text "2023-11-04T12:00:00" 2023 { az := 2023, el := 0, level := 0 }]

/-- A ring of 11 bytes: four bytes of noise, then the first seven bytes of a
THP reply whose last four bytes have not arrived. -/
def exRingCut : List Nat :=
  [0xAA, 0xBB, 0xCC, 0xDD, 0x66, 0x03, 0x06, 0x0B, 0xB8, 0x13, 0x88]

/-- The handler's state when `exRingCut` is in the ring and the static buffer
still holds the THP reply accepted before it. -/
def exRxCut : WeatherRx :=
  { crcrcv_ := exRingCut, buff := exThpWarm ++ List.replicate 9 0,
    info_ := (exWeather WEA_SUCCESS).info, qryType_ := WEA_THP, cvGet_ := 1 }

/-- The bytes of `x{a{b}c}d`: the open is 123, the close is 125. -/
def exJson : List Nat := [120, 123, 97, 123, 98, 125, 99, 125, 100]

/-- A wind reply: address `C8`, function code, length 4, speed word `01 2C`
(3.00 m/s), direction word `00 5A` (90), two check bytes. -/
def exWind : List Nat := [0xC8, 0x03, 0x04, 0x01, 0x2C, 0x00, 0x5A, 0xAA, 0xBB]

/-! ## The sharding loop -/

theorem natCeil_div_72 (N : ℕ) : ⌈(N : ℚ) / 72⌉₊ = (N + 71) / 72 := by
  apply le_antisymm
  · rw [Nat.ceil_le, div_le_iff₀ (by norm_num)]
    have h : N ≤ ((N + 71) / 72) * 72 := by omega
    exact_mod_cast h
  · have h := Nat.le_ceil ((N : ℚ) / 72)
    rw [div_le_iff₀ (by norm_num)] at h
    have h' : N ≤ ⌈(N : ℚ) / 72⌉₊ * 72 := by exact_mod_cast h
    omega

theorem sendPacks_length (caSet : List CloudAge) (zc P b : Int) :
    ∀ (fuel : Nat) (p w : Int) (q : PDXP_QXZSY), p + fuel = P + 1 →
      (sendPacks caSet zc P b fuel p w q).length = fuel
  | 0, _, _, _, _ => rfl
  | fuel + 1, p, w, q, h => by
    have hp : p ≤ P := by push_cast at h; omega
    simp only [sendPacks, if_pos hp, List.length_cons]
    rw [sendPacks_length caSet zc P b fuel]
    push_cast at h; omega

/-- The bound on the iterations never cuts the loop short: once the loop
variable has passed `pack_count`, more iterations allowed add nothing. -/
theorem sendPacks_more_fuel (caSet : List CloudAge) (zc P b : Int) :
    ∀ (fuel extra : Nat) (p w : Int) (q : PDXP_QXZSY), p + fuel = P + 1 →
      sendPacks caSet zc P b (fuel + extra) p w q = sendPacks caSet zc P b fuel p w q
  | 0, 0, _, _, _, _ => rfl
  | 0, extra + 1, p, w, q, h => by
    have hp : ¬ p ≤ P := by push_cast at h; omega
    simp only [Nat.zero_add, sendPacks, if_neg hp]
  | fuel + 1, extra, p, w, q, h => by
    have hp : p ≤ P := by push_cast at h; omega
    rw [show fuel + 1 + extra = (fuel + extra) + 1 by omega]
    simp only [sendPacks, if_pos hp]
    rw [sendPacks_more_fuel caSet zc P b fuel extra]
    push_cast at h; omega

theorem sendPacks_pack_no (caSet : List CloudAge) (zc P b : Int) :
    ∀ (fuel : Nat) (p w : Int) (q : PDXP_QXZSY) (i : Nat) (d : Datagram),
      (sendPacks caSet zc P b fuel p w q)[i]? = some d → d.msg.pack_no = toUInt16 (p + i)
  | 0, _, _, _, _, _, h => by simp [sendPacks] at h
  | fuel + 1, p, w, q, i, d, h => by
    by_cases hp : p ≤ P
    · simp only [sendPacks, if_pos hp] at h
      cases i with
      | zero =>
        simp at h
        subst h
        simp
      | succ j =>
        simp only [List.getElem?_cons_succ] at h
        have := sendPacks_pack_no caSet zc P b fuel _ _ _ j d h
        rw [this]; push_cast; congr 1; ring
    · simp [sendPacks, if_neg hp] at h

theorem sendPacks_shared (caSet : List CloudAge) (zc P b : Int) :
    ∀ (fuel : Nat) (p w : Int) (q : PDXP_QXZSY) (d : Datagram),
      d ∈ sendPacks caSet zc P b fuel p w q → d.msg.shared = q.shared
  | 0, _, _, _, _, h => by simp [sendPacks] at h
  | fuel + 1, p, w, q, d, h => by
    by_cases hp : p ≤ P
    · simp only [sendPacks, if_pos hp, List.mem_cons] at h
      rcases h with h | h
      · subst h; rfl
      · rw [sendPacks_shared caSet zc P b fuel _ _ _ d h]; rfl
    · simp [sendPacks, if_neg hp] at h

/-! ## The fixed part, block by block -/

theorem fillWeather_cloud_state (env : Env) (self : EnvMonitor) (q : PDXP_QXZSY) :
    (fillWeather env self q).cloud_state = q.cloud_state := by
  unfold fillWeather
  cases self.weaStatPtr_ with
  | none => rfl
  | some wea => dsimp only; split_ifs <;> rfl

theorem fillSQM_cloud_state (env : Env) (self : EnvMonitor) (q : PDXP_QXZSY) :
    (fillSQM env self q).cloud_state = q.cloud_state := by
  unfold fillSQM
  cases self.sqmPtr_ with
  | none => rfl
  | some sqm => dsimp only; split_ifs <;> rfl

theorem fillCloudBasic_cloud_state (env : Env) (nf : InfoCloudage) (P : Int) (q : PDXP_QXZSY) :
    (fillCloudBasic env nf P q).cloud_state = q.cloud_state := by
  unfold fillCloudBasic; split_ifs <;> rfl

theorem fillFixed_cloud_state_iff (env : Env) (self : EnvMonitor) (pno : Int) :
    (fillFixed env self pno).cloud_state = 0 ↔ CloudOK self := by
  simp only [fillFixed, fillWeather_cloud_state, fillSQM_cloud_state, fillCloudBasic_cloud_state]
  unfold fillCloudState CloudOK
  cases self.camCloudPtr_ with
  | none =>
    simp only [toUInt8, WMCA_NO_DATA, WMCA_TOO_OLD]
    split_ifs <;> simp_all
  | some c =>
    simp only [toUInt8, WMCA_NO_DATA, WMCA_TOO_OLD, WMC_SUCCESS]
    split_ifs <;> simp_all

theorem fillWeather_frame (env : Env) (self : EnvMonitor) (q : PDXP_QXZSY) :
    (fillWeather env self q).cloud = q.cloud ∧ (fillWeather env self q).sqm = q.sqm := by
  unfold fillWeather
  cases self.weaStatPtr_ with
  | none => exact ⟨rfl, rfl⟩
  | some wea => dsimp only; split_ifs <;> exact ⟨rfl, rfl⟩

theorem fillSQM_frame (env : Env) (self : EnvMonitor) (q : PDXP_QXZSY) :
    (fillSQM env self q).cloud = q.cloud ∧ (fillSQM env self q).weather = q.weather := by
  unfold fillSQM
  cases self.sqmPtr_ with
  | none => exact ⟨rfl, rfl⟩
  | some sqm => dsimp only; split_ifs <;> exact ⟨rfl, rfl⟩

theorem fillCloudBasic_frame (env : Env) (nf : InfoCloudage) (P : Int) (q : PDXP_QXZSY) :
    (fillCloudBasic env nf P q).weather = q.weather ∧ (fillCloudBasic env nf P q).sqm = q.sqm := by
  unfold fillCloudBasic; split_ifs <;> exact ⟨rfl, rfl⟩

theorem fillCloudState_frame (self : EnvMonitor) (q : PDXP_QXZSY) :
    (fillCloudState self q).weather = q.weather ∧ (fillCloudState self q).sqm = q.sqm := by
  unfold fillCloudState; dsimp only; split_ifs <;> exact ⟨rfl, rfl⟩

theorem fillWeather_congr (env : Env) (self : EnvMonitor) (q q' : PDXP_QXZSY)
    (h : q.weather = q'.weather) :
    (fillWeather env self q).weather = (fillWeather env self q').weather := by
  simp only [PDXP_QXZSY.weather, List.cons.injEq, and_true] at h
  obtain ⟨e1, e2, e3, e4, e5, e6, e7, e8, e9⟩ := h
  unfold fillWeather
  cases self.weaStatPtr_ with
  | none => simp only [PDXP_QXZSY.weather, e2, e3, e4, e5, e6, e7, e8, e9]
  | some wea =>
    dsimp only; split_ifs <;> simp only [PDXP_QXZSY.weather, e2, e3, e4, e5, e6, e7, e8, e9]

theorem fillSQM_congr (env : Env) (self : EnvMonitor) (q q' : PDXP_QXZSY)
    (h : q.sqm = q'.sqm) : (fillSQM env self q).sqm = (fillSQM env self q').sqm := by
  simp only [PDXP_QXZSY.sqm, List.cons.injEq, and_true] at h
  obtain ⟨e1, e2, e3, e4⟩ := h
  unfold fillSQM
  cases self.sqmPtr_ with
  | none => simp only [PDXP_QXZSY.sqm, e2, e3, e4]
  | some sqm => dsimp only; split_ifs <;> simp only [PDXP_QXZSY.sqm, e2, e3, e4]

theorem fillCloud_congr (env : Env) (self : EnvMonitor) (P : Int) (q q' : PDXP_QXZSY)
    (h : q.cloud = q'.cloud) :
    (fillCloudBasic env self.readCloudagePtr_ P (fillCloudState self q)).cloud
      = (fillCloudBasic env self.readCloudagePtr_ P (fillCloudState self q')).cloud := by
  simp only [PDXP_QXZSY.cloud, List.cons.injEq, and_true] at h
  obtain ⟨e1, e2, e3, e4, e5, e6⟩ := h
  unfold fillCloudBasic fillCloudState
  dsimp only
  split_ifs <;> simp_all only [PDXP_QXZSY.cloud]

/-- The weather channel of the fixed part is what `fillWeather` makes of a
freshly constructed one. -/
theorem fillFixed_weather (env : Env) (self : EnvMonitor) (pno : Int) :
    (fillFixed env self pno).weather = (fillWeather env self (PDXP_QXZSY.new env)).weather := by
  unfold fillFixed
  dsimp only
  rw [(fillSQM_frame env self _).2]
  apply fillWeather_congr
  rw [(fillCloudBasic_frame _ _ _ _).1, (fillCloudState_frame _ _).1]
  rfl

theorem fillFixed_sqm (env : Env) (self : EnvMonitor) (pno : Int) :
    (fillFixed env self pno).sqm = (fillSQM env self (PDXP_QXZSY.new env)).sqm := by
  unfold fillFixed
  dsimp only
  apply fillSQM_congr
  rw [(fillWeather_frame _ _ _).2, (fillCloudBasic_frame _ _ _ _).2, (fillCloudState_frame _ _).2]
  rfl

theorem fillFixed_cloud (env : Env) (self : EnvMonitor) (pno : Int) :
    (fillFixed env self pno).cloud
      = (fillCloudBasic env self.readCloudagePtr_ (packCount self)
          (fillCloudState self (PDXP_QXZSY.new env))).cloud := by
  unfold fillFixed
  dsimp only
  rw [(fillSQM_frame _ _ _).1, (fillWeather_frame _ _ _).1]
  apply fillCloud_congr
  rfl

/-! ## The publisher, case by case -/

theorem toInt32_of_bounds (x : Int) (h0 : -2147483648 ≤ x) (h1 : x ≤ 2147483647) :
    toInt32 x = x := by
  unfold toInt32; omega

theorem toUInt16_of_bounds (x : Int) (h0 : 0 ≤ x) (h1 : x ≤ 65535) : toUInt16 x = x := by
  unfold toUInt16; omega

theorem upload_pdxp_of_ok (env : Env) (self : EnvMonitor) (pno : Int) (hok : CloudOK self)
    (hN : toInt32 self.readCloudagePtr_.zones.length ≠ 0) :
    upload_pdxp env self pno =
      some (sendPacks self.readCloudagePtr_.zones (toInt32 self.readCloudagePtr_.zones.length)
        (packCount self) (sizeofPDXP_QXZSY - sizeofPDXP_Cloudage) (packCount self).toNat 1 0
        { fillFixed env self pno with
          cloud_percent :=
            toUInt16 (Int.tdiv (toInt32 (zoneGreater7 self.readCloudagePtr_.zones * 1000))
              (toInt32 self.readCloudagePtr_.zones.length)) }) := by
  have h0 := (fillFixed_cloud_state_iff env self pno).mpr hok
  unfold upload_pdxp
  dsimp only
  rw [if_neg (not_not.mpr h0), if_neg hN]

theorem upload_pdxp_of_empty (env : Env) (self : EnvMonitor) (pno : Int) (hok : CloudOK self)
    (hN : toInt32 self.readCloudagePtr_.zones.length = 0) :
    upload_pdxp env self pno = none := by
  have h0 := (fillFixed_cloud_state_iff env self pno).mpr hok
  unfold upload_pdxp
  dsimp only
  rw [if_neg (not_not.mpr h0), if_pos hN]

theorem upload_pdxp_of_bad (env : Env) (self : EnvMonitor) (pno : Int) (hbad : ¬ CloudOK self) :
    upload_pdxp env self pno =
      some [{ msg :=
                { fillFixed env self pno with
                  cloud_percent := toUInt16 UINT16_MAX
                  len := toUInt16 (sizeofPDXP_QXZSY - sizeofPDXP_Cloudage - sizeofFrameHead) }
              cloud := []
              bytes := sizeofPDXP_QXZSY - sizeofPDXP_Cloudage }] := by
  have h0 := mt (fillFixed_cloud_state_iff env self pno).mp hbad
  unfold upload_pdxp
  dsimp only
  rw [if_pos h0]

/-- Every datagram of a cycle agrees with the fixed part of the cycle on the
fields outside `len`, `zone_count`, `pack_no` and `cloud_percent`. -/
theorem upload_pdxp_mem_shared (env : Env) (self : EnvMonitor) (pno : Int)
    (dgs : List Datagram) (d : Datagram) (hrun : upload_pdxp env self pno = some dgs)
    (hd : d ∈ dgs) :
    ∃ cp, d.msg.shared = ({ fillFixed env self pno with cloud_percent := cp }).shared := by
  by_cases hok : CloudOK self
  · by_cases hN : toInt32 self.readCloudagePtr_.zones.length = 0
    · rw [upload_pdxp_of_empty env self pno hok hN] at hrun
      exact absurd hrun (by simp)
    · rw [upload_pdxp_of_ok env self pno hok hN] at hrun
      have h := Option.some.inj hrun
      rw [← h] at hd
      exact ⟨_, sendPacks_shared _ _ _ _ _ _ _ _ d hd⟩
  · rw [upload_pdxp_of_bad env self pno hok] at hrun
    have h := Option.some.inj hrun
    rw [← h, List.mem_singleton] at hd
    rw [hd]
    exact ⟨toUInt16 UINT16_MAX, rfl⟩

theorem packCount_eq (self : EnvMonitor) (h2 : self.readCloudagePtr_.zones.length ≤ 4718520) :
    packCount self = ((self.readCloudagePtr_.zones.length + 71) / 72 : ℕ) := by
  unfold packCount zoneCount zone_max
  rw [toInt32_of_bounds (self.readCloudagePtr_.zones.length : Int) (by omega) (by omega),
    toInt32_of_bounds _ (by omega) (by omega), Int.tdiv_eq_ediv (by omega) (by omega)]
  omega

theorem fillFixed_pack_count (env : Env) (self : EnvMonitor) (pno : Int) (hok : CloudOK self) :
    (fillFixed env self pno).pack_count = toUInt16 (packCount self) := by
  have h0 := (fillFixed_cloud_state_iff env self pno).mpr hok
  have h := fillFixed_cloud env self pno
  simp only [PDXP_QXZSY.cloud, List.cons.injEq, and_true] at h
  obtain ⟨e1, -, -, -, -, e6⟩ := h
  rw [e6]
  rw [h0, fillCloudBasic_cloud_state] at e1
  unfold fillCloudBasic
  rw [if_pos e1.symm]

/-! ## C1: sharding -/

theorem exZones_length (n : Nat) (level : Int) : (exZones n level).length = n := by
  simp [exZones]

/-- C1 (amended). For every cloud map with N zones, 1 ≤ N ≤ 4718520 (= 72 * 65535),
that is published as valid, one cycle of `upload_pdxp` emits exactly
ceil(N/72) datagrams; the i-th of them (counted from 1) carries `pack_no = i`
and `pack_count = ceil(N/72)`, and all datagrams of the cycle agree on every
field of the fixed part other than `len`, `zone_count` and `pack_no`. -/
theorem upload_pdxp_sharding (env : Env) (self : EnvMonitor) (pno : Int) (hok : CloudOK self)
    (h1 : 1 ≤ self.readCloudagePtr_.zones.length)
    (h2 : self.readCloudagePtr_.zones.length ≤ 4718520) :
    ∃ dgs, upload_pdxp env self pno = some dgs ∧
      dgs.length = ⌈(self.readCloudagePtr_.zones.length : ℚ) / 72⌉₊ ∧
      (∀ (i : Nat) (d : Datagram), dgs[i]? = some d →
        d.msg.pack_no = (i : Int) + 1 ∧
        d.msg.pack_count = (⌈(self.readCloudagePtr_.zones.length : ℚ) / 72⌉₊ : Int)) ∧
      (∀ d ∈ dgs, ∀ d' ∈ dgs, d.msg.shared = d'.msg.shared) := by
  have hN : toInt32 self.readCloudagePtr_.zones.length ≠ 0 := by
    rw [toInt32_of_bounds _ (by omega) (by omega)]; omega
  have hP := packCount_eq self h2
  have hlen : ∀ q, (sendPacks self.readCloudagePtr_.zones
      (toInt32 self.readCloudagePtr_.zones.length) (packCount self)
      (sizeofPDXP_QXZSY - sizeofPDXP_Cloudage) (packCount self).toNat 1 0 q).length
        = (self.readCloudagePtr_.zones.length + 71) / 72 := by
    intro q
    rw [sendPacks_length _ _ _ _ _ _ _ _ (by rw [hP]; omega), hP]
    omega
  refine ⟨_, upload_pdxp_of_ok env self pno hok hN, ?_, ?_, ?_⟩
  · rw [natCeil_div_72]; exact hlen _
  · intro i d hd
    have hi : i < (self.readCloudagePtr_.zones.length + 71) / 72 := by
      rw [← hlen]; exact (List.getElem?_eq_some.mp hd).1
    constructor
    · rw [sendPacks_pack_no _ _ _ _ _ _ _ _ i d hd, toUInt16_of_bounds _ (by omega) (by omega)]
      ring
    · have hs := sendPacks_shared _ _ _ _ _ _ _ _ d (List.getElem?_mem hd)
      have hc := congrArg (fun q : PDXP_QXZSY => q.pack_count) hs
      change d.msg.pack_count = (fillFixed env self pno).pack_count at hc
      rw [hc, fillFixed_pack_count env self pno hok, hP, natCeil_div_72,
        toUInt16_of_bounds _ (by omega) (by omega)]
  · intro d hd d' hd'
    rw [sendPacks_shared _ _ _ _ _ _ _ _ d hd, sendPacks_shared _ _ _ _ _ _ _ _ d' hd']

set_option maxRecDepth 100000 in
/-- C1, witness: 216 valid zones give three datagrams of 72 zones each,
`pack_no` 1, 2, 3 and `pack_count` 3. -/
theorem upload_pdxp_sharding_witness :
    (upload_pdxp exEnv (exMonitor WMCA_SUCCESS (exZones 216 3)) 0).map
        (List.map fun d => (d.msg.pack_no, d.msg.pack_count, d.msg.zone_count))
      = some [(1, 3, 72), (2, 3, 72), (3, 3, 72)] ∧
    CloudOK (exMonitor WMCA_SUCCESS (exZones 216 3)) ∧
    ∃ dgs, upload_pdxp exEnv (exMonitor WMCA_SUCCESS (exZones 216 3)) 0 = some dgs ∧
      dgs.length =
        ⌈((exMonitor WMCA_SUCCESS (exZones 216 3)).readCloudagePtr_.zones.length : ℚ) / 72⌉₊ ∧
      (∀ (i : Nat) (d : Datagram), dgs[i]? = some d →
        d.msg.pack_no = (i : Int) + 1 ∧
        d.msg.pack_count =
          (⌈((exMonitor WMCA_SUCCESS (exZones 216 3)).readCloudagePtr_.zones.length : ℚ) / 72⌉₊
            : Int)) ∧
      (∀ d ∈ dgs, ∀ d' ∈ dgs, d.msg.shared = d'.msg.shared) :=
  ⟨by decide, by simp [CloudOK, exMonitor, WMCA_SUCCESS, WMCA_NO_DATA, WMCA_TOO_OLD],
    upload_pdxp_sharding exEnv (exMonitor WMCA_SUCCESS (exZones 216 3)) 0
      (by simp [CloudOK, exMonitor, WMCA_SUCCESS, WMCA_NO_DATA, WMCA_TOO_OLD])
      (by simp only [exMonitor, exZones_length]; decide)
      (by simp only [exMonitor, exZones_length]; decide)⟩

/-- C1, counterexample. A map of 216 zones whose reader state is `TOO_OLD` is
published as one datagram, not ceil(216/72) = 3; and a valid map of 73 zones
is published as two datagrams whose frame heads differ in `len` (785 and 75). -/
theorem upload_pdxp_sharding_counterexample :
    (upload_pdxp exEnv (exMonitor WMCA_TOO_OLD (exZones 216 3)) 0).map
        (List.map fun d => (d.msg.pack_no, d.msg.pack_count))
      = some [(1, 0)] ∧
    ⌈((216 : ℕ) : ℚ) / 72⌉₊ = 3 ∧
    (upload_pdxp exEnv (exMonitor WMCA_SUCCESS (exZones 73 3)) 0).map
        (List.map fun d => (d.msg.pack_no, d.msg.len))
      = some [(1, 785), (2, 75)] :=
  ⟨by decide, by rw [natCeil_div_72], by decide⟩

/-! ## C2: cloud percentage -/

theorem zoneGreater7_eq (caSet : List CloudAge) :
    zoneGreater7 caSet = ((caSet.filter fun z => decide (7 ≤ z.level)).length : Int) := by
  unfold zoneGreater7
  rw [List.countP_eq_length_filter]

/-- C2 (amended). For every cloud map with N zones, 1 ≤ N ≤ 2147483, that is
published as valid and has K zones of level 7 or more, every datagram of the
cycle carries `cloud_percent = floor(K * 1000 / N)`: the quotient is
truncated, not rounded. -/
theorem upload_pdxp_cloud_percent (env : Env) (self : EnvMonitor) (pno : Int)
    (hok : CloudOK self) (h1 : 1 ≤ self.readCloudagePtr_.zones.length)
    (h2 : self.readCloudagePtr_.zones.length ≤ 2147483) :
    ∃ dgs, upload_pdxp env self pno = some dgs ∧ dgs ≠ [] ∧
      ∀ d ∈ dgs, d.msg.cloud_percent =
        (⌊(((self.readCloudagePtr_.zones.filter fun z => decide (7 ≤ z.level)).length : ℚ) * 1000)
            / (self.readCloudagePtr_.zones.length : ℚ)⌋₊ : Int) := by
  have hN : toInt32 self.readCloudagePtr_.zones.length ≠ 0 := by
    rw [toInt32_of_bounds _ (by omega) (by omega)]; omega
  have hP := packCount_eq self (by omega)
  refine ⟨_, upload_pdxp_of_ok env self pno hok hN, ?_, ?_⟩
  · intro h
    have hl := sendPacks_length self.readCloudagePtr_.zones
      (toInt32 self.readCloudagePtr_.zones.length) (packCount self)
      (sizeofPDXP_QXZSY - sizeofPDXP_Cloudage) (packCount self).toNat 1 0
      { fillFixed env self pno with
        cloud_percent :=
          toUInt16 (Int.tdiv (toInt32 (zoneGreater7 self.readCloudagePtr_.zones * 1000))
            (toInt32 self.readCloudagePtr_.zones.length)) } (by rw [hP]; omega)
    rw [h, hP] at hl
    simp only [List.length_nil] at hl
    omega
  · intro d hd
    have hs := sendPacks_shared _ _ _ _ _ _ _ _ d hd
    have hc := congrArg (fun q : PDXP_QXZSY => q.cloud_percent) hs
    change d.msg.cloud_percent = toUInt16 _ at hc
    rw [hc, zoneGreater7_eq]
    have hK := List.length_filter_le (fun z : CloudAge => decide (7 ≤ z.level))
      self.readCloudagePtr_.zones
    generalize (self.readCloudagePtr_.zones.filter fun z => decide (7 ≤ z.level)).length = K
      at hK ⊢
    generalize self.readCloudagePtr_.zones.length = N at h1 h2 hK ⊢
    have hq : ⌊((K : ℚ) * 1000) / (N : ℚ)⌋₊ = K * 1000 / N := by
      have := Nat.floor_div_eq_div (α := ℚ) (K * 1000) N
      push_cast at this
      exact this
    rw [hq, toInt32_of_bounds _ (by omega) (by omega), toInt32_of_bounds _ (by omega) (by omega),
      Int.tdiv_eq_ediv (by omega) (by omega)]
    have hle : K * 1000 / N ≤ 1000 := by
      apply Nat.div_le_of_le_mul
      nlinarith
    have hcast : ((K : Int) * 1000) / (N : Int) = ((K * 1000 / N : ℕ) : Int) := by
      push_cast; rfl
    rw [hcast, toUInt16_of_bounds _ (by omega) (by omega)]

/-- C2, witness: two zones of level 7 among three. -/
theorem upload_pdxp_cloud_percent_witness :
    CloudOK (exMonitor WMCA_SUCCESS (exZones 2 7 ++ exZones 1 0)) ∧
    ∃ dgs, upload_pdxp exEnv (exMonitor WMCA_SUCCESS (exZones 2 7 ++ exZones 1 0)) 0 = some dgs ∧
      dgs ≠ [] ∧
      ∀ d ∈ dgs, d.msg.cloud_percent =
        (⌊((((exMonitor WMCA_SUCCESS (exZones 2 7 ++ exZones 1 0)).readCloudagePtr_.zones.filter
              fun z => decide (7 ≤ z.level)).length : ℚ) * 1000)
            / ((exMonitor WMCA_SUCCESS (exZones 2 7 ++ exZones 1 0)).readCloudagePtr_.zones.length
                : ℚ)⌋₊ : Int) :=
  ⟨by simp [CloudOK, exMonitor, WMCA_SUCCESS, WMCA_NO_DATA, WMCA_TOO_OLD],
    upload_pdxp_cloud_percent exEnv (exMonitor WMCA_SUCCESS (exZones 2 7 ++ exZones 1 0)) 0
      (by simp [CloudOK, exMonitor, WMCA_SUCCESS, WMCA_NO_DATA, WMCA_TOO_OLD])
      (by decide) (by decide)⟩

/-- C2, counterexample. With N = 3 zones of which K = 2 have level 7, the
published `cloud_percent` is 666, while round(2 * 1000 / 3) is 667. -/
theorem upload_pdxp_cloud_percent_counterexample :
    (upload_pdxp exEnv (exMonitor WMCA_SUCCESS (exZones 2 7 ++ exZones 1 0)) 0).map
        (List.map fun d => d.msg.cloud_percent) = some [666] ∧
    round ((2 : ℚ) * 1000 / 3) = 667 := by
  refine ⟨by decide, ?_⟩
  rw [round_eq, Int.floor_eq_iff]
  norm_num

/-! ## C3: state bytes -/

/-- Every datagram of a cycle carries the three channels of the fixed part. -/
theorem upload_pdxp_mem_channels (env : Env) (self : EnvMonitor) (pno : Int)
    (dgs : List Datagram) (d : Datagram) (hrun : upload_pdxp env self pno = some dgs)
    (hd : d ∈ dgs) :
    d.msg.weather = (fillWeather env self (PDXP_QXZSY.new env)).weather ∧
      d.msg.sqm = (fillSQM env self (PDXP_QXZSY.new env)).sqm ∧
      d.msg.cloud = (fillFixed env self pno).cloud := by
  obtain ⟨cp, h⟩ := upload_pdxp_mem_shared env self pno dgs d hrun hd
  refine ⟨?_, ?_, ?_⟩
  · rw [← fillFixed_weather env self pno]
    have h1 := congrArg PDXP_QXZSY.weather h
    exact h1
  · rw [← fillFixed_sqm env self pno]
    have h1 := congrArg PDXP_QXZSY.sqm h
    exact h1
  · have h1 := congrArg PDXP_QXZSY.cloud h
    exact h1

/-- C3 (amended). In every datagram of a cycle the state bytes are: weather 0
when the station exists, its port is open and its state is not `WEA_NO_DATA`,
2 when the port is open and the state is `WEA_NO_DATA`, 1 when the station is
absent or its port is not open; cloud 1 when the camera exists and reports a
failure, otherwise 1 when the reader's state is `WMCA_NO_DATA`, 2 when it is
`WMCA_TOO_OLD` and 0 in every other case; SQM 1 when the poller exists and is
not connected, 0 when it is connected and its state is not `SQM_NO_DATA`. -/
theorem upload_pdxp_state_bytes (env : Env) (self : EnvMonitor) (pno : Int)
    (dgs : List Datagram) (d : Datagram) (hrun : upload_pdxp env self pno = some dgs)
    (hd : d ∈ dgs) :
    (self.weaStatPtr_ = none → d.msg.wea_state = 1) ∧
    (∀ wea, self.weaStatPtr_ = some wea → wea.IsRun = false → d.msg.wea_state = 1) ∧
    (∀ wea, self.weaStatPtr_ = some wea → wea.IsRun = true →
      wea.info.state = WEA_NO_DATA → d.msg.wea_state = 2) ∧
    (∀ wea, self.weaStatPtr_ = some wea → wea.IsRun = true →
      wea.info.state ≠ WEA_NO_DATA → d.msg.wea_state = 0) ∧
    (∀ cam, self.camCloudPtr_ = some cam → cam.state ≠ WMC_SUCCESS → d.msg.cloud_state = 1) ∧
    ((∀ cam, self.camCloudPtr_ = some cam → cam.state = WMC_SUCCESS) →
      self.readCloudagePtr_.state = WMCA_NO_DATA → d.msg.cloud_state = 1) ∧
    ((∀ cam, self.camCloudPtr_ = some cam → cam.state = WMC_SUCCESS) →
      self.readCloudagePtr_.state = WMCA_TOO_OLD → d.msg.cloud_state = 2) ∧
    (CloudOK self → d.msg.cloud_state = 0) ∧
    (∀ sqm, self.sqmPtr_ = some sqm → sqm.IsConnected = false → d.msg.sqm_state = 1) ∧
    (∀ sqm, self.sqmPtr_ = some sqm → sqm.IsConnected = true →
      sqm.info.state ≠ SQM_NO_DATA → d.msg.sqm_state = 0) := by
  obtain ⟨hw, hs, hc⟩ := upload_pdxp_mem_channels env self pno dgs d hrun hd
  have hw1 : d.msg.wea_state = (fillWeather env self (PDXP_QXZSY.new env)).wea_state :=
    (List.cons.inj hw).1
  have hs1 : d.msg.sqm_state = (fillSQM env self (PDXP_QXZSY.new env)).sqm_state :=
    (List.cons.inj hs).1
  have hc1 : d.msg.cloud_state = (fillFixed env self pno).cloud_state := (List.cons.inj hc).1
  have hc2 : (fillFixed env self pno).cloud_state
      = (fillCloudState self (PDXP_QXZSY.new env)).cloud_state := by
    have := (List.cons.inj (fillFixed_cloud env self pno)).1
    rw [this, fillCloudBasic_cloud_state]
  rw [hw1, hs1, hc1]
  refine ⟨?_, ?_, ?_, ?_, ?_, ?_, ?_, ?_, ?_, ?_⟩
  · intro h; simp [fillWeather, h, toUInt8]
  · intro wea h hr; simp [fillWeather, h, hr, toUInt8]
  · intro wea h hr hn; simp [fillWeather, h, hr, hn, toUInt8]
  · intro wea h hr hn; simp [fillWeather, h, hr, hn, toUInt8]
  · intro cam h hn; rw [hc2]; simp [fillCloudState, h, hn, toUInt8]
  · intro hcam hn
    rw [hc2]
    cases hcp : self.camCloudPtr_ with
    | none => simp [fillCloudState, hcp, hn, toUInt8]
    | some cam => simp [fillCloudState, hcp, hcam cam hcp, hn, toUInt8]
  · intro hcam hn
    rw [hc2]
    cases hcp : self.camCloudPtr_ with
    | none => simp [fillCloudState, hcp, hn, toUInt8, WMCA_TOO_OLD, WMCA_NO_DATA]
    | some cam =>
      simp [fillCloudState, hcp, hcam cam hcp, hn, toUInt8, WMCA_TOO_OLD, WMCA_NO_DATA]
  · intro hok; exact (fillFixed_cloud_state_iff env self pno).mpr hok
  · intro sqm h hn; simp [fillSQM, h, hn, toUInt8]
  · intro sqm h hr hn; simp [fillSQM, h, hr, hn, toUInt8]

/-- C3, witness: at night with a stale cloud map the bytes are 0, 0 and 2. -/
theorem upload_pdxp_state_bytes_witness :
    ∃ dgs d, upload_pdxp exEnv (exNight WMCA_TOO_OLD []) 0 = some dgs ∧ d ∈ dgs ∧
      d.msg.wea_state = 0 ∧ d.msg.sqm_state = 0 ∧ d.msg.cloud_state = 2 := by
  have hbad : ¬ CloudOK (exNight WMCA_TOO_OLD []) := by
    simp [CloudOK, exNight, WMCA_TOO_OLD, WMCA_NO_DATA]
  have hrun := upload_pdxp_of_bad exEnv (exNight WMCA_TOO_OLD []) 0 hbad
  have h := upload_pdxp_state_bytes exEnv (exNight WMCA_TOO_OLD []) 0 _ _ hrun
    (List.mem_cons_self _ _)
  exact ⟨_, _, hrun, List.mem_cons_self _ _, h.2.2.2.1 _ rfl rfl (by decide),
    h.2.2.2.2.2.2.2.2.2 _ rfl rfl (by decide),
    h.2.2.2.2.2.2.1 (by intro cam hc; cases hc; rfl) rfl⟩

/-- C3, counterexample. With no weather station running and a connected SQM
that has no data, the weather byte is 1 (the claim: 3) and the SQM byte is 3
(the claim: 2). -/
theorem upload_pdxp_state_bytes_counterexample :
    (upload_pdxp exEnv
        { exMonitor WMCA_TOO_OLD [] with sqmPtr_ := some (exSQM SQM_NO_DATA) } 0).map
        (List.map fun d => (d.msg.wea_state, d.msg.sqm_state))
      = some [(1, 3)] := by
  decide

/-! ## C4 and C5: sentinels, the empty map -/

theorem fillWeather_sentinel (env : Env) (self : EnvMonitor)
    (h : (fillWeather env self (PDXP_QXZSY.new env)).wea_state ≠ 0) :
    (fillWeather env self (PDXP_QXZSY.new env)).weather
      = [(fillWeather env self (PDXP_QXZSY.new env)).wea_state, INT32_MAX, INT32_MAX, INT16_MAX,
          INT16_MAX, INT16_MAX, INT16_MAX, INT16_MAX, INT16_MAX] := by
  unfold fillWeather at h ⊢
  revert h
  cases self.weaStatPtr_ with
  | none => intro _; rfl
  | some wea =>
    dsimp only
    intro h
    split_ifs at h ⊢
    · rfl
    · exact absurd rfl h
    · rfl

theorem fillSQM_sentinel (env : Env) (self : EnvMonitor)
    (h : (fillSQM env self (PDXP_QXZSY.new env)).sqm_state ≠ 0) :
    (fillSQM env self (PDXP_QXZSY.new env)).sqm
      = [(fillSQM env self (PDXP_QXZSY.new env)).sqm_state, INT32_MAX, INT32_MAX, INT16_MAX] := by
  unfold fillSQM at h ⊢
  revert h
  cases self.sqmPtr_ with
  | none => intro _; rfl
  | some sqm =>
    dsimp only
    intro h
    split_ifs at h ⊢
    · rfl
    · rfl
    · exact absurd rfl h

theorem fillFixed_cloud_sentinel (env : Env) (self : EnvMonitor) (pno : Int)
    (h : (fillFixed env self pno).cloud_state ≠ 0) :
    (fillFixed env self pno).cloud
      = [(fillFixed env self pno).cloud_state, INT32_MAX, INT32_MAX, INT32_MAX, INT32_MAX, 0] := by
  have hc := fillFixed_cloud env self pno
  have h1 : (fillFixed env self pno).cloud_state
      = (fillCloudState self (PDXP_QXZSY.new env)).cloud_state := by
    rw [(List.cons.inj hc).1, fillCloudBasic_cloud_state]
  rw [h1] at h
  rw [hc]
  unfold fillCloudBasic
  rw [if_neg h, h1]
  unfold fillCloudState
  dsimp only
  split_ifs <;> rfl

theorem fillFixed_zone_count (env : Env) (self : EnvMonitor) (pno : Int) :
    (fillFixed env self pno).zone_count = 0 := by
  have hs : ∀ q, (fillSQM env self q).zone_count = q.zone_count := by
    intro q; unfold fillSQM
    cases self.sqmPtr_ with
    | none => rfl
    | some sqm => dsimp only; split_ifs <;> rfl
  have hw : ∀ q, (fillWeather env self q).zone_count = q.zone_count := by
    intro q; unfold fillWeather
    cases self.weaStatPtr_ with
    | none => rfl
    | some wea => dsimp only; split_ifs <;> rfl
  have hb : ∀ nf P q, (fillCloudBasic env nf P q).zone_count = q.zone_count := by
    intro nf P q; unfold fillCloudBasic; split_ifs <;> rfl
  have hc : ∀ q, (fillCloudState self q).zone_count = q.zone_count := by
    intro q; unfold fillCloudState; dsimp only; split_ifs <;> rfl
  unfold fillFixed
  dsimp only
  rw [hs, hw, hb, hc]
  rfl

/-- C4 (amended). In every datagram built by `upload_pdxp`, a channel whose
state byte is non-zero carries the values that the constructor of
`PDXP_QXZSY` wrote: 32767 (`INT16_MAX`) in every 16-bit data field (`temp`,
`humidity`, `airpres`, `windspd`, `winddir`, `rainfall`, `sqm_bkmag`) and
2147483647 (`INT32_MAX`) in every 32-bit data field (the dates and times,
`azi_step`, `alt_step`), signed or unsigned; for the cloud channel moreover
`cloud_percent` is 65535 and `zone_count` and `pack_count` are 0. -/
theorem upload_pdxp_sentinels (env : Env) (self : EnvMonitor) (pno : Int)
    (dgs : List Datagram) (d : Datagram) (hrun : upload_pdxp env self pno = some dgs)
    (hd : d ∈ dgs) :
    (d.msg.wea_state ≠ 0 →
      d.msg.wea_date = INT32_MAX ∧ d.msg.wea_time = INT32_MAX ∧ d.msg.temp = INT16_MAX ∧
      d.msg.humidity = INT16_MAX ∧ d.msg.airpres = INT16_MAX ∧ d.msg.windspd = INT16_MAX ∧
      d.msg.winddir = INT16_MAX ∧ d.msg.rainfall = INT16_MAX) ∧
    (d.msg.sqm_state ≠ 0 →
      d.msg.sqm_date = INT32_MAX ∧ d.msg.sqm_time = INT32_MAX ∧ d.msg.sqm_bkmag = INT16_MAX) ∧
    (d.msg.cloud_state ≠ 0 →
      d.msg.cloud_percent = UINT16_MAX ∧ d.msg.cloud_date = INT32_MAX ∧
      d.msg.cloud_time = INT32_MAX ∧ d.msg.azi_step = INT32_MAX ∧ d.msg.alt_step = INT32_MAX ∧
      d.msg.zone_count = 0 ∧ d.msg.pack_count = 0) := by
  obtain ⟨hw, hs, hc⟩ := upload_pdxp_mem_channels env self pno dgs d hrun hd
  refine ⟨?_, ?_, ?_⟩
  · intro h
    rw [(List.cons.inj hw).1] at h
    rw [fillWeather_sentinel env self h] at hw
    simp only [PDXP_QXZSY.weather, List.cons.injEq, and_true] at hw
    exact hw.2
  · intro h
    rw [(List.cons.inj hs).1] at h
    rw [fillSQM_sentinel env self h] at hs
    simp only [PDXP_QXZSY.sqm, List.cons.injEq, and_true] at hs
    exact hs.2
  · intro h
    rw [(List.cons.inj hc).1] at h
    rw [fillFixed_cloud_sentinel env self pno h] at hc
    simp only [PDXP_QXZSY.cloud, List.cons.injEq, and_true] at hc
    obtain ⟨-, e2, e3, e4, e5, e6⟩ := hc
    have hbad : ¬ CloudOK self := fun hok => h ((fillFixed_cloud_state_iff env self pno).mpr hok)
    rw [upload_pdxp_of_bad env self pno hbad] at hrun
    have hl := Option.some.inj hrun
    rw [← hl, List.mem_singleton] at hd
    refine ⟨?_, e2, e3, e4, e5, ?_, e6⟩
    · rw [hd]; rfl
    · rw [hd]; exact fillFixed_zone_count env self pno

/-- C4, witness: by day, without weather station, SQM and fresh cloud map, all
three channels carry the constructor's values. -/
theorem upload_pdxp_sentinels_witness :
    ∃ dgs d, upload_pdxp exEnv (exMonitor WMCA_TOO_OLD []) 0 = some dgs ∧ d ∈ dgs ∧
      d.msg.wea_state ≠ 0 ∧ d.msg.sqm_state ≠ 0 ∧ d.msg.cloud_state ≠ 0 ∧
      d.msg.humidity = INT16_MAX ∧ d.msg.sqm_bkmag = INT16_MAX ∧ d.msg.azi_step = INT32_MAX := by
  have hbad : ¬ CloudOK (exMonitor WMCA_TOO_OLD []) := by
    simp [CloudOK, exMonitor, WMCA_TOO_OLD, WMCA_NO_DATA]
  have hrun := upload_pdxp_of_bad exEnv (exMonitor WMCA_TOO_OLD []) 0 hbad
  have h := upload_pdxp_sentinels exEnv (exMonitor WMCA_TOO_OLD []) 0 _ _ hrun
    (List.mem_cons_self _ _)
  have hw : ({ fillFixed exEnv (exMonitor WMCA_TOO_OLD []) 0 with
      cloud_percent := toUInt16 UINT16_MAX
      len := toUInt16 (sizeofPDXP_QXZSY - sizeofPDXP_Cloudage - sizeofFrameHead) }
      : PDXP_QXZSY).wea_state ≠ 0 := by decide
  have hs : ({ fillFixed exEnv (exMonitor WMCA_TOO_OLD []) 0 with
      cloud_percent := toUInt16 UINT16_MAX
      len := toUInt16 (sizeofPDXP_QXZSY - sizeofPDXP_Cloudage - sizeofFrameHead) }
      : PDXP_QXZSY).sqm_state ≠ 0 := by decide
  have hc : ({ fillFixed exEnv (exMonitor WMCA_TOO_OLD []) 0 with
      cloud_percent := toUInt16 UINT16_MAX
      len := toUInt16 (sizeofPDXP_QXZSY - sizeofPDXP_Cloudage - sizeofFrameHead) }
      : PDXP_QXZSY).cloud_state ≠ 0 := by decide
  exact ⟨_, _, hrun, List.mem_cons_self _ _, hw, hs, hc, (h.1 hw).2.2.2.1, (h.2.1 hs).2.2,
    (h.2.2 hc).2.2.2.1⟩

/-- C4, counterexample. With no weather station and a stale cloud map, the
unsigned 16-bit field `humidity` is 32767, not 65535, the unsigned 32-bit field
`azi_step` is 2147483647, not 4294967295, and `zone_count` is 0. -/
theorem upload_pdxp_sentinels_counterexample :
    (upload_pdxp exEnv (exMonitor WMCA_TOO_OLD []) 0).map
        (List.map fun d =>
          (d.msg.wea_state, d.msg.humidity, d.msg.cloud_state, d.msg.azi_step, d.msg.zone_count))
      = some [(1, 32767, 2, 2147483647, 0)] ∧
    UINT16_MAX = 65535 ∧ UINT32_MAX = 4294967295 := by
  decide

/-- C5, the failing input. A valid cloud map (reader state `WMCA_SUCCESS`)
without zones: the cycle reaches the division of line 445 with divisor 0 and
sends nothing; the sharding loop on its own, with `pack_count = 0`, would send
no datagram either. -/
theorem upload_pdxp_empty_map :
    upload_pdxp exEnv (exMonitor WMCA_SUCCESS []) 0 = none ∧
    packCount (exMonitor WMCA_SUCCESS []) = 0 ∧
    (∀ q, sendPacks [] 0 0 (sizeofPDXP_QXZSY - sizeofPDXP_Cloudage) 0 1 0 q = []) := by
  refine ⟨?_, by decide, fun q => rfl⟩
  exact upload_pdxp_of_empty exEnv (exMonitor WMCA_SUCCESS []) 0
    (by simp [CloudOK, exMonitor, WMCA_SUCCESS, WMCA_NO_DATA, WMCA_TOO_OLD]) (by decide)

/-! ## Truncation and the clamp -/

theorem truncQ_of_nonneg (q : ℚ) (h : 0 ≤ q) : truncQ q = ⌊q⌋ := by
  unfold truncQ
  rw [Int.tdiv_eq_ediv (Rat.num_nonneg.mpr h) (by positivity), Rat.floor_def]

theorem truncQ_neg (q : ℚ) : truncQ (-q) = -truncQ q := by
  unfold truncQ
  rw [Rat.num_neg_eq_neg_num, Rat.den_neg_eq_den, Int.neg_tdiv]

theorem truncQ_nonneg (q : ℚ) (h : 0 ≤ q) : 0 ≤ truncQ q := by
  rw [truncQ_of_nonneg q h]; exact Int.floor_nonneg.mpr h

theorem truncQ_nonpos (q : ℚ) (h : q ≤ 0) : truncQ q ≤ 0 := by
  have h1 := truncQ_nonneg (-q) (by linarith)
  rw [truncQ_neg] at h1
  omega

theorem truncQ_zero : truncQ 0 = 0 := by
  rw [truncQ_of_nonneg 0 le_rfl]; simp

/-- Truncating, dividing by 100 in integers and truncating again is the same
as truncating the hundredth. -/
theorem tdiv_truncQ_hundred (y : ℚ) : Int.tdiv (truncQ y) 100 = truncQ (y / 100) := by
  have key : ∀ z : ℚ, 0 ≤ z → Int.tdiv (truncQ z) 100 = truncQ (z / 100) := by
    intro z hz
    have hz' : 0 ≤ z / 100 := by positivity
    rw [truncQ_of_nonneg z hz, truncQ_of_nonneg _ hz',
      Int.tdiv_eq_ediv (Int.floor_nonneg.mpr hz) (by norm_num)]
    symm
    rw [Int.floor_eq_iff]
    have h1 := Int.floor_le z
    have h2 := Int.lt_floor_add_one z
    have h3 : (100 : Int) * (⌊z⌋ / 100) ≤ ⌊z⌋ := by omega
    have h4 : ⌊z⌋ + 1 ≤ 100 * (⌊z⌋ / 100) + 100 := by omega
    have h3' : (100 : ℚ) * ((⌊z⌋ / 100 : Int) : ℚ) ≤ (⌊z⌋ : ℚ) := by exact_mod_cast h3
    have h4' : (⌊z⌋ : ℚ) + 1 ≤ 100 * ((⌊z⌋ / 100 : Int) : ℚ) + 100 := by exact_mod_cast h4
    constructor
    · rw [le_div_iff₀ (by norm_num)]; linarith
    · rw [div_lt_iff₀ (by norm_num)]; linarith
  rcases le_total 0 y with h | h
  · exact key y h
  · have h1 := key (-y) (by linarith)
    rw [truncQ_neg, Int.neg_tdiv, neg_div, truncQ_neg] at h1
    omega

theorem clampStep_eq (r : Int) : clampStep r = clampByMagnitude r := by
  unfold clampStep clampByMagnitude
  rcases lt_trichotomy r 0 with h | h | h
  · rw [Int.sign_eq_neg_one_of_neg h, abs_of_neg h]
    split_ifs <;> omega
  · subst h; decide
  · rw [Int.sign_eq_one_of_pos h, abs_of_pos h]
    split_ifs <;> omega

theorem truncQ_intCast (n : Int) : truncQ (n : ℚ) = n := by
  rcases le_total 0 n with h | h
  · rw [truncQ_of_nonneg _ (by exact_mod_cast h), Int.floor_intCast]
  · have h1 : truncQ ((-n : Int) : ℚ) = -n := by
      rw [truncQ_of_nonneg _ (by exact_mod_cast (by omega : (0 : Int) ≤ -n)), Int.floor_intCast]
    rw [Int.cast_neg, truncQ_neg] at h1
    omega

theorem truncQ_abs_lt (y : ℚ) (B : Int) (h : |y| < B) : -B < truncQ y ∧ truncQ y < B := by
  rw [abs_lt] at h
  rcases le_total 0 y with h0 | h0
  · have h1 := truncQ_nonneg y h0
    have h2 : truncQ y < B := by
      rw [truncQ_of_nonneg y h0, Int.floor_lt]; exact h.2
    constructor <;> omega
  · have h1 := truncQ_nonpos y h0
    have h2 : truncQ (-y) < B := by
      rw [truncQ_of_nonneg (-y) (by linarith), Int.floor_lt]; linarith
    rw [truncQ_neg] at h2
    constructor <;> omega

theorem castInt_of_abs_lt (y : ℚ) (h : |y| < 2147483648) : castInt y = some (truncQ y) := by
  have h' := truncQ_abs_lt y 2147483648 (by exact_mod_cast h)
  unfold castInt
  rw [if_pos ⟨by omega, by omega⟩]

/-- The value of line 53 once the conversion is defined: the raw step of the
specification, truncated. -/
theorem line53_eq (a : FocusAutoAlgo) (fwhm : ℚ) :
    Int.tdiv (truncQ ((a.expFwhm - fwhm) * a.stepLast * 80 / (fwhm - a.fwhmLast))) 100
      = truncQ (rawStep a fwhm) := by
  rw [tdiv_truncQ_hundred]
  congr 1
  unfold rawStep
  ring

theorem Push_first (a : FocusAutoAlgo) (fwhm : ℚ) (step0 : Int)
    (h : a.expFwhm + a.expFwhmErr < fwhm) (hl : a.fwhmLast = DBL_MAX) :
    a.Push fwhm step0 = some (false, 500, { a with stepLast := 500, fwhmLast := fwhm }) := by
  unfold FocusAutoAlgo.Push
  rw [if_neg (not_le.mpr h)]
  simp only [if_pos hl, Option.map_some']
  rfl

theorem Push_later (a : FocusAutoAlgo) (fwhm : ℚ) (step0 : Int)
    (h : a.expFwhm + a.expFwhmErr < fwhm) (hl : a.fwhmLast ≠ DBL_MAX) (hne : fwhm ≠ a.fwhmLast)
    (hfit : |(a.expFwhm - fwhm) * a.stepLast * 80 / (fwhm - a.fwhmLast)| < 2147483648) :
    a.Push fwhm step0 = some
      (decide (|clampByMagnitude (truncQ (rawStep a fwhm))| < 100),
        clampByMagnitude (truncQ (rawStep a fwhm)),
        { a with stepLast := clampByMagnitude (truncQ (rawStep a fwhm)), fwhmLast := fwhm }) := by
  unfold FocusAutoAlgo.Push
  rw [if_neg (not_le.mpr h)]
  simp only [if_neg hl, if_neg (sub_ne_zero.mpr hne), castInt_of_abs_lt _ hfit,
    Option.map_some', line53_eq, clampStep_eq]

theorem exAlgo_rawStep : rawStep exAlgo (52 / 10) = ((1100 : Int) : ℚ) := by
  norm_num [rawStep, exAlgo]

/-- The scenario of the specification, evaluated: the step is +500 and
focusing goes on. -/
theorem exAlgo_Push :
    exAlgo.Push (52 / 10) 0
      = some (false, 500, { exAlgo with stepLast := 500, fwhmLast := 52 / 10 }) := by
  have h := Push_later exAlgo (52 / 10) 0 (by norm_num [exAlgo])
    (by norm_num [exAlgo, DBL_MAX]) (by norm_num [exAlgo]) (by norm_num [exAlgo, abs_lt])
  have hs : clampByMagnitude (truncQ (rawStep exAlgo (52 / 10))) = 500 := by
    rw [exAlgo_rawStep, truncQ_intCast]; decide
  rw [hs] at h
  exact h

/-- With the gate open the iteration is the call of `Push` on the mean of the
window and the datagram that follows it. -/
theorem reduceFrame_of_gate (self : CloudCamera) (step0 : Int) (uninitEnd : Int × Int)
    (frame : FrameIn) (hg : gateOpen self frame) :
    reduceFrame self step0 uninitEnd frame =
      match self.focusAlgo_.Push (windowMean (nextWindow self.queFwhm_ frame.fwhm)) step0 with
      | none => none
      | some (false, step, algo) =>
        some ({ self with queFwhm_ := nextWindow self.queFwhm_ frame.fwhm, focusAlgo_ := algo },
          step,
          [FocusDatagram.move
            { type := TYPE_FOCUS_MOVE, check := FOCUS_CHECK_CODE, step := step }])
      | some (true, step, algo) =>
        some ({ self with queFwhm_ := nextWindow self.queFwhm_ frame.fwhm, focusAlgo_ := algo,
                          focusMode_ := 0 },
          step, [FocusDatagram.fin (ProtoFocusEnd.new uninitEnd.1 uninitEnd.2)]) := by
  obtain ⟨h1, h2, h3, h4, h5, h6, h7⟩ := hg
  unfold reduceFrame
  rw [if_neg (not_lt.mpr h1), if_pos ⟨h2, h3⟩]
  simp only [if_neg (not_lt.mpr h4)]
  rw [if_pos ⟨h5, h6, h7⟩, if_pos h7]
  rfl

/-! ## C7: termination -/

/-- C7 (amended). `Push` returns true if and only if fwhm is at most
expected + error (then it computes no step: `step` and the state are left as
they were) or the step it computed has magnitude below 100. In the reducer,
a `Push` that returned true is followed by FOCUS_END, one that returned false
by FOCUS_MOVE with the step. -/
theorem Push_returns_true_iff (a : FocusAutoAlgo) (fwhm : ℚ) (step0 : Int) (b : Bool)
    (step : Int) (a' : FocusAutoAlgo) (hres : a.Push fwhm step0 = some (b, step, a')) :
    (b = true ↔ (fwhm ≤ a.expFwhm + a.expFwhmErr ∨ |step| < 100)) ∧
    (fwhm ≤ a.expFwhm + a.expFwhmErr → step = step0 ∧ a' = a) ∧
    (∀ (self : CloudCamera) (uninitEnd : Int × Int) (frame : FrameIn),
      self.focusAlgo_ = a → gateOpen self frame →
      windowMean (nextWindow self.queFwhm_ frame.fwhm) = fwhm →
      (reduceFrame self step0 uninitEnd frame).map (fun r => r.2.2)
        = some [if b then FocusDatagram.fin (ProtoFocusEnd.new uninitEnd.1 uninitEnd.2)
                else FocusDatagram.move
                  { type := TYPE_FOCUS_MOVE, check := FOCUS_CHECK_CODE, step := step }]) := by
  refine ⟨?_, ?_, ?_⟩
  · unfold FocusAutoAlgo.Push at hres
    by_cases h : fwhm ≤ a.expFwhm + a.expFwhmErr
    · rw [if_pos h] at hres
      have h1 := Option.some.inj hres
      simp only [Prod.mk.injEq] at h1
      simp [← h1.1, h]
    · rw [if_neg h] at hres
      simp only [Option.map_eq_some', Prod.mk.injEq] at hres
      obtain ⟨s, -, h1, h2, -⟩ := hres
      rw [← h1, ← h2]
      simp [h]
  · intro h
    unfold FocusAutoAlgo.Push at hres
    rw [if_pos h] at hres
    have h1 := Option.some.inj hres
    simp only [Prod.mk.injEq] at h1
    exact ⟨h1.2.1.symm, h1.2.2.symm⟩
  · intro self uninitEnd frame ha hg hm
    rw [reduceFrame_of_gate self step0 uninitEnd frame hg, ha, hm, hres]
    cases b <;> rfl

/-- C7, witness: the scenario of the specification; `Push` returns false for
the step +500. -/
theorem Push_returns_true_iff_witness :
    exAlgo.Push (52 / 10) 0
        = some (false, 500, { exAlgo with stepLast := 500, fwhmLast := 52 / 10 }) ∧
    (false = true ↔ ((52 / 10 : ℚ) ≤ exAlgo.expFwhm + exAlgo.expFwhmErr ∨ |(500 : Int)| < 100)) :=
  ⟨exAlgo_Push, (Push_returns_true_iff exAlgo (52 / 10) 0 false 500 _ exAlgo_Push).1⟩

/-- C7, counterexample. With expected 3.0 ± 0.2 and fwhm 3.1, `Push` returns
true although it computed no step: `step` still holds the 500 it held before
the call, whose magnitude is not below 100. -/
theorem Push_returns_true_iff_counterexample :
    exAlgo.Push (31 / 10) 500 = some (true, 500, exAlgo) ∧ ¬ (|(500 : Int)| < 100) := by
  refine ⟨?_, by decide⟩
  unfold FocusAutoAlgo.Push
  rw [if_pos (by norm_num [exAlgo])]

/-! ## C9: the gate of the reducer -/

theorem exCamera_window (p x : ℚ) :
    nextWindow (exCamera p x).queFwhm_ (exFrame x).fwhm = [x, x, x] := by
  simp [nextWindow, exCamera, exFrame, FOCUS_FRAME_MAX]

theorem window_const_mean (x : ℚ) : windowMean [x, x, x] = x := by
  simp [windowMean, FOCUS_FRAME_MAX]; ring

theorem window_const_var (x : ℚ) : windowVar [x, x, x] = 0 := by
  have h : x * x + (x * x + x * x) - (x + (x + x)) / 3 * (x + (x + x)) = 0 := by ring
  simp [windowVar, FOCUS_FRAME_MAX, h]

/-- With the gate shut on an accepted frame that fills the window, the
iteration only updates the window. -/
theorem reduceFrame_of_shut (self : CloudCamera) (step0 : Int) (uninitEnd : Int × Int)
    (frame : FrameIn) (h1 : frame.age ≤ 60) (h2 : frame.doIt = 0) (h3 : 1 < frame.fwhm)
    (h4 : FOCUS_FRAME_MAX ≤ (self.queFwhm_ ++ [frame.fwhm]).length)
    (hg : ¬ gateOpen self frame) :
    reduceFrame self step0 uninitEnd frame
      = some ({ self with queFwhm_ := nextWindow self.queFwhm_ frame.fwhm }, step0, []) := by
  unfold reduceFrame
  rw [if_neg (not_lt.mpr h1), if_pos ⟨h2, h3⟩]
  simp only [if_neg (not_lt.mpr h4)]
  have h5 : ¬ (sigmaLe (windowVar (nextWindow self.queFwhm_ frame.fwhm)) FOCUS_CONFIDENCE = true ∧
      windowMean (nextWindow self.queFwhm_ frame.fwhm) - FWHM_EXPECT > FWHM_EXPECT_ERROR ∧
      self.focusMode_ = FOCUS_AUTO) :=
    fun h => hg ⟨h1, h2, h3, h4, h.1, h.2.1, h.2.2⟩
  rw [if_neg h5]

/-- C9, the failing inputs. With `fwhmPerfect = 2.0` the algorithm is
initialised with expected FWHM 2.0; a full window of mean 2.5 and deviation 0
satisfies `s <= 0.1` and `m > expected_fwhm + 0.2`, the step algorithm would
propose +500, and yet the reducer writes nothing, because its gate compares
with the literal `FWHM_EXPECT = 3.0`. With `fwhmPerfect = 4.0` a window of mean
3.5 does not satisfy `m > expected_fwhm + 0.2`, and yet the reducer runs the
algorithm and writes FOCUS_END. -/
theorem reduceFrame_gate_uses_literal :
    (exCamera 2 (5 / 2)).focusMode_ = FOCUS_AUTO ∧
    (exCamera 2 (5 / 2)).focusAlgo_.expFwhm = (exCamera 2 (5 / 2)).fwhmPerfect ∧
    windowMean (nextWindow (exCamera 2 (5 / 2)).queFwhm_ (exFrame (5 / 2)).fwhm) = 5 / 2 ∧
    windowVar (nextWindow (exCamera 2 (5 / 2)).queFwhm_ (exFrame (5 / 2)).fwhm) = 0 ∧
    (5 / 2 : ℚ) > (exCamera 2 (5 / 2)).fwhmPerfect + 2 / 10 ∧
    (∃ algo, (exCamera 2 (5 / 2)).focusAlgo_.Push (5 / 2) 0 = some (false, 500, algo)) ∧
    (reduceFrame (exCamera 2 (5 / 2)) 0 (0, 0) (exFrame (5 / 2))).map (fun r => r.2.2)
      = some [] ∧
    ¬ ((7 / 2 : ℚ) > (exCamera 4 (7 / 2)).fwhmPerfect + 2 / 10) ∧
    (reduceFrame (exCamera 4 (7 / 2)) 0 (0, 0) (exFrame (7 / 2))).map (fun r => r.2.2)
      = some [FocusDatagram.fin (ProtoFocusEnd.new 0 0)] := by
  refine ⟨rfl, rfl, ?_, ?_, ?_, ?_, ?_, ?_, ?_⟩
  · rw [exCamera_window, window_const_mean]
  · rw [exCamera_window, window_const_var]
  · show (5 / 2 : ℚ) > 2 + 2 / 10
    norm_num
  · exact ⟨_, Push_first _ _ _ (by norm_num [exCamera, CloudCamera.DoFocus, FocusAutoAlgo.Init,
      FOCUS_OVER, FWHM_EXPECT_ERROR]) rfl⟩
  · have hg : ¬ gateOpen (exCamera 2 (5 / 2)) (exFrame (5 / 2)) := by
      unfold gateOpen
      rw [exCamera_window, window_const_mean]
      norm_num [FWHM_EXPECT, FWHM_EXPECT_ERROR]
    rw [reduceFrame_of_shut _ _ _ _ (by decide) rfl (by norm_num [exFrame]) (by decide) hg]
    rfl
  · show ¬ ((7 / 2 : ℚ) > 4 + 2 / 10)
    norm_num
  · have hg : gateOpen (exCamera 4 (7 / 2)) (exFrame (7 / 2)) := by
      unfold gateOpen
      rw [exCamera_window, window_const_mean, window_const_var]
      refine ⟨by decide, rfl, by norm_num [exFrame], by decide, by
        norm_num [sigmaLe, FOCUS_CONFIDENCE], by norm_num [FWHM_EXPECT, FWHM_EXPECT_ERROR], rfl⟩
    rw [reduceFrame_of_gate _ _ _ _ hg, exCamera_window, window_const_mean]
    have hp : (exCamera 4 (7 / 2)).focusAlgo_.Push (7 / 2) 0
        = some (true, 0, (exCamera 4 (7 / 2)).focusAlgo_) := by
      unfold FocusAutoAlgo.Push
      rw [if_pos (by norm_num [exCamera, CloudCamera.DoFocus, FocusAutoAlgo.Init, FOCUS_OVER,
        FWHM_EXPECT_ERROR])]
    rw [hp]
    rfl

/-! ## C10: the FOCUS_END message -/

theorem exCameraLate_window :
    nextWindow exCameraLate.queFwhm_ (exFrame (9 / 2)).fwhm = [9 / 2, 9 / 2, 9 / 2] := by
  simp [nextWindow, exCameraLate, exFrame, FOCUS_FRAME_MAX]

theorem exCameraLate_Push :
    exCameraLate.focusAlgo_.Push (9 / 2) 0
      = some (true, 80, { exCameraLate.focusAlgo_ with stepLast := 80, fwhmLast := 9 / 2 }) := by
  have h := Push_later exCameraLate.focusAlgo_ (9 / 2) 0 (by norm_num [exCameraLate])
    (by norm_num [exCameraLate, DBL_MAX]) (by norm_num [exCameraLate])
    (by norm_num [exCameraLate, abs_lt])
  have hraw : rawStep exCameraLate.focusAlgo_ (9 / 2) = ((80 : Int) : ℚ) := by
    norm_num [rawStep, exCameraLate]
  have hs : clampByMagnitude (truncQ (rawStep exCameraLate.focusAlgo_ (9 / 2))) = 80 := by
    rw [hraw, truncQ_intCast]; decide
  rw [hs] at h
  exact h

/-- C10, the failing input. Expected 3.0 ± 0.2, last FWHM 6.0, last step 100,
and a window of three frames of FWHM 4.5: the computed step is 80, `Push`
returns true, the mode becomes OFF and FOCUS_END is written with `type = 2`
and `check = 0xFEDCBA98`; its `success` and `fwhm` are whatever the memory
under the local `ProtoFocusEnd` held, not 1 and 450. -/
theorem reduceFrame_end_uninitialised :
    windowMean (nextWindow exCameraLate.queFwhm_ (exFrame (9 / 2)).fwhm) = 9 / 2 ∧
    (∀ uninitEnd : Int × Int,
      (reduceFrame exCameraLate 0 uninitEnd (exFrame (9 / 2))).map
          (fun r => (r.1.focusMode_, r.2.2))
        = some (0, [FocusDatagram.fin
            { type := 2, check := 0xFEDCBA98, success := uninitEnd.1, fwhm := uninitEnd.2 }])) ∧
    (reduceFrame exCameraLate 0 (0, 0) (exFrame (9 / 2))).map (fun r => r.2.2)
      ≠ some [FocusDatagram.fin { type := 2, check := 0xFEDCBA98, success := 1, fwhm := 450 }] := by
  have hg : gateOpen exCameraLate (exFrame (9 / 2)) := by
    unfold gateOpen
    rw [exCameraLate_window, window_const_mean, window_const_var]
    refine ⟨by decide, rfl, by norm_num [exFrame], by decide, by
      norm_num [sigmaLe, FOCUS_CONFIDENCE], by norm_num [FWHM_EXPECT, FWHM_EXPECT_ERROR], rfl⟩
  have hrun : ∀ uninitEnd : Int × Int, reduceFrame exCameraLate 0 uninitEnd (exFrame (9 / 2))
      = some ({ exCameraLate with
                queFwhm_ := [9 / 2, 9 / 2, 9 / 2]
                focusAlgo_ := { exCameraLate.focusAlgo_ with stepLast := 80, fwhmLast := 9 / 2 }
                focusMode_ := 0 },
          80, [FocusDatagram.fin (ProtoFocusEnd.new uninitEnd.1 uninitEnd.2)]) := by
    intro uninitEnd
    rw [reduceFrame_of_gate _ _ _ _ hg, exCameraLate_window, window_const_mean, exCameraLate_Push]
  refine ⟨by rw [exCameraLate_window, window_const_mean], fun u => by rw [hrun u]; rfl, ?_⟩
  rw [hrun (0, 0)]
  decide

/-! ## C11: the focus mode under the command handler -/

/-- C11. The focus mode under the command handler. For a datagram that
carries the check word: from OFF, FOCUS_BEGIN with `manual != 0` leads to
MANUAL and with `manual = 0` to AUTO; from MANUAL or AUTO, FOCUS_END leads to
OFF and FOCUS_BEGIN leaves the mode as it is; FOCUS_END in OFF stays OFF; a
datagram of any other type leaves the mode as it is. -/
theorem focus_mode_transitions (cam : CloudCamera) (rcvd : List Nat) (bytes : Int) :
    (u32At rcvd offCheck = FOCUS_CHECK_CODE → cam.focusMode_ = FOCUS_OVER →
      (byteAt rcvd offType : Int) = TYPE_FOCUS_BEGIN → byteAt rcvd offBody ≠ 0 →
      (udp_receive_command (some cam) rcvd bytes).1.map (fun c => c.focusMode_)
        = some FOCUS_MANUAL) ∧
    (u32At rcvd offCheck = FOCUS_CHECK_CODE → cam.focusMode_ = FOCUS_OVER →
      (byteAt rcvd offType : Int) = TYPE_FOCUS_BEGIN → byteAt rcvd offBody = 0 →
      (udp_receive_command (some cam) rcvd bytes).1.map (fun c => c.focusMode_)
        = some FOCUS_AUTO) ∧
    (u32At rcvd offCheck = FOCUS_CHECK_CODE →
      (cam.focusMode_ = FOCUS_MANUAL ∨ cam.focusMode_ = FOCUS_AUTO) →
      (byteAt rcvd offType : Int) = TYPE_FOCUS_END →
      (udp_receive_command (some cam) rcvd bytes).1.map (fun c => c.focusMode_)
        = some FOCUS_OVER) ∧
    (u32At rcvd offCheck = FOCUS_CHECK_CODE →
      (cam.focusMode_ = FOCUS_MANUAL ∨ cam.focusMode_ = FOCUS_AUTO) →
      (byteAt rcvd offType : Int) = TYPE_FOCUS_BEGIN →
      (udp_receive_command (some cam) rcvd bytes).1.map (fun c => c.focusMode_)
        = some cam.focusMode_) ∧
    (u32At rcvd offCheck = FOCUS_CHECK_CODE → cam.focusMode_ = FOCUS_OVER →
      (byteAt rcvd offType : Int) = TYPE_FOCUS_END →
      (udp_receive_command (some cam) rcvd bytes).1.map (fun c => c.focusMode_)
        = some FOCUS_OVER) ∧
    ((byteAt rcvd offType : Int) ≠ TYPE_FOCUS_BEGIN →
      (byteAt rcvd offType : Int) ≠ TYPE_FOCUS_END →
      (udp_receive_command (some cam) rcvd bytes).1.map (fun c => c.focusMode_)
        = some cam.focusMode_) := by
  refine ⟨?_, ?_, ?_, ?_, ?_, ?_⟩
  · intro hc hm ht hb
    simp [udp_receive_command, hc, ht, hb, CloudCamera.DoFocus, hm, FOCUS_OVER]
  · intro hc hm ht hb
    simp [udp_receive_command, hc, ht, hb, CloudCamera.DoFocus, hm, FOCUS_OVER]
  · intro hc _ ht
    have hne : TYPE_FOCUS_END ≠ TYPE_FOCUS_BEGIN := by decide
    simp [udp_receive_command, hc, ht, hne, CloudCamera.DoFocus]
  · intro hc hm ht
    have h0 : cam.focusMode_ ≠ 0 := by
      rcases hm with h | h <;> rw [h] <;> decide
    simp [udp_receive_command, hc, ht, CloudCamera.DoFocus, h0]
  · intro hc _ ht
    have hne : TYPE_FOCUS_END ≠ TYPE_FOCUS_BEGIN := by decide
    simp [udp_receive_command, hc, ht, hne, CloudCamera.DoFocus]
  · intro h1 h2
    unfold udp_receive_command
    dsimp only
    split_ifs <;> rfl

/-- C11, witness: FOCUS_BEGIN with `manual = 0` received in OFF leads to AUTO,
and FOCUS_END received in AUTO leads to OFF. -/
theorem focus_mode_transitions_witness :
    (udp_receive_command (some (exCam FOCUS_OVER)) (exFocusMsg 1 [0]) 9).1.map
        (fun c => c.focusMode_) = some FOCUS_AUTO ∧
    (udp_receive_command (some (exCam FOCUS_AUTO)) (exFocusMsg 2 []) 8).1.map
        (fun c => c.focusMode_) = some FOCUS_OVER :=
  ⟨(focus_mode_transitions (exCam FOCUS_OVER) (exFocusMsg 1 [0]) 9).2.1
      (by decide) rfl (by decide) (by decide),
    (focus_mode_transitions (exCam FOCUS_AUTO) (exFocusMsg 2 []) 8).2.2.1
      (by decide) (Or.inr rfl) (by decide)⟩

/-! ## C12: which datagrams reach the camera -/

theorem byteAt_handle_read (old datagram : List Nat) (i : Nat) (hi : i < datagram.length)
    (hlen : datagram.length ≤ UDP_PACK_SIZE) :
    byteAt (((datagram.take UDP_PACK_SIZE) ++
      old.drop (datagram.take UDP_PACK_SIZE).length).set (datagram.take UDP_PACK_SIZE).length 0) i
      = byteAt datagram i := by
  have htake : datagram.take UDP_PACK_SIZE = datagram := List.take_of_length_le hlen
  rw [htake]
  unfold byteAt
  rw [List.getD_eq_getElem?_getD, List.getD_eq_getElem?_getD]
  rw [List.getElem?_set_ne (by omega)]
  rw [List.getElem?_append_left hi]

/-- C12, amended. A datagram of at least 8 and fewer than 1500 bytes is
dispatched to the camera exactly when the camera exists, the datagram carries
the check word at offset 4 and its type is FOCUS_BEGIN, FOCUS_END, FOCUS_MOVE
or FOCUS_LIMIT, whatever the receive buffer held before; a datagram that is
not dispatched, and every FOCUS_MOVE and FOCUS_LIMIT, leaves the camera as it
was. -/
theorem receiveCommand_dispatch (camCloudPtr_ : Option CloudCamera)
    (buffPack_ datagram : List Nat) (h8 : 8 ≤ datagram.length)
    (hlen : datagram.length < UDP_PACK_SIZE) (hbuf : buffPack_.length = UDP_PACK_SIZE) :
    ∃ cam buf call, receiveCommand camCloudPtr_ buffPack_ datagram = some (cam, buf, call) ∧
      (call ≠ none ↔ (camCloudPtr_ ≠ none ∧ u32At datagram offCheck = FOCUS_CHECK_CODE ∧
        ((byteAt datagram offType : Int) = TYPE_FOCUS_BEGIN ∨
         (byteAt datagram offType : Int) = TYPE_FOCUS_END ∨
         (byteAt datagram offType : Int) = TYPE_FOCUS_MOVE ∨
         (byteAt datagram offType : Int) = TYPE_FOCUS_LIMIT))) ∧
      (call = none → cam = camCloudPtr_) ∧
      (((byteAt datagram offType : Int) = TYPE_FOCUS_MOVE ∨
        (byteAt datagram offType : Int) = TYPE_FOCUS_LIMIT) → cam = camCloudPtr_) := by
  have hle : datagram.length ≤ UDP_PACK_SIZE := le_of_lt hlen
  have htake : datagram.take UDP_PACK_SIZE = datagram := List.take_of_length_le hle
  have hb : ∀ i, i < datagram.length →
      byteAt (((datagram.take UDP_PACK_SIZE) ++
        buffPack_.drop (datagram.take UDP_PACK_SIZE).length).set
          (datagram.take UDP_PACK_SIZE).length 0) i = byteAt datagram i :=
    fun i hi => byteAt_handle_read buffPack_ datagram i hi hle
  have hfits : (datagram.take UDP_PACK_SIZE).length <
      ((datagram.take UDP_PACK_SIZE) ++
        buffPack_.drop (datagram.take UDP_PACK_SIZE).length).length := by
    rw [htake, List.length_append, List.length_drop, hbuf]; omega
  have hrun : receiveCommand camCloudPtr_ buffPack_ datagram =
      some ((udp_receive_command camCloudPtr_ (((datagram.take UDP_PACK_SIZE) ++
        buffPack_.drop (datagram.take UDP_PACK_SIZE).length).set
          (datagram.take UDP_PACK_SIZE).length 0) (datagram.take UDP_PACK_SIZE).length).1,
        (((datagram.take UDP_PACK_SIZE) ++
        buffPack_.drop (datagram.take UDP_PACK_SIZE).length).set
          (datagram.take UDP_PACK_SIZE).length 0),
        (udp_receive_command camCloudPtr_ (((datagram.take UDP_PACK_SIZE) ++
        buffPack_.drop (datagram.take UDP_PACK_SIZE).length).set
          (datagram.take UDP_PACK_SIZE).length 0) (datagram.take UDP_PACK_SIZE).length).2) := by
    unfold receiveCommand UdpSession.handle_read
    simp only [hfits, if_true]
  refine ⟨_, _, _, hrun, ?_⟩
  generalize hB : (((datagram.take UDP_PACK_SIZE) ++
        buffPack_.drop (datagram.take UDP_PACK_SIZE).length).set
          (datagram.take UDP_PACK_SIZE).length 0) = B at hb
  generalize ((datagram.take UDP_PACK_SIZE).length : Int) = n
  have h0 : byteAt B offType = byteAt datagram offType := hb 0 (by omega)
  have hc : u32At B offCheck = u32At datagram offCheck := by
    unfold u32At offCheck
    rw [hb 4 (by omega), hb 5 (by omega), hb 6 (by omega), hb 7 (by omega)]
  have d12 : TYPE_FOCUS_BEGIN ≠ TYPE_FOCUS_END := by decide
  have d13 : TYPE_FOCUS_BEGIN ≠ TYPE_FOCUS_MOVE := by decide
  have d14 : TYPE_FOCUS_BEGIN ≠ TYPE_FOCUS_LIMIT := by decide
  have d23 : TYPE_FOCUS_END ≠ TYPE_FOCUS_MOVE := by decide
  have d24 : TYPE_FOCUS_END ≠ TYPE_FOCUS_LIMIT := by decide
  have d34 : TYPE_FOCUS_MOVE ≠ TYPE_FOCUS_LIMIT := by decide
  cases camCloudPtr_ with
  | none => simp [udp_receive_command]
  | some c =>
    unfold udp_receive_command
    dsimp only
    rw [hc, h0]
    by_cases hck : u32At datagram offCheck = FOCUS_CHECK_CODE
    · by_cases t1 : (byteAt datagram offType : Int) = TYPE_FOCUS_BEGIN
      · simp [hck, t1, d12, d13, d14]
      · by_cases t2 : (byteAt datagram offType : Int) = TYPE_FOCUS_END
        · simp [hck, t2, d23, d24, d12.symm]
        · by_cases t3 : (byteAt datagram offType : Int) = TYPE_FOCUS_MOVE
          · simp [hck, t3, d34, d13.symm, d23.symm]
          · by_cases t4 : (byteAt datagram offType : Int) = TYPE_FOCUS_LIMIT
            · simp [hck, t4, d14.symm, d24.symm, d34.symm]
            · simp [hck, t1, t2, t3, t4]
    · simp [hck]

/-- C12, witness: FOCUS_LIMIT with its check word reaches the camera from a
fresh buffer. -/
theorem receiveCommand_dispatch_witness :
    ∃ cam buf call, receiveCommand (some (exCam FOCUS_AUTO)) exBuffer (exFocusMsg 4 [])
        = some (cam, buf, call) ∧
      (call ≠ none ↔ ((some (exCam FOCUS_AUTO) : Option CloudCamera) ≠ none ∧
        u32At (exFocusMsg 4 []) offCheck = FOCUS_CHECK_CODE ∧
        ((byteAt (exFocusMsg 4 []) offType : Int) = TYPE_FOCUS_BEGIN ∨
         (byteAt (exFocusMsg 4 []) offType : Int) = TYPE_FOCUS_END ∨
         (byteAt (exFocusMsg 4 []) offType : Int) = TYPE_FOCUS_MOVE ∨
         (byteAt (exFocusMsg 4 []) offType : Int) = TYPE_FOCUS_LIMIT))) ∧
      (call = none → cam = some (exCam FOCUS_AUTO)) ∧
      (((byteAt (exFocusMsg 4 []) offType : Int) = TYPE_FOCUS_MOVE ∨
        (byteAt (exFocusMsg 4 []) offType : Int) = TYPE_FOCUS_LIMIT) →
        cam = some (exCam FOCUS_AUTO)) :=
  receiveCommand_dispatch (some (exCam FOCUS_AUTO)) exBuffer (exFocusMsg 4 [])
    (by decide) (by decide) (by simp [exBuffer])

set_option maxRecDepth 100000 in
/-- C12, counterexample. A FOCUS_MOVE datagram with its check word is
dispatched (to `FocusMove`), although its type is none of BEGIN, END, LIMIT;
and the single byte 0x02, which carries no check word, received after a valid
FOCUS_BEGIN on the same session is dispatched as FOCUS_END and turns the focus
mode from AUTO to OFF. -/
theorem receiveCommand_dispatch_counterexample :
    (receiveCommand (some (exCam FOCUS_AUTO)) exBuffer (exFocusMsg 3 [100, 0, 0, 0])).map
        (fun r => r.2.2) = some (some (FocusCall.FocusMove 100)) ∧
    u32At [2] offCheck ≠ FOCUS_CHECK_CODE ∧
    exStaleRun = some (some FOCUS_OVER, some FocusCall.DoFocusEnd) := by
  refine ⟨by decide, by decide, by decide⟩

/-! ## C13: the exposure after cloudadj -/

theorem cloudadj_row_zero (data : List Int) (h0 : ∀ v ∈ data, v = 0) (pos0 : Int)
    (l : List Nat) (sum : ℚ) :
    l.foldlM (fun (sum : ℚ) (x : Nat) =>
      (data[(toUInt32 (pos0 + (x : Int))).toNat]?).map (fun v => sum + (v : ℚ))) sum = none ∨
    l.foldlM (fun (sum : ℚ) (x : Nat) =>
      (data[(toUInt32 (pos0 + (x : Int))).toNat]?).map (fun v => sum + (v : ℚ))) sum
      = some sum := by
  induction l with
  | nil => right; rfl
  | cons x l ih =>
    rw [List.foldlM_cons]
    cases hx : data[(toUInt32 (pos0 + (x : Int))).toNat]? with
    | none => left; rfl
    | some v =>
      have hv : v = 0 := h0 v (List.getElem?_mem hx)
      subst hv
      simpa using ih

theorem cloudadj_rows_zero (data : List Int) (h0 : ∀ v ∈ data, v = 0) (w xs x1 : Int)
    (l : List Nat) (pos0 : Int) :
    (l.foldlM (fun (st : Int × ℚ) (_ : Nat) =>
      (cloudadj_row data st.1 xs x1 st.2).map
        (fun sum => (toUInt32 (st.1 + w), sum))) (pos0, (0 : ℚ))).map (fun st => st.2) = none ∨
    (l.foldlM (fun (st : Int × ℚ) (_ : Nat) =>
      (cloudadj_row data st.1 xs x1 st.2).map
        (fun sum => (toUInt32 (st.1 + w), sum))) (pos0, (0 : ℚ))).map (fun st => st.2)
      = some 0 := by
  induction l generalizing pos0 with
  | nil => right; rfl
  | cons y l ih =>
    rw [List.foldlM_cons]
    rcases cloudadj_row_zero data h0 pos0 _ 0 with h | h
    · left
      unfold cloudadj_row
      dsimp only
      rw [h]; rfl
    · unfold cloudadj_row
      dsimp only
      rw [h]
      exact ih _

/-- The sum over a frame of zeros, when the loops stay inside the frame, is 0. -/
theorem cloudadj_sum_zero (nfCam : CameraInfo) (h0 : ∀ v ∈ nfCam.data, v = 0) :
    cloudadj_sum nfCam = none ∨ cloudadj_sum nfCam = some 0 := by
  unfold cloudadj_sum
  exact cloudadj_rows_zero nfCam.data h0 _ _ _ _ _

/-- On a frame of zeros `cloudadj` has no defined result, whatever the exposure
and its limits. -/
theorem cloudadj_of_zero_data (nfCam : CameraInfo) (h0 : ∀ v ∈ nfCam.data, v = 0)
    (expdur_ expdurMin expdurMax : Int) :
    cloudadj nfCam expdur_ expdurMin expdurMax = none := by
  unfold cloudadj
  rcases cloudadj_sum_zero nfCam h0 with h | h
  · rw [h]
  · rw [h]
    simp

/-- Where the loops give the sum `s > 0` and neither the product nor the
rounded quotient leaves the range of `int`, `cloudadj` gives the quotient
`expdur_ * 40000 / (s / 262144)` rounded half up and clamped. -/
theorem cloudadj_of_sum_pos (nfCam : CameraInfo) (s : ℚ) (hs : cloudadj_sum nfCam = some s)
    (hpos : 0 < s) (expdur_ expdurMin expdurMax : Int) (he : 0 ≤ expdur_)
    (hprod : expdur_ * 40000 ≤ 2147483647)
    (hq : ((expdur_ * 40000 : Int) : ℚ) / (s / 262144) + 1 / 2 < 2147483648) :
    cloudadj nfCam expdur_ expdurMin expdurMax =
      some (max expdurMin
        (min expdurMax ⌊((expdur_ * 40000 : Int) : ℚ) / (s / 262144) + 1 / 2⌋)) ∨
    expdurMax < expdurMin := by
  by_cases hmm : expdurMax < expdurMin
  · right; exact hmm
  left
  have hnn : (0 : ℚ) ≤ ((expdur_ * 40000 : Int) : ℚ) / (s / 262144) + 1 / 2 := by
    have : (0 : ℚ) ≤ ((expdur_ * 40000 : Int) : ℚ) := by
      exact_mod_cast (by omega : (0 : Int) ≤ expdur_ * 40000)
    positivity
  have hc : castInt (((expdur_ * 40000 : Int) : ℚ) / (s / 262144) + 1 / 2)
      = some ⌊((expdur_ * 40000 : Int) : ℚ) / (s / 262144) + 1 / 2⌋ := by
    rw [castInt_of_abs_lt _ (by rw [abs_of_nonneg hnn]; exact hq), truncQ_of_nonneg _ hnn]
  have hs0 : s / 262144 ≠ 0 := by positivity
  unfold cloudadj
  rw [hs]
  dsimp only
  rw [if_neg (by omega), if_neg hs0, hc]
  dsimp only
  generalize ⌊((expdur_ * 40000 : Int) : ℚ) / (s / 262144) + 1 / 2⌋ = e
  split_ifs <;> rw [Option.some.injEq] <;> omega

theorem cloudadj_row_black (n : Nat) (pos0 : Int) (l : List Nat)
    (hin : ∀ x ∈ l, (toUInt32 (pos0 + (x : Int))).toNat < n) (sum : ℚ) :
    l.foldlM (fun (sum : ℚ) (x : Nat) =>
      ((List.replicate n (0 : Int))[(toUInt32 (pos0 + (x : Int))).toNat]?).map
        (fun v => sum + (v : ℚ))) sum = some sum := by
  induction l with
  | nil => rfl
  | cons x l ih =>
    rw [List.foldlM_cons]
    have hx := hin x (List.mem_cons_self x l)
    rw [List.getElem?_replicate, if_pos hx]
    simpa using ih (fun y hy => hin y (List.mem_cons_of_mem x hy))

theorem cloudadj_rows_black (n : Nat) (hn : n = 262144) (m : Nat) (l : List Nat) (k : Nat)
    (hl : l.length = m) (hk : k + m ≤ 512) :
    l.foldlM (fun (st : Int × ℚ) (_ : Nat) =>
      (cloudadj_row (List.replicate n (0 : Int)) st.1 (toUInt32 (512 / 2 - 256))
          (toUInt32 (512 / 2 + 256)) st.2).map
        (fun sum => (toUInt32 (st.1 + 512), sum))) (512 * (k : Int), (0 : ℚ))
      = some (512 * ((k + m : Nat) : Int), 0) := by
  induction m generalizing l k with
  | zero =>
    have : l = [] := List.length_eq_zero.mp hl
    subst this
    rfl
  | succ m ih =>
    cases l with
    | nil => simp at hl
    | cons y l =>
      rw [List.foldlM_cons]
      have hrow : cloudadj_row (List.replicate n (0 : Int)) (512 * (k : Int))
          (toUInt32 (512 / 2 - 256)) (toUInt32 (512 / 2 + 256)) 0 = some 0 := by
        unfold cloudadj_row
        apply cloudadj_row_black
        intro x hx
        have hx' : x < 512 := by
          have := List.mem_range'_1.mp hx
          simp [toUInt32] at this
          omega
        unfold toUInt32
        omega
      dsimp only
      rw [hrow]
      have hnext : toUInt32 (512 * (k : Int) + 512) = 512 * ((k + 1 : Nat) : Int) := by
        unfold toUInt32
        push_cast
        omega
      have := ih l (k + 1) (by simpa using hl) (by omega)
      simp only [Option.map_some', Option.bind_eq_bind, Option.some_bind]
      rw [hnext, this]
      have e : k + 1 + m = k + (m + 1) := by omega
      rw [e]

/-- On the black 512 x 512 frame the loops stay inside the frame and give the
sum 0. -/
theorem cloudadj_sum_black : cloudadj_sum exBlackFrame = some 0 := by
  unfold cloudadj_sum cloudadj_pos0 exBlackFrame
  dsimp only
  have h := cloudadj_rows_black 262144 rfl 512 (List.range' (toUInt32 (512 / 2 - 256)).toNat
    (toUInt32 (512 / 2 + 256) - toUInt32 (512 / 2 - 256)).toNat) 0
    (by simp [toUInt32]) (by omega)
  have hp : toUInt32 (toUInt32 (512 / 2 - 256) * 512) = 512 * ((0 : Nat) : Int) := by
    simp [toUInt32]
  rw [hp, h]
  rfl

/-- C13, failing input. On a black 512 x 512 frame the loops of `cloudadj`
give the sum 0, so the central mean is 0, a value the claim covers; the
quotient `expdur_ * 40000 / 0` has no value that `int(...)` could convert, and
`cloudadj` leaves no defined exposure (here from 10 s with limits 1 s and
120 s). -/
theorem cloudadj_black_frame_undefined :
    cloudadj_sum exBlackFrame = some 0 ∧ cloudadj exBlackFrame 10 1 120 = none :=
  ⟨cloudadj_sum_black,
    cloudadj_of_zero_data exBlackFrame (fun _ hv => List.eq_of_mem_replicate hv) 10 1 120⟩

/-! ## C14 and C15: the catalogue filter and the window -/

theorem resolve_catalog_foldl (rows : List xmStar) (n : Int) :
    rows.foldl (fun starCount_ star => if star.admitted then starCount_ + 1 else starCount_) n
      = n + (rows.countP xmStar.admitted : Int) := by
  induction rows generalizing n with
  | nil => simp
  | cons star rows ih =>
    rw [List.foldl_cons, ih, List.countP_cons]
    by_cases h : star.admitted = true
    · simp [h]; ring
    · simp [h]

/-- The count that `resolve_catalog` returns is the number of rows that pass
the test of its loop. -/
theorem resolve_catalog_eq_countP (rows : List xmStar) :
    resolve_catalog rows = (rows.countP xmStar.admitted : Int) := by
  unfold resolve_catalog
  rw [resolve_catalog_foldl]
  simp

/-- The test of the loop, spelled out: the flux must exceed 1. -/
theorem admitted_iff (star : xmStar) :
    star.admitted = true ↔
      (star.flux > 1 ∧ star.area ≥ 3 ∧ (star.fluxErr = 0 ∨ star.flux / star.fluxErr ≥ 3)
        ∧ star.fwhm > 1) := by
  unfold xmStar.admitted snrAtLeast STAR_AREA_MIN
  by_cases h : star.fluxErr = 0
  · simp [h]
    tauto
  · simp [h]
    tauto

/-- With fewer than `STAR_COUNT_MIN` admitted rows `DoIt` returns a non-zero
code and leaves `frame->fwhm` as it was. -/
theorem DoIt_few_stars (prepared_ : Bool) (pid0 : Int) (waited : Bool) (rows : List xmStar)
    (stat_fwhm : List xmStar → ℚ → ℚ) (fwhm : ℚ) (hpid : pid0 ≠ 0)
    (hfew : resolve_catalog rows < STAR_COUNT_MIN) :
    ∃ r, r ≠ 0 ∧ InvokeSExtractor.DoIt prepared_ pid0 waited rows stat_fwhm fwhm
      = some (r, fwhm) := by
  unfold InvokeSExtractor.DoIt
  cases prepared_ with
  | false => exact ⟨1, by decide, by simp⟩
  | true =>
    rcases lt_or_gt_of_ne hpid with h | h
    · exact ⟨2, by decide, by simp [h, not_lt.mpr (le_of_lt h)]⟩
    · cases waited with
      | false => exact ⟨3, by decide, by simp [h]⟩
      | true => exact ⟨4, by decide, by simp [h, hfew]⟩

/-- C15, failing input. A row with flux exactly 1, area 5, signal to noise 10
and FWHM 2 meets every condition of the claim (flux >= 1, area >= 3,
snr >= 3, fwhm > 1), yet `resolve_catalog` does not admit it: the count for
the catalogue made of this row is 0. -/
theorem resolve_catalog_rejects_flux_one :
    (exStarFluxOne.flux ≥ 1 ∧ exStarFluxOne.area ≥ 3 ∧
      exStarFluxOne.flux / exStarFluxOne.fluxErr ≥ 3 ∧ exStarFluxOne.fwhm > 1) ∧
    resolve_catalog [exStarFluxOne] = 0 := by
  refine ⟨by norm_num [exStarFluxOne], ?_⟩
  rw [resolve_catalog_eq_countP]
  have h : exStarFluxOne.admitted = false := by
    simp [xmStar.admitted, exStarFluxOne]
  simp [h]

/-- C14, amended. For a frame in which fewer than 50 rows pass the admission
filter, `DoIt` leaves the frame's fwhm at the 0 that `Reset` gave it; when the
frame is older than 60 s the reducer leaves the window as it was, and when it
is not, the reducer removes the oldest value of a non-empty window and adds
none. In both cases the focus mode is kept and nothing is sent. -/
theorem reduceFrame_few_stars (self : CloudCamera) (step : Int) (uninitEnd : Int × Int)
    (age : Int) (prepared_ : Bool) (pid0 : Int) (waited : Bool) (rows : List xmStar)
    (stat_fwhm : List xmStar → ℚ → ℚ) (hpid : pid0 ≠ 0)
    (hfew : resolve_catalog rows < STAR_COUNT_MIN) :
    ∃ frame, reducedFrame age prepared_ pid0 waited rows stat_fwhm = some frame ∧
      frame.fwhm = 0 ∧
      (age > 60 → reduceFrame self step uninitEnd frame = some (self, step, [])) ∧
      (age ≤ 60 → ∀ v rest, self.queFwhm_ = v :: rest →
        reduceFrame self step uninitEnd frame
          = some ({ self with queFwhm_ := rest }, step, [])) := by
  obtain ⟨r, hr, hrun⟩ := DoIt_few_stars prepared_ pid0 waited rows stat_fwhm 0 hpid hfew
  refine ⟨{ age := age, doIt := r, fwhm := 0 }, ?_, rfl, ?_, ?_⟩
  · unfold reducedFrame
    rw [hrun]
    rfl
  · intro hage
    unfold reduceFrame
    rw [if_pos hage]
  · intro hage v rest hq
    unfold reduceFrame
    rw [if_neg (by dsimp only; omega), if_neg (by dsimp only; tauto), hq]

/-- C14, witness: a fresh frame with an empty catalogue, on a window of two
values. -/
theorem reduceFrame_few_stars_witness :
    ∃ frame, reducedFrame 0 true 1234 true [] exStatFwhm = some frame ∧
      frame.fwhm = 0 ∧
      ((0 : Int) > 60 → reduceFrame exCameraLate 0 (0, 0) frame = some (exCameraLate, 0, [])) ∧
      ((0 : Int) ≤ 60 → ∀ v rest, exCameraLate.queFwhm_ = v :: rest →
        reduceFrame exCameraLate 0 (0, 0) frame
          = some ({ exCameraLate with queFwhm_ := rest }, 0, [])) :=
  reduceFrame_few_stars exCameraLate 0 (0, 0) 0 true 1234 true [] exStatFwhm
    (by decide) (by decide)

/-- C14, counterexample. A fresh frame whose catalogue holds no star reaches
the reducer with a window of two accepted values, 4.5 and 4.5: after the frame
the window holds one value, so it was not left as it was. -/
theorem reduceFrame_few_stars_counterexample :
    resolve_catalog [] < STAR_COUNT_MIN ∧
    exCameraLate.queFwhm_ = [9 / 2, 9 / 2] ∧
    ((reducedFrame 0 true 1234 true [] exStatFwhm).bind
        (fun frame => reduceFrame exCameraLate 0 (0, 0) frame)).map
      (fun r => r.1.queFwhm_) = some [9 / 2] := by
  refine ⟨by decide, rfl, ?_⟩
  have h1 : reducedFrame 0 true 1234 true [] exStatFwhm
      = some { age := 0, doIt := 4, fwhm := 0 } := by
    simp [reducedFrame, InvokeSExtractor.DoIt, resolve_catalog, STAR_COUNT_MIN]
  rw [h1]
  simp [reduceFrame, exCameraLate]

/-! ## The serial ring and the weather handler -/

theorem matchAt_one (ring : List Nat) (pos b : Nat) (hb : ring[pos]? = some b) :
    SerialComm.matchAt ring [0x03] 1 pos 1 = some (if 3 = b then 1 else 0) := by
  simp only [SerialComm.matchAt]
  simp [hb]
  split_ifs <;> rfl

theorem scan_first_flag (p r : List Nat) (hp : 3 ∉ p) (d : Nat) :
    ∀ (k fuel i : Nat), p.length - k = d → k ≤ p.length → p.length - k + 2 ≤ fuel → i ≠ 1 →
      SerialComm.scan (p ++ 3 :: r) [0x03] 1 (p.length + r.length) fuel k i
        = some (p.length + 1, 1) := by
  induction d with
  | zero =>
    intro k fuel i hd hk hfuel hi
    have hk' : k = p.length := by omega
    subst hk'
    obtain ⟨f, rfl⟩ : ∃ f, fuel = f + 2 := ⟨fuel - 2, by omega⟩
    have hb : (p ++ 3 :: r)[p.length]? = some 3 := by
      rw [List.getElem?_append_right (le_refl _)]
      simp
    rw [SerialComm.scan, if_pos ⟨hi, by omega⟩, matchAt_one _ _ _ hb]
    simp [SerialComm.scan]
  | succ d ih =>
    intro k fuel i hd hk hfuel hi
    have hlt : k < p.length := by omega
    obtain ⟨f, rfl⟩ : ∃ f, fuel = f + 1 := ⟨fuel - 1, by omega⟩
    have hb : (p ++ 3 :: r)[k]? = some (p.get ⟨k, hlt⟩) := by
      rw [List.getElem?_append_left hlt]
      simp
    have hne : (3 : Nat) ≠ p.get ⟨k, hlt⟩ := by
      intro h
      exact hp (h ▸ List.get_mem p k hlt)
    rw [SerialComm.scan, if_pos ⟨hi, by omega⟩, matchAt_one _ _ _ hb, if_neg hne]
    exact ih (k + 1) f 0 (by omega) (by omega) (by omega) (by decide)

/-- `Lookup` for the one-byte pattern 0x03 from offset 0: the offset of the
first 0x03 of the ring. -/
theorem Lookup_first_flag (p r : List Nat) (hp : 3 ∉ p) (hcap : (p ++ 3 :: r).length ≤ 1280) :
    SerialComm.Lookup (p ++ 3 :: r) [0x03] 1 0 = some (p.length : Int) := by
  have hn : subSize (p ++ 3 :: r).length 1 = p.length + r.length := by
    unfold subSize
    rw [if_pos (by simp only [List.length_append, List.length_cons]; omega)]
    simp only [List.length_append, List.length_cons]
    omega
  have hs := scan_first_flag p r hp (p.length - 0) 0 ((p ++ 3 :: r).length + 2) SIZE_MAX rfl
    (by omega) (by simp only [List.length_append, List.length_cons]; omega) (by decide)
  unfold SerialComm.Lookup
  rw [if_neg (by decide)]
  dsimp only
  rw [hn, hs]
  dsimp only
  rw [if_pos rfl]
  simp only [List.length_append, List.length_cons] at hcap
  congr 1
  unfold toInt32
  push_cast
  omega

/-- `Read` when the ring holds the `len` bytes asked for and the buffer has
room for them. -/
theorem Read_of_fits (ring buff : List Nat) (len frm : Nat) (erase : Bool) (hlen : len ≠ 0)
    (hring : frm + len ≤ ring.length) (hbuff : len ≤ buff.length) :
    SerialComm.Read ring buff len frm erase
      = some (if erase then ring.drop (frm + len) else ring,
              (ring.drop frm).take len ++ buff.drop len, len) := by
  have hto : SerialComm.to_read ring len frm = len := by
    unfold SerialComm.to_read
    split_ifs with h
    · rfl
    · unfold subSize
      rw [if_pos (by omega)]
      omega
  unfold SerialComm.Read
  rw [if_neg hlen]
  dsimp only
  rw [hto, if_neg hlen, if_neg (by omega)]
  cases erase with
  | true => simp [hring]
  | false => simp

/-- The first steps of the handler on a ring whose first 0x03 follows an
address byte: `Lookup` finds it and the three header bytes are copied. -/
theorem handle_receive_weather_head (self : WeatherRx) (pre rest : List Nat) (addr len : Nat)
    (hring : self.crcrcv_ = pre ++ addr :: 3 :: len :: rest) (hpre : 3 ∉ pre) (haddr : addr ≠ 3)
    (hbuf : self.buff.length = 20) (hcap : self.crcrcv_.length ≤ 1280) :
    SerialComm.Lookup self.crcrcv_ [0x03] 1 0 = some ((pre.length + 1 : Nat) : Int) ∧
    SerialComm.Read self.crcrcv_ self.buff 3 pre.length false
      = some (self.crcrcv_, addr :: 3 :: len :: self.buff.drop 3, 3) := by
  have hsplit : self.crcrcv_ = (pre ++ [addr]) ++ 3 :: (len :: rest) := by
    rw [hring]; simp
  constructor
  · have hp : 3 ∉ pre ++ [addr] := by
      intro h
      rcases List.mem_append.mp h with h | h
      · exact hpre h
      · exact haddr (List.mem_singleton.mp h).symm
    have h := Lookup_first_flag (pre ++ [addr]) (len :: rest) hp (by rw [← hsplit]; exact hcap)
    rw [← hsplit] at h
    rw [h]
    simp
  · rw [Read_of_fits self.crcrcv_ self.buff 3 pre.length false (by decide)
      (by rw [hring]; simp only [List.length_append, List.length_cons]; omega) (by omega)]
    have hd : (self.crcrcv_.drop pre.length).take 3 = [addr, 3, len] := by
      rw [hring, List.drop_left]
      rfl
    rw [hd]
    rfl

/-- A header whose length byte differs from the count for its address byte:
the handler drops the ring up to and including the 0x03 and does nothing
else. -/
theorem handle_receive_weather_mismatch (self : WeatherRx) (pre rest : List Nat)
    (addr len bytes : Nat)
    (hring : self.crcrcv_ = pre ++ addr :: 3 :: len :: rest) (hpre : 3 ∉ pre) (haddr : addr ≠ 3)
    (hbuf : self.buff.length = 20) (hcap : self.crcrcv_.length ≤ 1280)
    (hlen : len ≠ (if addr = WEA_THP then 6 else 4)) :
    handle_receive_weather self 0 bytes
      = some { self with crcrcv_ := len :: rest,
                         buff := addr :: 3 :: len :: self.buff.drop 3 } := by
  obtain ⟨hL, hR⟩ := handle_receive_weather_head self pre rest addr len hring hpre haddr hbuf hcap
  have hpos : (((pre.length + 1 : Nat) : Int) - 1).toNat = pre.length := by
    push_cast; simp
  have hge : ((pre.length + 1 : Nat) : Int) ≥ 1 := by push_cast; omega
  have hR2 : SerialComm.Read self.crcrcv_ (addr :: 3 :: len :: self.buff.drop 3) 2 pre.length true
      = some (len :: rest, addr :: 3 :: len :: self.buff.drop 3, 2) := by
    rw [Read_of_fits _ _ 2 pre.length true (by decide)
      (by rw [hring]; simp only [List.length_append, List.length_cons]; omega)
      (by simp only [List.length_cons]; omega)]
    have hd : (self.crcrcv_.drop pre.length).take 2 = [addr, 3] := by
      rw [hring, List.drop_left]
      rfl
    have he : self.crcrcv_.drop (pre.length + 2) = len :: rest := by
      rw [hring, ← List.drop_drop, List.drop_left]
      rfl
    rw [hd, he]
    rfl
  unfold handle_receive_weather
  rw [if_neg (by decide), hL]
  dsimp only
  rw [if_pos hge, hpos, hR]
  dsimp only
  rw [List.getD_cons_zero]
  have h2 : (addr :: 3 :: len :: self.buff.drop 3).getD 2 0 = len := rfl
  rw [h2, if_pos hlen, hR2]

theorem getD_take_append (l t : List Nat) (N k : Nat) (hk : k < N) (hN : N ≤ l.length) :
    (l.take N ++ t).getD k 0 = l.getD k 0 := by
  rw [List.getD_eq_getElem?_getD, List.getD_eq_getElem?_getD]
  rw [List.getElem?_append_left (by rw [List.length_take]; omega)]
  rw [List.getElem?_take_of_lt hk]

theorem word16_take_append (l t : List Nat) (N i : Nat) (hi : i + 1 < N) (hN : N ≤ l.length) :
    word16 (l.take N ++ t) i = word16 l i := by
  unfold word16
  rw [getD_take_append l t N i (by omega) hN, getD_take_append l t N (i + 1) hi hN]

theorem word16_header (addr len : Nat) (rest : List Nat) (i : Nat) :
    word16 (addr :: 3 :: len :: rest) (i + 3) = word16 rest i := by
  unfold word16
  rfl

/-- A complete frame whose length byte is the count for its address byte: the
handler consumes the frame, signals the waiting query and decodes the sample
from the frame's data bytes when the address is that of THP or of wind. -/
theorem handle_receive_weather_frame (self : WeatherRx) (pre rest : List Nat)
    (addr len bytes : Nat)
    (hring : self.crcrcv_ = pre ++ addr :: 3 :: len :: rest) (hpre : 3 ∉ pre) (haddr : addr ≠ 3)
    (hbuf : self.buff.length = 20) (hcap : self.crcrcv_.length ≤ 1280)
    (hlen : len = (if addr = WEA_THP then 6 else 4))
    (hbytes : 5 + len ≤ bytes) (hfull : 2 + len ≤ rest.length) :
    ∃ out, handle_receive_weather self 0 bytes = some out ∧
      out.crcrcv_ = rest.drop (2 + len) ∧ out.cvGet_ = self.cvGet_ + 1 ∧
      out.qryType_ = self.qryType_ ∧
      (addr = WEA_THP → out.info_ = { self.info_ with
          temperature := (word16 rest 0 : ℚ) * (1 / 100),
          humidity := (word16 rest 2 : ℚ) * (1 / 100),
          pressure := (word16 rest 4 : ℚ) * (1 / 10) }) ∧
      (addr = WEA_WIND → out.info_ = { self.info_ with
          windSpeed := (word16 rest 0 : ℚ) * (1 / 100),
          windOrient := word16 rest 2 }) ∧
      (addr ≠ WEA_THP → addr ≠ WEA_WIND → out.info_ = self.info_) := by
  obtain ⟨hL, hR⟩ := handle_receive_weather_head self pre rest addr len hring hpre haddr hbuf hcap
  have hpos : (((pre.length + 1 : Nat) : Int) - 1).toNat = pre.length := by
    push_cast; simp
  have hge : ((pre.length + 1 : Nat) : Int) ≥ 1 := by push_cast; omega
  have hlen6 : len ≤ 6 := by rw [hlen]; split_ifs <;> omega
  have hlen4 : 4 ≤ len := by rw [hlen]; split_ifs <;> omega
  have hR3 : SerialComm.Read self.crcrcv_ (addr :: 3 :: len :: self.buff.drop 3) (5 + len)
      pre.length true
      = some (rest.drop (2 + len),
          (addr :: 3 :: len :: rest).take (5 + len)
            ++ (addr :: 3 :: len :: self.buff.drop 3).drop (5 + len), 5 + len) := by
    rw [Read_of_fits _ _ (5 + len) pre.length true (by omega)
      (by rw [hring]; simp only [List.length_append, List.length_cons]; omega)
      (by simp only [List.length_cons, List.length_drop]; omega)]
    have hd : self.crcrcv_.drop pre.length = addr :: 3 :: len :: rest := by
      rw [hring, List.drop_left]
    have he : self.crcrcv_.drop (pre.length + (5 + len)) = rest.drop (2 + len) := by
      rw [← List.drop_drop, hd]
      have : 5 + len = (2 + len) + 3 := by omega
      rw [this]
      rfl
    rw [hd, he]
    rfl
  have hrun : handle_receive_weather self 0 bytes = some
      { self with
        crcrcv_ := rest.drop (2 + len),
        buff := (addr :: 3 :: len :: rest).take (5 + len)
            ++ (addr :: 3 :: len :: self.buff.drop 3).drop (5 + len),
        info_ :=
          if ((addr :: 3 :: len :: rest).take (5 + len)
            ++ (addr :: 3 :: len :: self.buff.drop 3).drop (5 + len)).getD 0 0 = WEA_THP then
            { self.info_ with
              temperature := (word16 ((addr :: 3 :: len :: rest).take (5 + len)
                ++ (addr :: 3 :: len :: self.buff.drop 3).drop (5 + len)) 3 : ℚ) * (1 / 100),
              humidity := (word16 ((addr :: 3 :: len :: rest).take (5 + len)
                ++ (addr :: 3 :: len :: self.buff.drop 3).drop (5 + len)) 5 : ℚ) * (1 / 100),
              pressure := (word16 ((addr :: 3 :: len :: rest).take (5 + len)
                ++ (addr :: 3 :: len :: self.buff.drop 3).drop (5 + len)) 7 : ℚ) * (1 / 10) }
          else if ((addr :: 3 :: len :: rest).take (5 + len)
            ++ (addr :: 3 :: len :: self.buff.drop 3).drop (5 + len)).getD 0 0 = WEA_WIND then
            { self.info_ with
              windSpeed := (word16 ((addr :: 3 :: len :: rest).take (5 + len)
                ++ (addr :: 3 :: len :: self.buff.drop 3).drop (5 + len)) 3 : ℚ) * (1 / 100),
              windOrient := word16 ((addr :: 3 :: len :: rest).take (5 + len)
                ++ (addr :: 3 :: len :: self.buff.drop 3).drop (5 + len)) 5 }
          else self.info_,
        cvGet_ := self.cvGet_ + 1 } := by
    unfold handle_receive_weather
    rw [if_neg (by decide), hL]
    dsimp only
    rw [if_pos hge, hpos, hR]
    dsimp only
    rw [List.getD_cons_zero]
    have h2 : (addr :: 3 :: len :: self.buff.drop 3).getD 2 0 = len := rfl
    rw [h2, ← hlen, if_neg (by simp), if_pos (by omega), hR3]
  have hN : 5 + len ≤ (addr :: 3 :: len :: rest).length := by
    simp only [List.length_cons]; omega
  have h0 : ((addr :: 3 :: len :: rest).take (5 + len)
      ++ (addr :: 3 :: len :: self.buff.drop 3).drop (5 + len)).getD 0 0 = addr := by
    rw [getD_take_append _ _ _ 0 (by omega) hN]
    rfl
  have hw : ∀ i, i + 4 < 5 + len → word16 ((addr :: 3 :: len :: rest).take (5 + len)
      ++ (addr :: 3 :: len :: self.buff.drop 3).drop (5 + len)) (i + 3) = word16 rest i := by
    intro i hi
    rw [word16_take_append _ _ _ (i + 3) (by omega) hN, word16_header]
  rw [h0] at hrun
  have e3 := hw 0 (by omega)
  have e5 := hw 2 (by omega)
  refine ⟨_, hrun, rfl, rfl, rfl, ?_, ?_, ?_⟩
  · intro ha
    have hl : len = 6 := by rw [hlen, if_pos ha]
    have e7 := hw 4 (by omega)
    dsimp only
    rw [if_pos ha]
    simp only [Nat.zero_add] at e3
    rw [e3, e5, e7]
  · intro ha
    have hne : addr ≠ WEA_THP := by rw [ha]; decide
    dsimp only
    rw [if_neg hne, if_pos ha]
    simp only [Nat.zero_add] at e3
    rw [e3, e5]
  · intro h1 h2
    dsimp only
    rw [if_neg h1, if_neg h2]

/-! ## C16 and C17: decoding and accepting a reply -/

/-- C16, failing input. The THP reply `66 03 06 FF 38 13 88 27 10 xx xx`
carries the temperature word `FF 38`, whose signed 16-bit value is -200
(-2.00 degC); the handler accepts the frame and stores 653.36, the unsigned
reading. The reply `66 03 06 0B B8 13 88 27 10 xx xx` of the specification is
decoded as 30.00, 50.00 and 1000.0. -/
theorem handle_receive_weather_unsigned_temperature :
    toInt16 (word16 exThpCold 3) = -200 ∧
    (handle_receive_weather (exRx exThpCold WEA_THP) 0 11).map
        (fun s => (s.cvGet_, s.info_.temperature)) = some (1, 65336 / 100) ∧
    (handle_receive_weather (exRx exThpWarm WEA_THP) 0 11).map
        (fun s => (s.info_.temperature, s.info_.humidity, s.info_.pressure))
      = some (30, 50, 1000) := by
  refine ⟨by decide, ?_, ?_⟩
  · obtain ⟨out, hrun, _, hcv, _, hthp, _, _⟩ :=
      handle_receive_weather_frame (exRx exThpCold WEA_THP) []
        [0xFF, 0x38, 0x13, 0x88, 0x27, 0x10, 0xAA, 0xBB] 0x66 6 11 rfl (by simp) (by decide)
        (by simp [exRx]) (by simp [exRx, exThpCold]) (by decide) (by decide) (by decide)
    rw [hrun, Option.map_some', hcv, hthp rfl]
    norm_num [word16, exRx]
  · obtain ⟨out, hrun, _, _, _, hthp, _, _⟩ :=
      handle_receive_weather_frame (exRx exThpWarm WEA_THP) []
        [0x0B, 0xB8, 0x13, 0x88, 0x27, 0x10, 0xAA, 0xBB] 0x66 6 11 rfl (by simp) (by decide)
        (by simp [exRx]) (by simp [exRx, exThpWarm]) (by decide) (by decide) (by decide)
    rw [hrun, Option.map_some', hthp rfl]
    norm_num [word16]

/-- C17, amended. On a ring that holds, after bytes free of 0x03, a reply
frame `[addr, 0x03, len, ...]` followed by at least as many bytes as a
complete frame of its address has after `len` (data and two check bytes: 8
for the THP address, 6 for any other), and whichever query was sent last, the
handler consumes the frame and signals the waiting query
exactly when `len` is the count that goes with the frame's own address byte
(6 for the THP address 0x66, 4 for any other); it then decodes the sample from
the frame when the address is that of THP or of wind. Otherwise it drops the
ring up to and including the 0x03 and leaves the sample as it was. -/
theorem handle_receive_weather_accepts (self : WeatherRx) (pre rest : List Nat)
    (addr len : Nat)
    (hring : self.crcrcv_ = pre ++ addr :: 3 :: len :: rest) (hpre : 3 ∉ pre) (haddr : addr ≠ 3)
    (hbuf : self.buff.length = 20) (hcap : self.crcrcv_.length ≤ 1280)
    (hfull : 2 + (if addr = WEA_THP then 6 else 4) ≤ rest.length) :
    ∃ out, handle_receive_weather self 0 self.crcrcv_.length = some out ∧
      out.qryType_ = self.qryType_ ∧
      (out.cvGet_ = self.cvGet_ + 1 ↔ len = (if addr = WEA_THP then 6 else 4)) ∧
      (len = (if addr = WEA_THP then 6 else 4) →
        out.crcrcv_ = rest.drop (2 + len) ∧
        (addr = WEA_THP → out.info_ = { self.info_ with
          temperature := (word16 rest 0 : ℚ) * (1 / 100),
          humidity := (word16 rest 2 : ℚ) * (1 / 100),
          pressure := (word16 rest 4 : ℚ) * (1 / 10) }) ∧
        (addr = WEA_WIND → out.info_ = { self.info_ with
          windSpeed := (word16 rest 0 : ℚ) * (1 / 100),
          windOrient := word16 rest 2 })) ∧
      (len ≠ (if addr = WEA_THP then 6 else 4) →
        out.cvGet_ = self.cvGet_ ∧ out.info_ = self.info_ ∧ out.crcrcv_ = len :: rest) := by
  by_cases hlen : len = (if addr = WEA_THP then 6 else 4)
  · have hfull' : 2 + len ≤ rest.length := by rw [hlen]; exact hfull
    obtain ⟨out, hrun, hr, hcv, hq, hthp, hwind, _⟩ :=
      handle_receive_weather_frame self pre rest addr len self.crcrcv_.length hring hpre haddr
        hbuf hcap hlen
        (by rw [hring]; simp only [List.length_append, List.length_cons]; omega) hfull'
    exact ⟨out, hrun, hq, ⟨fun _ => hlen, fun _ => hcv⟩, fun _ => ⟨hr, hthp, hwind⟩,
      fun h => absurd hlen h⟩
  · refine ⟨_, handle_receive_weather_mismatch self pre rest addr len self.crcrcv_.length hring
      hpre haddr hbuf hcap hlen, rfl, ⟨fun h => ?_, fun h => absurd h hlen⟩,
      fun h => absurd h hlen, fun _ => ⟨rfl, rfl, rfl⟩⟩
    dsimp only at h
    omega

/-- C17, witness: a lone wind reply of 9 bytes, `C8 03 04 01 2C 00 5A` and two
check bytes, after the wind query. -/
theorem handle_receive_weather_accepts_witness :
    ∃ out, handle_receive_weather (exRx exWind WEA_WIND) 0
        (exRx exWind WEA_WIND).crcrcv_.length = some out ∧
      out.qryType_ = (exRx exWind WEA_WIND).qryType_ ∧
      (out.cvGet_ = (exRx exWind WEA_WIND).cvGet_ + 1 ↔
        4 = (if 0xC8 = WEA_THP then 6 else 4)) ∧
      (4 = (if 0xC8 = WEA_THP then 6 else 4) →
        out.crcrcv_ = ([0x01, 0x2C, 0x00, 0x5A, 0xAA, 0xBB] : List Nat).drop (2 + 4) ∧
        (0xC8 = WEA_THP → out.info_ = { (exRx exWind WEA_WIND).info_ with
          temperature := (word16 [0x01, 0x2C, 0x00, 0x5A, 0xAA, 0xBB] 0 : ℚ) * (1 / 100),
          humidity := (word16 [0x01, 0x2C, 0x00, 0x5A, 0xAA, 0xBB] 2 : ℚ) * (1 / 100),
          pressure := (word16 [0x01, 0x2C, 0x00, 0x5A, 0xAA, 0xBB] 4 : ℚ) * (1 / 10) }) ∧
        (0xC8 = WEA_WIND → out.info_ = { (exRx exWind WEA_WIND).info_ with
          windSpeed := (word16 [0x01, 0x2C, 0x00, 0x5A, 0xAA, 0xBB] 0 : ℚ) * (1 / 100),
          windOrient := word16 [0x01, 0x2C, 0x00, 0x5A, 0xAA, 0xBB] 2 })) ∧
      (4 ≠ (if 0xC8 = WEA_THP then 6 else 4) →
        out.cvGet_ = (exRx exWind WEA_WIND).cvGet_ ∧
        out.info_ = (exRx exWind WEA_WIND).info_ ∧
        out.crcrcv_ = 4 :: [0x01, 0x2C, 0x00, 0x5A, 0xAA, 0xBB]) :=
  handle_receive_weather_accepts (exRx exWind WEA_WIND) []
    [0x01, 0x2C, 0x00, 0x5A, 0xAA, 0xBB] 0xC8 4 rfl (by simp) (by decide)
    (by simp [exRx]) (by simp [exRx, exWind]) (by decide)

/-- The lone wind reply is consumed whole, signals the waiting query and gives
the wind speed 3.00 m/s and the direction 90; so is the THP reply of the
specification after a THP query, with 30.00, 50.00 and 1000.0. -/
theorem exWind_accepted :
    (handle_receive_weather (exRx exWind WEA_WIND) 0 9).map
        (fun s => (s.cvGet_, s.crcrcv_, s.info_.windSpeed, s.info_.windOrient))
      = some (1, [], 3, 90) ∧
    (handle_receive_weather (exRx exThpWarm WEA_THP) 0 11).map
        (fun s => (s.cvGet_, s.crcrcv_, s.info_.temperature))
      = some (1, [], 30) := by
  constructor
  · obtain ⟨out, hrun, hr, hcv, _, _, hwind, _⟩ :=
      handle_receive_weather_frame (exRx exWind WEA_WIND) []
        [0x01, 0x2C, 0x00, 0x5A, 0xAA, 0xBB] 0xC8 4 9 rfl (by simp) (by decide)
        (by simp [exRx]) (by simp [exRx, exWind]) (by decide) (by decide) (by decide)
    rw [hrun, Option.map_some', hcv, hr, hwind rfl]
    norm_num [word16, exRx]
  · obtain ⟨out, hrun, hr, hcv, _, hthp, _, _⟩ :=
      handle_receive_weather_frame (exRx exThpWarm WEA_THP) []
        [0x0B, 0xB8, 0x13, 0x88, 0x27, 0x10, 0xAA, 0xBB] 0x66 6 11 rfl (by simp) (by decide)
        (by simp [exRx]) (by simp [exRx, exThpWarm]) (by decide) (by decide) (by decide)
    rw [hrun, Option.map_some', hcv, hr, hthp rfl]
    norm_num [word16, exRx]

/-- C17, counterexample. The last query sent was the wind query, for which the
expected count is 4; the ring holds a THP reply, whose length byte is 6. The
handler consumes the frame, stores its temperature and signals the waiting
wind query. -/
theorem handle_receive_weather_accepts_counterexample :
    (exRx exThpWarm WEA_WIND).qryType_ = WEA_WIND ∧ exThpWarm.getD 2 0 = 6 ∧
    (handle_receive_weather (exRx exThpWarm WEA_WIND) 0 11).map
        (fun s => (s.cvGet_, s.crcrcv_, s.info_.temperature)) = some (1, [], 30) := by
  refine ⟨rfl, rfl, ?_⟩
  obtain ⟨out, hrun, hr, hcv, _, hthp, _, _⟩ :=
    handle_receive_weather_frame (exRx exThpWarm WEA_WIND) []
      [0x0B, 0xB8, 0x13, 0x88, 0x27, 0x10, 0xAA, 0xBB] 0x66 6 11 rfl (by simp) (by decide)
      (by simp [exRx]) (by simp [exRx, exThpWarm]) (by decide) (by decide) (by decide)
  rw [hrun, Option.map_some', hcv, hr, hthp rfl]
  norm_num [word16, exRx]

/-! ## C18: the weather state after a pass -/

/-- C18, amended. After a pass of the weather loop that starts with the port
open, the published state is NO_DATA exactly when that pass failed (one of its
two queries timed out) and SUCCESS otherwise; a failed pass adds one to the
count of consecutive failures, a successful one clears it, and the port is
closed exactly when the count reaches 3. -/
theorem runCycle_no_data (self : WeatherRun) (c : CycleIn) (hopen : self.weaPtr_ = true) :
    ((WeatherStation.runCycle self c).state = WEA_NO_DATA ↔ (c.thp = false ∨ c.wind = false)) ∧
    ((WeatherStation.runCycle self c).state = WEA_SUCCESS ↔ (c.thp = true ∧ c.wind = true)) ∧
    ((WeatherStation.runCycle self c).noReadWea
      = if c.thp = true ∧ c.wind = true then 0 else self.noReadWea + 1) ∧
    ((WeatherStation.runCycle self c).weaPtr_ = false ↔
      ((c.thp = false ∨ c.wind = false) ∧ self.noReadWea + 1 ≥ 3)) := by
  obtain ⟨w, s, n⟩ := self
  obtain ⟨o, t, v⟩ := c
  simp only at hopen
  subst hopen
  cases t <;> cases v <;>
    simp [WeatherStation.runCycle, wait_response, WEA_NO_DATA, WEA_SUCCESS] <;>
    split_ifs <;> simp_all

/-- C18, witness: a failed pass on the freshly opened port. -/
theorem runCycle_no_data_witness :
    ((WeatherStation.runCycle exRunOpen exCycleFail).state = WEA_NO_DATA ↔
      (exCycleFail.thp = false ∨ exCycleFail.wind = false)) ∧
    ((WeatherStation.runCycle exRunOpen exCycleFail).state = WEA_SUCCESS ↔
      (exCycleFail.thp = true ∧ exCycleFail.wind = true)) ∧
    ((WeatherStation.runCycle exRunOpen exCycleFail).noReadWea
      = if exCycleFail.thp = true ∧ exCycleFail.wind = true then 0
        else exRunOpen.noReadWea + 1) ∧
    ((WeatherStation.runCycle exRunOpen exCycleFail).weaPtr_ = false ↔
      ((exCycleFail.thp = false ∨ exCycleFail.wind = false) ∧ exRunOpen.noReadWea + 1 ≥ 3)) :=
  runCycle_no_data exRunOpen exCycleFail rfl

/-- C18, counterexample. On an open port, a successful pass followed by one
failed pass leaves the state NO_DATA, with the port still open, although only
one pass has failed since the last success. -/
theorem runCycle_no_data_counterexample :
    (WeatherStation.run exRunOpen [exCycleOk, exCycleFail]).state = WEA_NO_DATA ∧
    (WeatherStation.run exRunOpen [exCycleOk, exCycleFail]).weaPtr_ = true ∧
    (WeatherStation.run exRunOpen [exCycleOk, exCycleFail]).noReadWea = 1 := by
  decide

/-! ## C19: when the cloud map turns TOO_OLD -/

theorem zoneOrder_refl (a : CloudAge) : zoneOrder a a := Or.inr ⟨rfl, le_rfl⟩

/-- The zones of `exFile` after `resolve_file`, by their levels: the zone at
elevation 60 first, then the three at elevation 30 by azimuth; the two zones
with equal azimuth and elevation stand in the reverse of their file order. -/
theorem exFile_zones :
    (resolve_file exInfoNone exFile).1.zones.map (fun z => z.level) = [2, 4, 3, 1] := by
  norm_num [resolve_file, exFile, resolve_line, stable_sort, insertion_step,
    unguarded_linear_insert, zoneBefore, List.getLast?]

/-! ## C24: the handler after Start -/

set_option maxRecDepth 100000 in
/-- C24, failing input. When `Open` succeeds, `Start` leaves the command
endpoint reading but with no slot connected: a FOCUS_BEGIN datagram with its
check word then reaches no handler and the camera stays in OFF, whereas the
handler, had it been connected, would have put it in AUTO. The slot is
connected in the case where `Open` fails. -/
theorem Start_registers_on_failure :
    (EnvMonitor.Start true).reading = true ∧ (EnvMonitor.Start true).cbfRcv_ = false ∧
    (EnvMonitor.Start false).cbfRcv_ = true ∧
    (UdpSession.receive (EnvMonitor.Start true) (some (exCam FOCUS_OVER)) exBuffer
        (exFocusMsg 1 [0])).map (fun r => (r.1.map (fun c => c.focusMode_), r.2.2))
      = some (some FOCUS_OVER, none) ∧
    (receiveCommand (some (exCam FOCUS_OVER)) exBuffer (exFocusMsg 1 [0])).map
        (fun r => (r.1.map (fun c => c.focusMode_), r.2.2))
      = some (some FOCUS_AUTO, some (FocusCall.DoFocusBegin false)) := by
  refine ⟨rfl, rfl, rfl, by decide, by decide⟩

/-! ## C26, C27 and C28: a zero divisor, twice, and an empty window -/

/-- C26, failing input. An exchange file with the state line `0` and no zone
line is parsed with success: the published map has state 0 and no zones. The
publisher treats it as OK, reaches `zone_greater_7 * 1000 / zone_count` with
`zone_count = 0`, and the cycle has no defined result. -/
theorem upload_pdxp_zero_divisor :
    (resolve_file exInfoNone exFileNoZones).2 = true ∧
    (resolve_file exInfoNone exFileNoZones).1.state = WMCA_SUCCESS ∧
    (resolve_file exInfoNone exFileNoZones).1.zones = [] ∧
    zoneCount { exMonitor WMCA_SUCCESS [] with
      readCloudagePtr_ := (resolve_file exInfoNone exFileNoZones).1 } = 0 ∧
    upload_pdxp exEnv { exMonitor WMCA_SUCCESS [] with
      readCloudagePtr_ := (resolve_file exInfoNone exFileNoZones).1 } 0 = none := by
  have hz : (resolve_file exInfoNone exFileNoZones).1.zones = [] := rfl
  have hs : (resolve_file exInfoNone exFileNoZones).1.state = WMCA_SUCCESS := rfl
  refine ⟨?_, hs, hz, ?_, ?_⟩
  · norm_num [resolve_file, exFileNoZones, resolve_line, FLT_MAX]
  · unfold zoneCount
    dsimp only
    rw [hz]
    rfl
  · apply upload_pdxp_of_empty
    · refine ⟨fun cam h => ?_, ?_, ?_⟩
      · simp [exMonitor] at h
      · dsimp only; rw [hs]; decide
      · dsimp only; rw [hs]; decide
    · dsimp only
      rw [hz]
      rfl

/-- `Push` with a new FWHM above the tolerance and equal to the last one:
line 53 divides by zero. -/
theorem Push_same_fwhm (self : FocusAutoAlgo) (step : Int)
    (h1 : self.fwhmLast > self.expFwhm + self.expFwhmErr) (h2 : self.fwhmLast ≠ DBL_MAX) :
    self.Push self.fwhmLast step = none := by
  unfold FocusAutoAlgo.Push
  rw [if_neg (not_le.mpr h1)]
  simp [h2]

/-- C27, failing input. With expected 3.0 +- 0.2, last FWHM 6.0 and last step
500, a new FWHM of 6.0 lies above the tolerance and equals the last one: the
divisor `fwhm - fwhmLast` is 0 and `Push` yields no step. -/
theorem Push_zero_divisor :
    (6 : ℚ) > exAlgo.expFwhm + exAlgo.expFwhmErr ∧ (6 : ℚ) - exAlgo.fwhmLast = 0 ∧
    exAlgo.Push 6 0 = none := by
  refine ⟨by norm_num [exAlgo], by norm_num [exAlgo], ?_⟩
  exact Push_same_fwhm exAlgo 0 (by norm_num [exAlgo]) (by norm_num [exAlgo, DBL_MAX])

/-- C28, failing input. `DoFocus(udp, true, false)` clears the window; the
first frame that follows has an empty catalogue, so `DoIt` returns 4 and the
reducer takes the branch `queFwhm_.pop_front()` on the empty window: the
iteration has no defined result. -/
theorem reduceFrame_pops_empty_window :
    ((exCam FOCUS_OVER).DoFocus true false).queFwhm_ = [] ∧
    ((exCam FOCUS_OVER).DoFocus true false).focusMode_ = FOCUS_AUTO ∧
    (reducedFrame 0 true 1234 true [] exStatFwhm).map (fun f => f.doIt) = some 4 ∧
    (reducedFrame 0 true 1234 true [] exStatFwhm).bind
      (fun frame => reduceFrame ((exCam FOCUS_OVER).DoFocus true false) 0 (0, 0) frame) = none := by
  have h1 : reducedFrame 0 true 1234 true [] exStatFwhm
      = some { age := 0, doIt := 4, fwhm := 0 } := by
    simp [reducedFrame, InvokeSExtractor.DoIt, resolve_catalog, STAR_COUNT_MIN]
  refine ⟨rfl, rfl, by rw [h1]; rfl, ?_⟩
  rw [h1]
  simp [reduceFrame, CloudCamera.DoFocus, exCam, FOCUS_OVER]

/-! ## The window stays short -/

theorem nextWindow_length_le (que : List ℚ) (fwhm : ℚ) (h : que.length ≤ 3) :
    (nextWindow que fwhm).length ≤ 3 := by
  unfold nextWindow FOCUS_FRAME_MAX
  split_ifs with h1
  · simp only [List.length_tail, List.length_append, List.length_singleton]
    omega
  · simp only [List.length_append, List.length_singleton] at h1 ⊢
    omega

/-- A window of at most 3 values holds at most 3 values after every frame for
which the iteration of the reducer is defined. -/
theorem reduceFrame_window_le (self : CloudCamera) (step : Int) (uninitEnd : Int × Int)
    (frame : FrameIn) (out : CloudCamera × Int × List FocusDatagram)
    (hlen : self.queFwhm_.length ≤ 3)
    (h : reduceFrame self step uninitEnd frame = some out) : out.1.queFwhm_.length ≤ 3 := by
  have hn := nextWindow_length_le self.queFwhm_ frame.fwhm hlen
  unfold reduceFrame at h
  dsimp only at h
  by_cases h1 : frame.age > 60
  · rw [if_pos h1] at h
    rw [← Option.some.inj h]; exact hlen
  rw [if_neg h1] at h
  by_cases h2 : frame.doIt = 0 ∧ frame.fwhm > 1
  · rw [if_pos h2] at h
    by_cases h3 : (self.queFwhm_ ++ [frame.fwhm]).length < FOCUS_FRAME_MAX
    · rw [if_pos h3] at h
      rw [← Option.some.inj h]
      unfold FOCUS_FRAME_MAX at h3
      dsimp only
      omega
    rw [if_neg h3] at h
    split_ifs at h
    · split at h
      · exact absurd h (by simp)
      · rw [← Option.some.inj h]; exact hn
      · rw [← Option.some.inj h]; exact hn
    · rw [← Option.some.inj h]; exact hn
    · rw [← Option.some.inj h]; exact hn
  · rw [if_neg h2] at h
    split at h
    · exact absurd h (by simp)
    · rename_i v rest hq
      rw [← Option.some.inj h]
      dsimp only
      rw [hq] at hlen
      simp only [List.length_cons] at hlen
      omega

/-! ## C21: Lookup on a short ring -/

/-- C29, failing input. The ring holds 11 bytes, the first 0x03 at offset 5
after four bytes of noise and the address 0x66, length byte 6. The handler's
test `bytes >= 5 + datalen` passes (11 >= 11) although the ring holds fewer
than (pos - 1) + 5 + len = 15 bytes; `Read(buff, 11, 4)` then copies only the
7 bytes the ring holds from offset 4, so `buff[7]` and `buff[8]`, the pressure
word, are those of the earlier frame, and `erase_begin(15)` is asked of a ring
of 11 bytes: the call has no defined result. -/
theorem handle_receive_weather_short_frame :
    SerialComm.Lookup exRxCut.crcrcv_ [0x03] 1 0 = some 5 ∧
    exRxCut.crcrcv_.length = 11 ∧ exRxCut.crcrcv_.getD 4 0 = WEA_THP ∧
    exRxCut.crcrcv_.getD 6 0 = 6 ∧
    exRxCut.crcrcv_.length < (5 - 1) + 5 + 6 ∧
    SerialComm.to_read exRxCut.crcrcv_ (5 + 6) (5 - 1) = 7 ∧
    handle_receive_weather exRxCut 0 exRxCut.crcrcv_.length = none := by
  refine ⟨by decide, by decide, by decide, by decide, by decide, by decide,
    Option.isNone_iff_eq_none.mp (by decide)⟩

/-! ## C23: one pass of monitor_twilight -/

theorem cloudadj_row_sum (data : List Int) (pos0 : Nat) (hsz : data.length ≤ 4294967296)
    (l : List Nat) (hin : ∀ x ∈ l, pos0 + x < data.length) (sum : ℚ) :
    l.foldlM (fun (sum : ℚ) (x : Nat) =>
      (data[(toUInt32 ((pos0 : Int) + (x : Int))).toNat]?).map (fun v => sum + (v : ℚ))) sum
      = some (sum + (l.map (fun x => ((data.getD (pos0 + x) 0 : Int) : ℚ))).sum) := by
  induction l generalizing sum with
  | nil => simp
  | cons x l ih =>
    have hx := hin x (List.mem_cons_self x l)
    have hidx : (toUInt32 ((pos0 : Int) + (x : Int))).toNat = pos0 + x := by
      unfold toUInt32
      omega
    rw [List.foldlM_cons, hidx, List.getElem?_eq_getElem hx]
    have h := ih (fun y hy => hin y (List.mem_cons_of_mem x hy)) (sum + ((data[pos0 + x] : Int) : ℚ))
    have hg : data[pos0 + x]?.getD 0 = data[pos0 + x] := by
      rw [List.getElem?_eq_getElem hx]
      rfl
    simpa [hg, add_assoc] using h

theorem cloudadj_rows_sum (data : List Int) (W xs : Nat) (hx : xs + 512 ≤ W)
    (hsz : data.length < 4294967296) :
    ∀ (n s : Nat) (l : List Nat) (sum : ℚ), l.length = n → (s + n) * W ≤ data.length →
      l.foldlM (fun (st : Int × ℚ) (_ : Nat) =>
        (cloudadj_row data st.1 (xs : Int) ((xs + 512 : Nat) : Int) st.2).map
          (fun sum => (toUInt32 (st.1 + (W : Int)), sum))) (((s * W : Nat) : Int), sum)
      = some ((((s + n) * W : Nat) : Int),
          sum + (((List.range' s n).flatMap
            (fun y => (List.range' xs 512).map (fun x => y * W + x))).map
              (fun i => ((data.getD i 0 : Int) : ℚ))).sum) := by
  intro n
  induction n with
  | zero =>
    intro s l sum hl _
    have : l = [] := List.length_eq_zero.mp hl
    subst this
    simp
  | succ n ih =>
    intro s l sum hl hfit
    cases l with
    | nil => simp at hl
    | cons y l =>
      have hmono : (s + 1) * W ≤ (s + (n + 1)) * W :=
        Nat.mul_le_mul_right W (by omega)
      have hs1 : (s + 1) * W = s * W + W := by ring
      have hrow : cloudadj_row data ((s * W : Nat) : Int) (xs : Int) ((xs + 512 : Nat) : Int) sum
          = some (sum + ((List.range' xs 512).map
              (fun x => ((data.getD (s * W + x) 0 : Int) : ℚ))).sum) := by
        unfold cloudadj_row
        have e1 : ((xs : Nat) : Int).toNat = xs := by omega
        have e2 : (((xs + 512 : Nat) : Int) - (xs : Int)).toNat = 512 := by omega
        rw [e1, e2]
        apply cloudadj_row_sum data (s * W) (le_of_lt hsz)
        intro x hxm
        have := List.mem_range'_1.mp hxm
        omega
      have hnext : toUInt32 (((s * W : Nat) : Int) + (W : Int)) = (((s + 1) * W : Nat) : Int) := by
        unfold toUInt32
        rw [hs1]
        push_cast
        omega
      rw [List.foldlM_cons]
      dsimp only
      rw [hrow]
      simp only [Option.map_some', Option.bind_eq_bind, Option.some_bind]
      rw [hnext, ih (s + 1) l _ (by simpa using hl) (by rw [show s + 1 + n = s + (n + 1) by omega]; exact hfit)]
      rw [show s + 1 + n = s + (n + 1) by omega]
      congr 2
      rw [List.range'_succ s n, List.flatMap_cons, List.map_append, List.sum_append, List.map_map]
      rw [add_assoc]
      rfl

theorem toUInt32_natCast (n : Nat) (h : n < 4294967296) : toUInt32 (n : Int) = (n : Int) := by
  unfold toUInt32
  omega

theorem patch_rows_length (W a : Nat) (l : List Nat) :
    (l.flatMap (fun y => (List.range' a 512).map (fun x => y * W + x))).length
      = 512 * l.length := by
  induction l with
  | nil => rfl
  | cons y l ih =>
    rw [List.flatMap_cons, List.length_append, ih, List.length_map, List.length_range',
      List.length_cons]
    ring

/-- C30, amended. For every sensor of width w >= 512 and height h >= 512
with fewer than 2^32 pixels, and a frame that holds its w * h pixels, the
loops of `cloudadj` stay inside the frame and their sum is the sum of the
262144 pixels with `w/2 - 256 <= x < w/2 + 256` and
`h/2 - 256 <= y < h/2 + 256`, each read at the linear index `y * w + x`, which
lies below `w * h`. -/
theorem cloudadj_sum_patch (W H : Nat) (data : List Int) (hw : 512 ≤ W) (hh : 512 ≤ H)
    (hlen : data.length = W * H) (hsz : W * H < 4294967296) :
    cloudadj_sum { wSensor := W, hSensor := H, data := data } = some (patchSum data W H) ∧
    (patchIndices W H).length = 262144 ∧
    (∀ i ∈ patchIndices W H, i < W * H) ∧
    (∀ i, i ∈ patchIndices W H ↔
      ∃ x y, W / 2 - 256 ≤ x ∧ x < W / 2 + 256 ∧ H / 2 - 256 ≤ y ∧ y < H / 2 + 256 ∧
        i = y * W + x) := by
  have hWlt : W < 4294967296 := lt_of_le_of_lt (Nat.le_mul_of_pos_right W (by omega)) hsz
  have hHlt : H < 4294967296 := lt_of_le_of_lt (Nat.le_mul_of_pos_left H (by omega)) hsz
  have hmem : ∀ i, i ∈ patchIndices W H ↔
      ∃ x y, W / 2 - 256 ≤ x ∧ x < W / 2 + 256 ∧ H / 2 - 256 ≤ y ∧ y < H / 2 + 256 ∧
        i = y * W + x := by
    intro i
    unfold patchIndices
    simp only [List.mem_flatMap, List.mem_map, List.mem_range'_1]
    constructor
    · rintro ⟨y, ⟨hy1, hy2⟩, x, ⟨hx1, hx2⟩, rfl⟩
      exact ⟨x, y, hx1, by omega, hy1, by omega, rfl⟩
    · rintro ⟨x, y, hx1, hx2, hy1, hy2, rfl⟩
      exact ⟨y, ⟨hy1, by omega⟩, x, ⟨hx1, by omega⟩, rfl⟩
  refine ⟨?_, ?_, ?_, hmem⟩
  · have ex0 : toUInt32 ((W : Int) / 2 - 256) = ((W / 2 - 256 : Nat) : Int) := by
      unfold toUInt32; omega
    have ex1 : toUInt32 ((W : Int) / 2 + 256) = ((W / 2 - 256 + 512 : Nat) : Int) := by
      unfold toUInt32; omega
    have ey0 : toUInt32 ((H : Int) / 2 - 256) = ((H / 2 - 256 : Nat) : Int) := by
      unfold toUInt32; omega
    have ey1 : toUInt32 ((H : Int) / 2 + 256) = ((H / 2 - 256 + 512 : Nat) : Int) := by
      unfold toUInt32; omega
    have hrow0 : (H / 2 - 256) * W ≤ W * H := by
      rw [Nat.mul_comm W H]
      exact Nat.mul_le_mul_right W (by omega)
    have hfit : (H / 2 - 256 + 512) * W ≤ data.length := by
      rw [hlen, Nat.mul_comm W H]
      exact Nat.mul_le_mul_right W (by omega)
    have epos : cloudadj_pos0 (W : Int) (H : Int) = (((H / 2 - 256) * W : Nat) : Int) := by
      unfold cloudadj_pos0
      rw [ey0, ← Nat.cast_mul, toUInt32_natCast _ (by omega)]
    have hrows := cloudadj_rows_sum data W (W / 2 - 256) (by omega) (by omega) 512
      (H / 2 - 256) (List.range' (H / 2 - 256) 512) 0 (by simp) hfit
    unfold cloudadj_sum
    dsimp only
    rw [ex0, ex1, ey0, ey1, epos]
    have e1 : ((H / 2 - 256 : Nat) : Int).toNat = H / 2 - 256 := by omega
    have e2 : (((H / 2 - 256 + 512 : Nat) : Int) - ((H / 2 - 256 : Nat) : Int)).toNat = 512 := by
      omega
    rw [e1, e2, hrows]
    simp [patchSum, patchIndices]
  · unfold patchIndices
    rw [patch_rows_length, List.length_range']
  · intro i hi
    obtain ⟨x, y, hx1, hx2, hy1, hy2, rfl⟩ := (hmem i).mp hi
    have h1 : (y + 1) * W ≤ H * W := Nat.mul_le_mul_right W (by omega)
    rw [Nat.mul_comm W H]
    have h2 : (y + 1) * W = y * W + W := by ring
    omega

/-- C30, witness: the 512 x 512 frame. -/
theorem cloudadj_sum_patch_witness :
    cloudadj_sum { wSensor := ((512 : Nat) : Int), hSensor := ((512 : Nat) : Int),
                   data := List.replicate 262144 0 }
      = some (patchSum (List.replicate 262144 0) 512 512) ∧
    (patchIndices 512 512).length = 262144 ∧
    (∀ i ∈ patchIndices 512 512, i < 512 * 512) ∧
    (∀ i, i ∈ patchIndices 512 512 ↔
      ∃ x y, 512 / 2 - 256 ≤ x ∧ x < 512 / 2 + 256 ∧ 512 / 2 - 256 ≤ y ∧ y < 512 / 2 + 256 ∧
        i = y * 512 + x) :=
  cloudadj_sum_patch 512 512 (List.replicate 262144 0) (by decide) (by decide)
    (by rw [List.length_replicate]) (by decide)

/-- C30, counterexample. For a sensor of 131072 x 131072 pixels the first
pixel of the central patch lies at the linear index 8556380160 (plus the
column), below w * h, but `pos0 = (y0 - 256) * w` is computed in 32 bits and
the first row is read from index 4261412864 on. -/
theorem cloudadj_sum_patch_counterexample :
    cloudadj_pos0 131072 131072 = 4261412864 ∧
    ((131072 / 2 - 256) * 131072 : Int) = 8556380160 ∧
    (8556380160 : Int) + 131072 / 2 + 255 < 131072 * 131072 := by
  refine ⟨by decide, by decide, by decide⟩

/-! ## C22: the balanced scan -/

theorem lookupLoop_cons (o c : Nat) (ch : Nat) (rest : List Nat) (pos n1 n2 pb pe : Int) :
    TcpClient.lookupLoop o c (ch :: rest) pos n1 n2 pb pe =
      if n2 = 0 ∨ n2 ≠ n1 then
        if ch = o then
          TcpClient.lookupLoop o c rest (pos + 1) (n1 + 1) n2 (if n1 + 1 = 1 then pos else pb) pe
        else if ch = c then
          TcpClient.lookupLoop o c rest (pos + 1) n1 (n2 + 1) pb (if n2 + 1 = n1 then pos else pe)
        else TcpClient.lookupLoop o c rest (pos + 1) n1 n2 pb pe
      else (pb, pe) := by
  rw [TcpClient.lookupLoop]

/-- Once the counts are equal and not zero the loop has ended. -/
theorem lookupLoop_stop (o c : Nat) (s : List Nat) (pos n pb pe : Int) (hn : n ≠ 0) :
    TcpClient.lookupLoop o c s pos n n pb pe = (pb, pe) := by
  cases s with
  | nil => rfl
  | cons x s =>
    rw [lookupLoop_cons]
    rw [if_neg]
    rintro (h | h)
    · exact hn h
    · exact h rfl

/-- Bytes that are neither an open nor a close are passed over. -/
theorem lookupLoop_skip (o c : Nat) (pre rest : List Nat) (hpre : ∀ x ∈ pre, x ≠ o ∧ x ≠ c) :
    ∀ (pos pb pe : Int), TcpClient.lookupLoop o c (pre ++ rest) pos 0 0 pb pe
      = TcpClient.lookupLoop o c rest (pos + pre.length) 0 0 pb pe := by
  induction pre with
  | nil => intro pos pb pe; simp
  | cons x pre ih =>
    intro pos pb pe
    obtain ⟨h1, h2⟩ := hpre x (List.mem_cons_self x pre)
    rw [List.cons_append]
    rw [lookupLoop_cons]
    rw [if_pos (Or.inl rfl), if_neg h1, if_neg h2,
      ih (fun y hy => hpre y (List.mem_cons_of_mem x hy))]
    congr 1
    simp only [List.length_cons]
    push_cast
    ring

/-- After a close that came first, `posEnd` stays 0. -/
theorem lookupLoop_close_first (o c : Nat) (s : List Nat) :
    ∀ (pos : Int) (n1 n2 : Nat) (pb : Int), n1 < n2 → 0 ≤ pos → 0 ≤ pb →
      (TcpClient.lookupLoop o c s pos n1 n2 pb 0).2 = 0 ∧
      0 ≤ (TcpClient.lookupLoop o c s pos n1 n2 pb 0).1 := by
  induction s with
  | nil => intro pos n1 n2 pb _ _ hpb; exact ⟨rfl, hpb⟩
  | cons x s ih =>
    intro pos n1 n2 pb hlt hpos hpb
    rw [lookupLoop_cons]
    rw [if_pos (Or.inr (by omega))]
    by_cases hx : x = o
    · rw [if_pos hx]
      by_cases heq : n1 + 1 = n2
      · have e : ((n1 : Int) + 1) = (n2 : Int) := by exact_mod_cast heq
        rw [e, lookupLoop_stop o c s _ _ _ _ (by omega)]
        refine ⟨rfl, ?_⟩
        dsimp only
        split_ifs <;> omega
      · have := ih (pos + 1) (n1 + 1) n2 (if (n1 : Int) + 1 = 1 then pos else pb) (by omega)
          (by omega) (by split_ifs <;> omega)
        push_cast at this
        exact this
    · rw [if_neg hx]
      by_cases hy : x = c
      · rw [if_pos hy, if_neg (by omega)]
        have := ih (pos + 1) n1 (n2 + 1) pb (by omega) (by omega) hpb
        push_cast at this
        exact this
      · rw [if_neg hy]
        exact ih (pos + 1) n1 n2 pb hlt (by omega) hpb

/-- After the first open: the loop ends at the first offset where the closes
seen have caught up with the opens, and leaves `posEnd` alone when they never
do. -/
theorem lookupLoop_open (o c : Nat) (hne : o ≠ c) (s : List Nat) :
    ∀ (pos : Int) (n1 n2 : Nat) (pb pe : Int), n2 < n1 →
      (∀ k, k < s.length →
        n1 + (s.take (k + 1)).count o = n2 + (s.take (k + 1)).count c →
        (∀ j, j < k → n1 + (s.take (j + 1)).count o ≠ n2 + (s.take (j + 1)).count c) →
        TcpClient.lookupLoop o c s pos n1 n2 pb pe = (pb, pos + k)) ∧
      ((∀ k, k < s.length →
          n1 + (s.take (k + 1)).count o ≠ n2 + (s.take (k + 1)).count c) →
        TcpClient.lookupLoop o c s pos n1 n2 pb pe = (pb, pe)) := by
  induction s with
  | nil =>
    intro pos n1 n2 pb pe _
    exact ⟨fun k hk => absurd hk (by simp), fun _ => rfl⟩
  | cons x s ih =>
    intro pos n1 n2 pb pe hlt
    have hpb : (if (n1 : Int) + 1 = 1 then pos else pb) = pb := by
      rw [if_neg (by omega)]
    rw [lookupLoop_cons, if_pos (Or.inr (by omega))]
    by_cases hx : x = o
    · subst hx
      have hxc : x ≠ c := hne
      have hco : ∀ k, ((x :: s).take (k + 1)).count x = (s.take k).count x + 1 := by
        intro k
        rw [List.take_succ_cons, List.count_cons_self]
      have hcc : ∀ k, ((x :: s).take (k + 1)).count c = (s.take k).count c := by
        intro k
        rw [List.take_succ_cons, List.count_cons_of_ne (Ne.symm hxc)]
      rw [if_pos rfl, hpb]
      obtain ⟨ih1, ih2⟩ := ih (pos + 1) (n1 + 1) n2 pb pe (by omega)
      push_cast at ih1 ih2
      constructor
      · intro k hk hbal hmin
        cases k with
        | zero =>
          rw [hco, hcc] at hbal
          simp at hbal
          omega
        | succ k =>
          rw [hco, hcc] at hbal
          have := ih1 k (by simpa using hk) (by omega)
            (fun j hj => by
              have h := hmin (j + 1) (by omega)
              rw [hco, hcc] at h
              omega)
          rw [this]
          congr 1
          push_cast
          ring
      · intro hno
        apply ih2
        intro k hk
        have h := hno (k + 1) (by simpa using hk)
        rw [hco, hcc] at h
        omega
    · rw [if_neg hx]
      by_cases hy : x = c
      · subst hy
        have hco : ∀ k, ((x :: s).take (k + 1)).count o = (s.take k).count o := by
          intro k
          rw [List.take_succ_cons, List.count_cons_of_ne (Ne.symm hx)]
        have hcc : ∀ k, ((x :: s).take (k + 1)).count x = (s.take k).count x + 1 := by
          intro k
          rw [List.take_succ_cons, List.count_cons_self]
        rw [if_pos rfl]
        by_cases heq : n2 + 1 = n1
        · have e : ((n2 : Int) + 1) = (n1 : Int) := by exact_mod_cast heq
          rw [if_pos e, e, lookupLoop_stop o x s _ _ _ _ (by omega)]
          have hb0 : n1 + ((x :: s).take (0 + 1)).count o = n2 + ((x :: s).take (0 + 1)).count x := by
            rw [hco, hcc]
            simp
            omega
          constructor
          · intro k hk hbal hmin
            cases k with
            | zero => simp
            | succ k => exact absurd hb0 (hmin 0 (by omega))
          · intro hno
            exact absurd hb0 (hno 0 (by simp))
        · have e : ¬ ((n2 : Int) + 1) = (n1 : Int) := by
            intro h
            apply heq
            exact_mod_cast h
          rw [if_neg e]
          obtain ⟨ih1, ih2⟩ := ih (pos + 1) n1 (n2 + 1) pb pe (by omega)
          push_cast at ih1 ih2
          constructor
          · intro k hk hbal hmin
            cases k with
            | zero =>
              rw [hco, hcc] at hbal
              simp at hbal
              omega
            | succ k =>
              rw [hco, hcc] at hbal
              have := ih1 k (by simpa using hk) (by omega)
                (fun j hj => by
                  have h := hmin (j + 1) (by omega)
                  rw [hco, hcc] at h
                  omega)
              rw [this]
              congr 1
              push_cast
              ring
          · intro hno
            apply ih2
            intro k hk
            have h := hno (k + 1) (by simpa using hk)
            rw [hco, hcc] at h
            omega
      · rw [if_neg hy]
        have hco : ∀ k, ((x :: s).take (k + 1)).count o = (s.take k).count o := by
          intro k
          rw [List.take_succ_cons, List.count_cons_of_ne (Ne.symm hx)]
        have hcc : ∀ k, ((x :: s).take (k + 1)).count c = (s.take k).count c := by
          intro k
          rw [List.take_succ_cons, List.count_cons_of_ne (Ne.symm hy)]
        obtain ⟨ih1, ih2⟩ := ih (pos + 1) n1 n2 pb pe hlt
        constructor
        · intro k hk hbal hmin
          cases k with
          | zero =>
            rw [hco, hcc] at hbal
            simp at hbal
            omega
          | succ k =>
            rw [hco, hcc] at hbal
            have := ih1 k (by simpa using hk) (by omega)
              (fun j hj => by
                have h := hmin (j + 1) (by omega)
                rw [hco, hcc] at h
                omega)
            rw [this]
            congr 1
            push_cast
            ring
        · intro hno
          apply ih2
          intro k hk
          have h := hno (k + 1) (by simpa using hk)
          rw [hco, hcc] at h
          omega

theorem first_delimiter (o c : Nat) (ring : List Nat) :
    (∀ x ∈ ring, x ≠ o ∧ x ≠ c) ∨
    ∃ pre d rest, ring = pre ++ d :: rest ∧ (∀ x ∈ pre, x ≠ o ∧ x ≠ c) ∧ (d = o ∨ d = c) := by
  induction ring with
  | nil => left; intro x hx; simp at hx
  | cons y ring ih =>
    by_cases hy : y = o ∨ y = c
    · right
      exact ⟨[], y, ring, rfl, fun x hx => by simp at hx, hy⟩
    · have hy' : y ≠ o ∧ y ≠ c := ⟨fun h => hy (Or.inl h), fun h => hy (Or.inr h)⟩
      rcases ih with h | ⟨pre, d, rest, h1, h2, h3⟩
      · left
        intro x hx
        rcases List.mem_cons.mp hx with h' | h'
        · rw [h']; exact hy'
        · exact h x h'
      · right
        refine ⟨y :: pre, d, rest, by rw [h1]; rfl, ?_, h3⟩
        intro x hx
        rcases List.mem_cons.mp hx with h' | h'
        · rw [h']; exact hy'
        · exact h2 x h'

/-- Where the first delimiter stands, for a ring split at it. -/
theorem firstOpenAt_split (o c : Nat) (pre rest : List Nat) (d : Nat)
    (hpre : ∀ x ∈ pre, x ≠ o ∧ x ≠ c) (hd : d = o ∨ d = c) (b : Nat)
    (h : firstOpenAt (pre ++ d :: rest) o c b) : b = pre.length ∧ d = o := by
  obtain ⟨h1, h2⟩ := h
  rcases lt_trichotomy b pre.length with hb | hb | hb
  · rw [List.getElem?_append_left hb] at h1
    exact absurd rfl (hpre o (List.getElem?_mem h1)).1
  · subst hb
    rw [List.getElem?_append_right (le_refl _)] at h1
    simp at h1
    exact ⟨rfl, h1⟩
  · have hd' := h2 pre.length hb d (by rw [List.getElem?_append_right (le_refl _)]; simp)
    rcases hd with h | h
    · exact absurd h hd'.1
    · exact absurd h hd'.2

theorem firstOpenAt_of_split (o c : Nat) (pre rest : List Nat)
    (hpre : ∀ x ∈ pre, x ≠ o ∧ x ≠ c) : firstOpenAt (pre ++ o :: rest) o c pre.length := by
  constructor
  · rw [List.getElem?_append_right (le_refl _)]
    simp
  · intro i hi x hx
    rw [List.getElem?_append_left hi] at hx
    exact hpre x (List.getElem?_mem hx)

/-- The span from the first open to `k + 1` bytes after it is balanced when
the closes among these bytes exceed the opens by one. -/
theorem balancedSpan_split (o c : Nat) (hne : o ≠ c) (pre rest : List Nat) (k : Nat) :
    balancedSpan (pre ++ o :: rest) o c pre.length (pre.length + 1 + k) ↔
      1 + (rest.take (k + 1)).count o = 0 + (rest.take (k + 1)).count c := by
  unfold balancedSpan
  have e : pre.length + 1 + k + 1 - pre.length = (k + 1) + 1 := by omega
  rw [List.drop_left, e, List.take_succ_cons, List.count_cons_self,
    List.count_cons_of_ne (Ne.symm hne)]
  omega

theorem balancedSpan_split_zero (o c : Nat) (hne : o ≠ c) (pre rest : List Nat) :
    ¬ balancedSpan (pre ++ o :: rest) o c pre.length pre.length := by
  unfold balancedSpan
  have e : pre.length + 1 - pre.length = 0 + 1 := by omega
  rw [List.drop_left, e, List.take_succ_cons, List.count_cons_self,
    List.count_cons_of_ne (Ne.symm hne)]
  simp

theorem Lookup_no_delimiter (o c : Nat) (ring : List Nat) (h : ∀ x ∈ ring, x ≠ o ∧ x ≠ c) :
    (TcpClient.Lookup ring o c).1 = 0 := by
  have hs := lookupLoop_skip o c ring [] h 0 1 0
  rw [List.append_nil] at hs
  unfold TcpClient.Lookup
  dsimp only
  rw [hs]
  rfl

theorem Lookup_close_first (o c : Nat) (hne : o ≠ c) (pre rest : List Nat)
    (hpre : ∀ x ∈ pre, x ≠ o ∧ x ≠ c) : (TcpClient.Lookup (pre ++ c :: rest) o c).1 = 0 := by
  have hs := lookupLoop_skip o c pre (c :: rest) hpre 0 1 0
  obtain ⟨h1, h2⟩ := lookupLoop_close_first o c rest (0 + (pre.length : Int) + 1) 0 1 1
    (by omega) (by omega) (by omega)
  have hrun : TcpClient.lookupLoop o c (pre ++ c :: rest) 0 0 0 1 0
      = TcpClient.lookupLoop o c rest (0 + (pre.length : Int) + 1) ((0 : Nat) : Int)
          ((1 : Nat) : Int) 1 0 := by
    rw [hs, lookupLoop_cons, if_pos (Or.inl rfl), if_neg (Ne.symm hne), if_pos rfl]
    rfl
  unfold TcpClient.Lookup
  dsimp only
  rw [hrun, h1, if_neg (by omega)]

theorem Lookup_open_first (o c : Nat) (hne : o ≠ c) (pre rest : List Nat)
    (hpre : ∀ x ∈ pre, x ≠ o ∧ x ≠ c) :
    (∀ k, k < rest.length →
      1 + (rest.take (k + 1)).count o = 0 + (rest.take (k + 1)).count c →
      (∀ j, j < k → 1 + (rest.take (j + 1)).count o ≠ 0 + (rest.take (j + 1)).count c) →
      TcpClient.Lookup (pre ++ o :: rest) o c
        = ((k : Int) + 2, (pre.length : Int), (pre.length : Int) + 1 + k)) ∧
    ((∀ k, k < rest.length →
        1 + (rest.take (k + 1)).count o ≠ 0 + (rest.take (k + 1)).count c) →
      (TcpClient.Lookup (pre ++ o :: rest) o c).1 = 0) := by
  have hs := lookupLoop_skip o c pre (o :: rest) hpre 0 1 0
  obtain ⟨h1, h2⟩ := lookupLoop_open o c hne rest (0 + (pre.length : Int) + 1) 1 0
    (0 + (pre.length : Int)) 0 (by omega)
  have hrun : TcpClient.lookupLoop o c (pre ++ o :: rest) 0 0 0 1 0
      = TcpClient.lookupLoop o c rest (0 + (pre.length : Int) + 1) ((1 : Nat) : Int)
          ((0 : Nat) : Int) (0 + (pre.length : Int)) 0 := by
    rw [hs, lookupLoop_cons, if_pos (Or.inl rfl), if_pos rfl, if_pos (by norm_num)]
    rfl
  constructor
  · intro k hk hbal hmin
    unfold TcpClient.Lookup
    dsimp only
    rw [hrun, h1 k hk hbal hmin]
    dsimp only
    rw [if_pos (by omega)]
    refine Prod.ext ?_ (Prod.ext ?_ ?_)
    · dsimp only; ring
    · dsimp only; ring
    · dsimp only; ring
  · intro hno
    unfold TcpClient.Lookup
    dsimp only
    rw [hrun, h2 hno]
    dsimp only
    rw [if_neg (by omega)]

theorem matchingClose_split (o c : Nat) (hne : o ≠ c) (pre rest : List Nat) (q : Nat)
    (h : matchingClose (pre ++ o :: rest) o c pre.length q) :
    ∃ k, q = pre.length + 1 + k ∧ k < rest.length ∧
      1 + (rest.take (k + 1)).count o = 0 + (rest.take (k + 1)).count c ∧
      ∀ j, j < k → 1 + (rest.take (j + 1)).count o ≠ 0 + (rest.take (j + 1)).count c := by
  obtain ⟨h1, h2, h3, h4⟩ := h
  have hq : q ≠ pre.length := by
    intro e
    rw [e] at h3
    exact balancedSpan_split_zero o c hne pre rest h3
  have e : q = pre.length + 1 + (q - pre.length - 1) := by omega
  refine ⟨q - pre.length - 1, e, ?_, ?_, ?_⟩
  · simp only [List.length_append, List.length_cons] at h2
    omega
  · rw [e] at h3
    exact (balancedSpan_split o c hne pre rest _).mp h3
  · intro j hj hb
    exact h4 (pre.length + 1 + j) (by omega) (by omega)
      ((balancedSpan_split o c hne pre rest j).mpr hb)

theorem matchingClose_of_split (o c : Nat) (hne : o ≠ c) (pre rest : List Nat) (k : Nat)
    (hk : k < rest.length)
    (hb : 1 + (rest.take (k + 1)).count o = 0 + (rest.take (k + 1)).count c)
    (hmin : ∀ j, j < k → 1 + (rest.take (j + 1)).count o ≠ 0 + (rest.take (j + 1)).count c) :
    matchingClose (pre ++ o :: rest) o c pre.length (pre.length + 1 + k) := by
  refine ⟨by omega, ?_, (balancedSpan_split o c hne pre rest k).mpr hb, ?_⟩
  · simp only [List.length_append, List.length_cons]
    omega
  · intro q' h1 h2 hbal
    by_cases hq : q' = pre.length
    · rw [hq] at hbal
      exact balancedSpan_split_zero o c hne pre rest hbal
    · have e : q' = pre.length + 1 + (q' - pre.length - 1) := by omega
      rw [e] at hbal
      exact hmin (q' - pre.length - 1) (by omega)
        ((balancedSpan_split o c hne pre rest _).mp hbal)

/-- C22. For every ring and delimiters open != close, `TcpClient::Lookup`
returns a length L > 0 exactly when the first delimiter of the ring is an open
and its matching close is present; then `posBegin` is the offset of that open,
`posEnd` the offset of its matching close (the end of the shortest span from
`posBegin` that holds as many closes as opens) and L = posEnd - posBegin + 1;
in every other case it returns 0. -/
theorem Lookup_balanced (ring : List Nat) (o c : Nat) (hne : o ≠ c) :
    (0 < (TcpClient.Lookup ring o c).1 ↔
      ∃ b q, firstOpenAt ring o c b ∧ matchingClose ring o c b q) ∧
    (∀ b q, firstOpenAt ring o c b → matchingClose ring o c b q →
      (TcpClient.Lookup ring o c).2.1 = b ∧ (TcpClient.Lookup ring o c).2.2 = q ∧
      (TcpClient.Lookup ring o c).1 = (q : Int) - b + 1) ∧
    ((¬ ∃ b q, firstOpenAt ring o c b ∧ matchingClose ring o c b q) →
      (TcpClient.Lookup ring o c).1 = 0) := by
  rcases first_delimiter o c ring with hnone | ⟨pre, d, rest, hring, hpre, hd⟩
  · have hL := Lookup_no_delimiter o c ring hnone
    have hno : ∀ b, ¬ firstOpenAt ring o c b := by
      intro b hb
      exact absurd rfl (hnone o (List.getElem?_mem hb.1)).1
    refine ⟨⟨fun h => by rw [hL] at h; exact absurd h (lt_irrefl 0),
      fun ⟨b, _, hb, _⟩ => absurd hb (hno b)⟩, fun b q hb _ => absurd hb (hno b), fun _ => hL⟩
  · subst hring
    by_cases hdo : d = o
    · subst hdo
      obtain ⟨hfound, hnot⟩ := Lookup_open_first d c hne pre rest hpre
      by_cases hex : ∃ k, k < rest.length ∧
          1 + (rest.take (k + 1)).count d = 0 + (rest.take (k + 1)).count c
      · obtain ⟨hk0, hb0⟩ := Nat.find_spec hex
        have hmin0 : ∀ j, j < Nat.find hex →
            1 + (rest.take (j + 1)).count d ≠ 0 + (rest.take (j + 1)).count c := by
          intro j hj hb
          exact Nat.find_min hex hj ⟨by omega, hb⟩
        have hL := hfound (Nat.find hex) hk0 hb0 hmin0
        have hm := matchingClose_of_split d c hne pre rest (Nat.find hex) hk0 hb0 hmin0
        have hf := firstOpenAt_of_split d c pre rest hpre
        refine ⟨⟨fun _ => ⟨_, _, hf, hm⟩, fun _ => by rw [hL]; dsimp only; omega⟩, ?_,
          fun h => absurd ⟨_, _, hf, hm⟩ h⟩
        intro b q hb hq
        obtain ⟨hbe, -⟩ := firstOpenAt_split d c pre rest d hpre (Or.inl rfl) b hb
        subst hbe
        obtain ⟨k, hqk, hk, hbk, hmink⟩ := matchingClose_split d c hne pre rest q hq
        have hkk : k = Nat.find hex := by
          have h1 : Nat.find hex ≤ k := Nat.find_min' hex ⟨hk, hbk⟩
          by_contra hne'
          exact hmink (Nat.find hex) (by omega) hb0
        rw [hL, hqk, hkk]
        dsimp only
        refine ⟨rfl, by push_cast; ring, by push_cast; ring⟩
      · have hno : ∀ k, k < rest.length →
            1 + (rest.take (k + 1)).count d ≠ 0 + (rest.take (k + 1)).count c :=
          fun k hk hb => hex ⟨k, hk, hb⟩
        have hL := hnot hno
        have hnone : ¬ ∃ b q, firstOpenAt (pre ++ d :: rest) d c b ∧
            matchingClose (pre ++ d :: rest) d c b q := by
          rintro ⟨b, q, hb, hq⟩
          obtain ⟨hbe, -⟩ := firstOpenAt_split d c pre rest d hpre (Or.inl rfl) b hb
          subst hbe
          obtain ⟨k, -, hk, hbk, -⟩ := matchingClose_split d c hne pre rest q hq
          exact hno k hk hbk
        refine ⟨⟨fun h => by rw [hL] at h; exact absurd h (lt_irrefl 0),
          fun h => absurd h hnone⟩, fun b q hb hq => absurd ⟨b, q, hb, hq⟩ hnone, fun _ => hL⟩
    · have hdc : d = c := hd.resolve_left hdo
      subst hdc
      have hL := Lookup_close_first o d hne pre rest hpre
      have hno : ∀ b, ¬ firstOpenAt (pre ++ d :: rest) o d b := by
        intro b hb
        exact hdo (firstOpenAt_split o d pre rest d hpre (Or.inr rfl) b hb).2
      refine ⟨⟨fun h => by rw [hL] at h; exact absurd h (lt_irrefl 0),
        fun ⟨b, _, hb, _⟩ => absurd hb (hno b)⟩, fun b q hb _ => absurd hb (hno b), fun _ => hL⟩

/-- C22, witness: the ring `x{a{b}c}d` with the delimiters of JSON. -/
theorem Lookup_balanced_witness :
    (0 < (TcpClient.Lookup exJson 123 125).1 ↔
      ∃ b q, firstOpenAt exJson 123 125 b ∧ matchingClose exJson 123 125 b q) ∧
    (∀ b q, firstOpenAt exJson 123 125 b → matchingClose exJson 123 125 b q →
      (TcpClient.Lookup exJson 123 125).2.1 = b ∧ (TcpClient.Lookup exJson 123 125).2.2 = q ∧
      (TcpClient.Lookup exJson 123 125).1 = (q : Int) - b + 1) ∧
    ((¬ ∃ b q, firstOpenAt exJson 123 125 b ∧ matchingClose exJson 123 125 b q) →
      (TcpClient.Lookup exJson 123 125).1 = 0) :=
  Lookup_balanced exJson 123 125 (by decide)

/-- On `x{a{b}c}d` the scan returns the length 7 with `posBegin = 1` and
`posEnd = 7`; on `}{}`, whose first delimiter is a close, and on `{{}`, whose
first open is never matched, it returns 0. -/
theorem exJson_Lookup :
    TcpClient.Lookup exJson 123 125 = (7, 1, 7) ∧
    (TcpClient.Lookup [125, 123, 125] 123 125).1 = 0 ∧
    (TcpClient.Lookup [123, 123, 125] 123 125).1 = 0 := by
  decide

end Wemon
